import Mathlib

/-!
Real-time subscription engine of the Twitch gaming trend monitor.

A shallow embedding of `services/websocket.js` (class `WebSocketManager`) and of the
part of `services/cache.js` (class `CacheService`) that it calls, followed by the
properties of the subscription / broadcast engine proved about the embedding.  Around the
engine, the file also embeds the counters of `CacheService` (`increment`, `decrement`,
`isRateLimited`), the previous-hour lookup of the trend-analysis job of `services/cron.js`,
the client provider of `WebSocketContext.js`, and the route table of `server.js` with the
router of `routes/games.js`.

Modelling conventions

* A JavaScript `Map` is an insertion-ordered association list and a JavaScript `Set`
  an insertion-ordered list.  The operations below behave like their JavaScript
  counterparts on lists without repeated keys (resp. elements); that the registry, the
  client map, the subscriber sets and the list of sockets are of this kind after every
  sequence of events is proved (`Inv`), not assumed.
* The room that socket.io makes every socket join under its own id is left out of the
  joined rooms: no room name used by the handlers is a socket id.
* Identifiers coming from clients (`streamerId`, `gameId`, the decoded `id`) are kept
  as the strings that the template literals of the source interpolate.
* A payload is a JSON value.  Redis stores `JSON.stringify(value)` and `CacheService.get`
  returns `JSON.parse` of it, which is the value again; the store itself is a list of
  (key, value, expiry) and every Redis command succeeds.
* Every handler runs to completion before the next one starts (the source awaits only
  the cache and the upstream service inside a handler).  `broadcastStreamerUpdate` is
  modelled a second time with its suspension point (`asyncStep`), a waiting call
  resuming when its cache write resolves, in whatever order the schedule resolves them.
* Time is the integer number of milliseconds that `Date.now()` returns.
* A Redis counter is an integer with an optional expiry; `incrBy`, `decrBy` and `expire`
  behave as Redis documents them (a missing or expired key counts as 0 and is created
  without a time to live, an existing key keeps its time to live).
* A date of the `GameTrend` table is the number of its day; a growth rate is a rational
  number where the source computes a floating-point one.
* The client provider is a state machine over the events of its socket and the calls of
  the functions it exports; a call sees the state left by the event before it.  The
  retries of the socket.io client itself are not part of it.
* An HTTP request is matched on the segments of its path, first registered route first;
  a call of the database or of the Twitch service that can throw answers `Except.error`.
-/

namespace TwitchTrend

/-! ## Values -/

/-- JSON payloads.  Objects and arrays are kept as their JSON text: the code only tests
a payload for truthiness and forwards it. -/
inductive Json where
  | null
  | bool (b : Bool)
  | num (n : Int)
  | str (s : String)
  | composite (text : String)
  deriving DecidableEq, Repr

/-- JavaScript truthiness of a JSON value, as tested by `if (cachedData)`. -/
def Json.truthy : Json → Bool
  | .null => false
  | .bool b => b
  | .num n => n != 0
  | .str s => s != ""
  | .composite _ => true

/-- An event emitted to a client: `socket.emit(name, { fields })`. -/
structure Emit where
  name : String
  fields : List (String × Json)
  deriving DecidableEq, Repr

/-! ## JavaScript `Set` and `Map` -/

/-- Insertion-ordered set of strings (`new Set()`). -/
abbrev JSSet := List String

/-- `set.add(x)`. -/
def JSSet.add (s : JSSet) (x : String) : JSSet :=
  if x ∈ s then s else s ++ [x]

/-- `set.delete(x)`. -/
def JSSet.delete (s : JSSet) (x : String) : JSSet :=
  s.filter (fun y => y != x)

/-- `set.size`. -/
def JSSet.size (s : JSSet) : Nat := s.length

/-- Insertion-ordered map with string keys (`new Map()`). -/
abbrev JSMap (β : Type) := List (String × β)

/-- `map.has(k)`. -/
def JSMap.has {β : Type} (m : JSMap β) (k : String) : Bool :=
  m.any (fun e => e.1 == k)

/-- `map.get(k)`, `none` standing for `undefined`. -/
def JSMap.get {β : Type} (m : JSMap β) (k : String) : Option β :=
  match m with
  | [] => none
  | e :: rest => if e.1 = k then some e.2 else JSMap.get rest k

/-- `map.set(k, v)`: an existing key keeps its position, a new key goes last. -/
def JSMap.set {β : Type} (m : JSMap β) (k : String) (v : β) : JSMap β :=
  if JSMap.has m k then m.map (fun e => if e.1 = k then (k, v) else e) else m ++ [(k, v)]

/-- `map.delete(k)`. -/
def JSMap.delete {β : Type} (m : JSMap β) (k : String) : JSMap β :=
  m.filter (fun e => e.1 != k)

/-- `Array.from(map.keys())`. -/
def JSMap.keys {β : Type} (m : JSMap β) : List String := m.map Prod.fst

/-! ## State -/

/-- The payload of a verified token: `decoded.id` and `decoded.username`. -/
structure Decoded where
  id : String
  username : String
  deriving DecidableEq, Repr

/-- A value of `this.clients`: `{ userId, username, connectedAt }`. -/
structure ClientInfo where
  userId : String
  username : String
  connectedAt : Int
  deriving DecidableEq, Repr

/-- A connected socket.io socket: its id, the two properties the handlers write on it
(`socket.authenticated`, `socket.userId`, both `undefined` at first) and the rooms it
joined with `socket.join`. -/
structure Socket where
  id : String
  authenticated : Bool
  userId : Option String
  rooms : JSSet
  deriving DecidableEq, Repr

/-- A Redis entry: the stored value and the time after which it is expired. -/
structure CacheEntry where
  value : Json
  expiresAt : Int
  deriving DecidableEq, Repr

/-- The state of the server: the `WebSocketManager` instance (`clients`, `rooms`), the
sockets of `io.sockets.sockets`, the Redis store behind `CacheService`, the clock, and
the log of every event delivered to a client (recipient socket id, event), oldest first. -/
structure Manager where
  sockets : List Socket
  clients : JSMap ClientInfo
  rooms : JSMap JSSet
  cache : JSMap CacheEntry
  now : Int
  sent : List (String × Emit)
  deriving DecidableEq, Repr

/-- The state right after `new WebSocketManager(io)`. -/
def Manager.init : Manager :=
  { sockets := [], clients := [], rooms := [], cache := [], now := 0, sent := [] }

/-- `io.sockets.sockets.get(id)`. -/
def Manager.findSocket (s : Manager) (id : String) : Option Socket :=
  s.sockets.find? (fun k => k.id == id)

/-- Replace the socket with the given id by `f` of it (a write to a property of the
socket object). -/
def Manager.updateSocket (s : Manager) (id : String) (f : Socket → Socket) : Manager :=
  { s with sockets := s.sockets.map (fun k => if k.id = id then f k else k) }

/-- `socket.emit(name, fields)` on the socket with the given id. -/
def Manager.emit (s : Manager) (id : String) (e : Emit) : Manager :=
  { s with sent := s.sent ++ [(id, e)] }

/-- `socket.join(room)`. -/
def Manager.join (s : Manager) (id room : String) : Manager :=
  s.updateSocket id (fun k => { k with rooms := JSSet.add k.rooms room })

/-- `socket.leave(room)`. -/
def Manager.leave (s : Manager) (id room : String) : Manager :=
  s.updateSocket id (fun k => { k with rooms := JSSet.delete k.rooms room })

/-- `io.to(room).emit(...)`: one delivery to every connected socket that joined `room`. -/
def Manager.emitToRoom (s : Manager) (room : String) (e : Emit) : Manager :=
  { s with sent := s.sent ++
      ((s.sockets.filter (fun k => decide (room ∈ k.rooms))).map (fun k => (k.id, e))) }

/-- `io.emit(...)`: one delivery to every connected socket. -/
def Manager.emitToAll (s : Manager) (e : Emit) : Manager :=
  { s with sent := s.sent ++ (s.sockets.map (fun k => (k.id, e))) }

/-! ## `CacheService` -/

/-- `CacheService.set(key, value, ttl)`: `redisClient.setEx(key, ttl, JSON.stringify(value))`;
the entry expires `ttl` seconds after the write.  This is the `try` branch: the `catch`
branch, in which `setEx` throws, nothing is stored and `false` is returned, is left out. -/
def CacheService.set (cache : JSMap CacheEntry) (now : Int) (key : String) (value : Json)
    (ttl : Int) : JSMap CacheEntry :=
  JSMap.set cache key { value := value, expiresAt := now + ttl * 1000 }

/-- `CacheService.get(key)`: `data ? JSON.parse(data) : null`, where Redis answers `null`
for a key that was never stored or whose entry is expired.  This is the `try` branch: the
`catch` branch, in which the read throws and `null` is returned, is left out. -/
def CacheService.get (cache : JSMap CacheEntry) (now : Int) (key : String) : Json :=
  match JSMap.get cache key with
  | some e => if now > e.expiresAt then Json.null else e.value
  | none => Json.null

/-- `CacheService.cacheStreamData(streamerId, data, ttl)`. -/
def CacheService.cacheStreamData (cache : JSMap CacheEntry) (now : Int) (streamerId : String)
    (data : Json) (ttl : Int) : JSMap CacheEntry :=
  CacheService.set cache now ("stream:" ++ streamerId) data ttl

/-- `CacheService.getStreamData(streamerId)`. -/
def CacheService.getStreamData (cache : JSMap CacheEntry) (now : Int) (streamerId : String) :
    Json :=
  CacheService.get cache now ("stream:" ++ streamerId)

/-- `CacheService.cacheViewerCount(streamerId, count, ttl)`. -/
def CacheService.cacheViewerCount (cache : JSMap CacheEntry) (now : Int) (streamerId : String)
    (count : Json) (ttl : Int) : JSMap CacheEntry :=
  CacheService.set cache now ("viewers:" ++ streamerId) count ttl

/-- `CacheService.cacheGameTrend(gameId, trendData, ttl)`. -/
def CacheService.cacheGameTrend (cache : JSMap CacheEntry) (now : Int) (gameId : String)
    (trendData : Json) (ttl : Int) : JSMap CacheEntry :=
  CacheService.set cache now ("trend:game:" ++ gameId) trendData ttl

/-- `CacheService.getGameTrend(gameId)`. -/
def CacheService.getGameTrend (cache : JSMap CacheEntry) (now : Int) (gameId : String) : Json :=
  CacheService.get cache now ("trend:game:" ++ gameId)

/-! ## Socket event handlers of `setupEventHandlers` -/

/-- The event `socket.emit('error', { message: 'Authentication required' })`. -/
def authRequired : Emit :=
  Emit.mk "error" [("message", Json.str "Authentication required")]

/-- Handler of `authenticate`.  `jwtVerify token now` is `jwt.verify(token, JWT_SECRET)`
evaluated at time `now`: the decoded payload, or `none` when it throws. -/
def onAuthenticate (jwtVerify : String → Int → Option Decoded) (s : Manager) (id token : String) :
    Manager :=
  match jwtVerify token s.now with
  | some decoded =>
      let s1 := s.updateSocket id
        (fun k => { k with userId := some decoded.id, authenticated := true })
      let info : ClientInfo :=
        { userId := decoded.id, username := decoded.username, connectedAt := s1.now }
      let s2 := { s1 with clients := JSMap.set s1.clients id info }
      let s3 := s2.emit id (Emit.mk "authenticated"
          [("success", Json.bool true), ("userId", Json.str decoded.id),
           ("username", Json.str decoded.username)])
      s3.join id ("user_" ++ decoded.id)
  | none =>
      s.emit id (Emit.mk "authentication_error"
          [("error", Json.str "Invalid token")])

/-- The registry write shared by the two subscribe handlers:
`if (!this.rooms.has(room)) this.rooms.set(room, new Set()); this.rooms.get(room).add(id)`. -/
def registryAdd (rooms : JSMap JSSet) (room id : String) : JSMap JSSet :=
  let rooms1 := if !JSMap.has rooms room then JSMap.set rooms room [] else rooms
  JSMap.set rooms1 room (JSSet.add ((JSMap.get rooms1 room).getD []) id)

/-- The registry write shared by the two unsubscribe handlers:
`if (this.rooms.has(room)) { this.rooms.get(room).delete(id); if (size === 0) this.rooms.delete(room) }`. -/
def registryRemove (rooms : JSMap JSSet) (room id : String) : JSMap JSSet :=
  if JSMap.has rooms room then
    let members := JSSet.delete ((JSMap.get rooms room).getD []) id
    let rooms1 := JSMap.set rooms room members
    if JSSet.size members = 0 then JSMap.delete rooms1 room else rooms1
  else rooms

/-- Handler of `subscribe_streamer`, run for the connected socket `socket`. -/
def onSubscribeStreamer (s : Manager) (socket : Socket) (streamerId : String) : Manager :=
  if !socket.authenticated then s.emit socket.id authRequired
  else
    let room := "streamer_" ++ streamerId
    let s1 := s.join socket.id room
    let s2 := { s1 with rooms := registryAdd s1.rooms room socket.id }
    let cachedData := CacheService.getStreamData s2.cache s2.now streamerId
    let s3 := if cachedData.truthy then
        s2.emit socket.id (Emit.mk "streamer_update"
            [("streamerId", Json.str streamerId), ("data", cachedData)])
      else s2
    s3.emit socket.id (Emit.mk "subscribed"
        [("streamerId", Json.str streamerId), ("room", Json.str room)])

/-- Handler of `unsubscribe_streamer`. -/
def onUnsubscribeStreamer (s : Manager) (socket : Socket) (streamerId : String) : Manager :=
  let room := "streamer_" ++ streamerId
  let s1 := s.leave socket.id room
  let s2 := { s1 with rooms := registryRemove s1.rooms room socket.id }
  s2.emit socket.id (Emit.mk "unsubscribed"
      [("streamerId", Json.str streamerId)])

/-- Handler of `subscribe_game`. -/
def onSubscribeGame (s : Manager) (socket : Socket) (gameId : String) : Manager :=
  if !socket.authenticated then s.emit socket.id authRequired
  else
    let room := "game_" ++ gameId
    let s1 := s.join socket.id room
    let s2 := { s1 with rooms := registryAdd s1.rooms room socket.id }
    let trendData := CacheService.getGameTrend s2.cache s2.now gameId
    let s3 := if trendData.truthy then
        s2.emit socket.id (Emit.mk "game_trend_update"
            [("gameId", Json.str gameId), ("data", trendData)])
      else s2
    s3.emit socket.id (Emit.mk "subscribed"
        [("gameId", Json.str gameId), ("room", Json.str room)])

/-- Handler of `unsubscribe_game`. -/
def onUnsubscribeGame (s : Manager) (socket : Socket) (gameId : String) : Manager :=
  let room := "game_" ++ gameId
  let s1 := s.leave socket.id room
  let s2 := { s1 with rooms := registryRemove s1.rooms room socket.id }
  s2.emit socket.id (Emit.mk "unsubscribed"
      [("gameId", Json.str gameId)])

/-- Handler of `subscribe_global_trends`. -/
def onSubscribeGlobalTrends (s : Manager) (socket : Socket) : Manager :=
  if !socket.authenticated then s.emit socket.id authRequired
  else
    let s1 := s.join socket.id "global_trends"
    s1.emit socket.id (Emit.mk "subscribed"
        [("room", Json.str "global_trends")])

/-- Handler of `get_viewer_count`; `result` is what `TwitchService.getViewerCount` resolves
to, `none` when it rejects. -/
def onGetViewerCount (s : Manager) (socket : Socket) (streamerId : String)
    (result : Option Json) : Manager :=
  match result with
  | some count => s.emit socket.id (Emit.mk "viewer_count"
      [("streamerId", Json.str streamerId), ("count", count)])
  | none => s.emit socket.id (Emit.mk "error"
      [("message", Json.str "Failed to get viewer count")])

/-- Handler of `check_live_status`; `result` is what `TwitchService.isStreamLive` resolves
to, `none` when it rejects. -/
def onCheckLiveStatus (s : Manager) (socket : Socket) (streamerId : String)
    (result : Option Json) : Manager :=
  match result with
  | some isLive => s.emit socket.id (Emit.mk "live_status"
      [("streamerId", Json.str streamerId), ("isLive", isLive)])
  | none => s.emit socket.id (Emit.mk "error"
      [("message", Json.str "Failed to check live status")])

/-- Handler of `analyze_chat`; `result` is what `this.analyzeChatSentiment` resolves to,
`none` when it rejects. -/
def onAnalyzeChat (s : Manager) (socket : Socket) (streamerId : String)
    (result : Option Json) : Manager :=
  if !socket.authenticated then s.emit socket.id authRequired
  else
    match result with
    | some analysis => s.emit socket.id (Emit.mk "chat_analysis"
        [("streamerId", Json.str streamerId), ("analysis", analysis)])
    | none => s.emit socket.id (Emit.mk "error"
        [("message", Json.str "Failed to analyze chat")])

/-- The loop of the `disconnect` handler over `this.rooms.entries()`: the visited set
loses `id` and an entry whose set became empty is deleted.  `entries` is what is left to
visit, `rooms` the map as the loop has left it so far. -/
def disconnectSweep (id : String) : List (String × JSSet) → JSMap JSSet → JSMap JSSet
  | [], rooms => rooms
  | (room, members) :: rest, rooms =>
      let members1 := JSSet.delete members id
      let rooms1 := JSMap.set rooms room members1
      disconnectSweep id rest
        (if JSSet.size members1 = 0 then JSMap.delete rooms1 room else rooms1)

/-- Handler of `disconnect`. -/
def onDisconnect (s : Manager) (id : String) : Manager :=
  let s1 := { s with clients := JSMap.delete s.clients id }
  { s1 with rooms := disconnectSweep id s1.rooms s1.rooms }

/-- The end of a connection, whether the client went away or the server called
`socket.disconnect()`: socket.io takes the socket out of its rooms and out of
`io.sockets.sockets`, then fires `disconnect`. -/
def closeSocket (s : Manager) (id : String) : Manager :=
  match s.findSocket id with
  | none => s
  | some _ => onDisconnect { s with sockets := s.sockets.filter (fun k => k.id != id) } id

/-! ## Broadcast methods -/

/-- `broadcastStreamerUpdate(streamerId, data)`. -/
def broadcastStreamerUpdate (s : Manager) (streamerId : String) (data : Json) : Manager :=
  let room := "streamer_" ++ streamerId
  let s1 := { s with cache := CacheService.cacheStreamData s.cache s.now streamerId data 60 }
  s1.emitToRoom room (Emit.mk "streamer_update"
      [("streamerId", Json.str streamerId), ("data", data), ("timestamp", Json.num s1.now)])

/-- `broadcastGameTrendUpdate(gameId, trendData)`. -/
def broadcastGameTrendUpdate (s : Manager) (gameId : String) (trendData : Json) : Manager :=
  let room := "game_" ++ gameId
  let s1 := { s with cache := CacheService.cacheGameTrend s.cache s.now gameId trendData 300 }
  s1.emitToRoom room (Emit.mk "game_trend_update"
      [("gameId", Json.str gameId), ("data", trendData), ("timestamp", Json.num s1.now)])

/-- `broadcastGlobalTrends(trendsData)`. -/
def broadcastGlobalTrends (s : Manager) (trendsData : Json) : Manager :=
  s.emitToRoom "global_trends" (Emit.mk "global_trends_update"
      [("data", trendsData), ("timestamp", Json.num s.now)])

/-- `broadcastAlert(alertData)`: the event is `{ ...alertData, timestamp }`, `alertData`
given by its fields. -/
def broadcastAlert (s : Manager) (alertData : List (String × Json)) : Manager :=
  s.emitToAll (Emit.mk "alert" (JSMap.set alertData "timestamp" (Json.num s.now)))

/-- `sendUserNotification(userId, notification)`: the event is
`{ ...notification, timestamp }`. -/
def sendUserNotification (s : Manager) (userId : String) (notification : List (String × Json)) :
    Manager :=
  s.emitToRoom ("user_" ++ userId) (Emit.mk "notification"
      (JSMap.set notification "timestamp" (Json.num s.now)))

/-- `broadcastViewerCountUpdate(streamerId, count)`. -/
def broadcastViewerCountUpdate (s : Manager) (streamerId : String) (count : Json) : Manager :=
  let room := "streamer_" ++ streamerId
  let s1 := { s with cache := CacheService.cacheViewerCount s.cache s.now streamerId count 30 }
  s1.emitToRoom room (Emit.mk "viewer_count_update"
      [("streamerId", Json.str streamerId), ("count", count), ("timestamp", Json.num s1.now)])

/-- `broadcastLiveStatusChange(streamerId, isLive, streamData)`. -/
def broadcastLiveStatusChange (s : Manager) (streamerId : String) (isLive streamData : Json) :
    Manager :=
  let room := "streamer_" ++ streamerId
  s.emitToRoom room (Emit.mk "live_status_change"
      [("streamerId", Json.str streamerId), ("isLive", isLive), ("streamData", streamData),
       ("timestamp", Json.num s.now)])

/-! ## Queries and the sweep -/

/-- `getConnectedClientsCount()`. -/
def getConnectedClientsCount (s : Manager) : Nat := s.clients.length

/-- `getActiveRooms()`. -/
def getActiveRooms (s : Manager) : List String := JSMap.keys s.rooms

/-- `getRoomSubscriberCount(room)`: `this.rooms.get(room)?.size || 0`. -/
def getRoomSubscriberCount (s : Manager) (room : String) : Nat :=
  match JSMap.get s.rooms room with
  | some members => JSSet.size members
  | none => 0

/-- The body of the loop of `cleanupInactiveConnections` for one entry of `this.clients`. -/
def cleanupStep (now : Int) (s : Manager) (entry : String × ClientInfo) : Manager :=
  let timeout : Int := 30 * 60 * 1000
  if now - entry.2.connectedAt > timeout then
    match s.findSocket entry.1 with
    | some socket => if !socket.authenticated then closeSocket s entry.1 else s
    | none => s
  else s

/-- `cleanupInactiveConnections()`: the loop over `this.clients.entries()`. -/
def cleanupInactiveConnections (s : Manager) : Manager :=
  s.clients.foldl (cleanupStep s.now) s

/-! ## Runs -/

/-- What can happen to the server: a transport connection, a client event on a socket, the
end of a connection, a call of a public method of `WebSocketManager`, or time passing. -/
inductive Event where
  | connection (id : String)
  | authenticate (id token : String)
  | subscribe_streamer (id streamerId : String)
  | unsubscribe_streamer (id streamerId : String)
  | subscribe_game (id gameId : String)
  | unsubscribe_game (id gameId : String)
  | subscribe_global_trends (id : String)
  | get_viewer_count (id streamerId : String) (result : Option Json)
  | check_live_status (id streamerId : String) (result : Option Json)
  | analyze_chat (id streamerId : String) (result : Option Json)
  | disconnect (id : String)
  | broadcastStreamerUpdate (streamerId : String) (data : Json)
  | broadcastGameTrendUpdate (gameId : String) (trendData : Json)
  | broadcastGlobalTrends (trendsData : Json)
  | broadcastAlert (alertData : List (String × Json))
  | sendUserNotification (userId : String) (notification : List (String × Json))
  | broadcastViewerCountUpdate (streamerId : String) (count : Json)
  | broadcastLiveStatusChange (streamerId : String) (isLive streamData : Json)
  | cleanupInactiveConnections
  | tick (ms : Nat)
  deriving DecidableEq, Repr

/-- Run a handler for the socket with the given id; an event for a socket that is not
connected does not occur, and leaves the state as it is. -/
def withSocket (s : Manager) (id : String) (handler : Socket → Manager) : Manager :=
  match s.findSocket id with
  | some socket => handler socket
  | none => s

/-- One step of the server. -/
def step (jwtVerify : String → Int → Option Decoded) (s : Manager) : Event → Manager
  | .connection id =>
      if (s.findSocket id).isSome then s
      else { s with sockets := s.sockets ++
        [{ id := id, authenticated := false, userId := none, rooms := [] }] }
  | .authenticate id token => withSocket s id (fun _ => onAuthenticate jwtVerify s id token)
  | .subscribe_streamer id streamerId =>
      withSocket s id (fun k => onSubscribeStreamer s k streamerId)
  | .unsubscribe_streamer id streamerId =>
      withSocket s id (fun k => onUnsubscribeStreamer s k streamerId)
  | .subscribe_game id gameId => withSocket s id (fun k => onSubscribeGame s k gameId)
  | .unsubscribe_game id gameId => withSocket s id (fun k => onUnsubscribeGame s k gameId)
  | .subscribe_global_trends id => withSocket s id (fun k => onSubscribeGlobalTrends s k)
  | .get_viewer_count id streamerId result =>
      withSocket s id (fun k => onGetViewerCount s k streamerId result)
  | .check_live_status id streamerId result =>
      withSocket s id (fun k => onCheckLiveStatus s k streamerId result)
  | .analyze_chat id streamerId result =>
      withSocket s id (fun k => onAnalyzeChat s k streamerId result)
  | .disconnect id => closeSocket s id
  | .broadcastStreamerUpdate streamerId data => broadcastStreamerUpdate s streamerId data
  | .broadcastGameTrendUpdate gameId trendData => broadcastGameTrendUpdate s gameId trendData
  | .broadcastGlobalTrends trendsData => broadcastGlobalTrends s trendsData
  | .broadcastAlert alertData => broadcastAlert s alertData
  | .sendUserNotification userId notification => sendUserNotification s userId notification
  | .broadcastViewerCountUpdate streamerId count => broadcastViewerCountUpdate s streamerId count
  | .broadcastLiveStatusChange streamerId isLive streamData =>
      broadcastLiveStatusChange s streamerId isLive streamData
  | .cleanupInactiveConnections => cleanupInactiveConnections s
  | .tick ms => { s with now := s.now + ms }

/-- The state after a sequence of events. -/
def run (jwtVerify : String → Int → Option Decoded) (s : Manager) (events : List Event) :
    Manager :=
  events.foldl (step jwtVerify) s

/-- A verifier for examples: the token `good` decodes to user `7` named `ann`, the token
`good2` to user `8` named `bob`, every other token is rejected. -/
def sampleVerify (token : String) (_now : Int) : Option Decoded :=
  if token = "good" then some { id := "7", username := "ann" }
  else if token = "good2" then some { id := "8", username := "bob" }
  else none

/-! ## Notions used in the statements -/

/-- The subscriber set the registry holds for a room: `this.rooms.get(room)`, empty for a
room that is not a key. -/
def resolveSubscribers (rooms : JSMap JSSet) (room : String) : JSSet :=
  (JSMap.get rooms room).getD []

/-- Whether the socket with the given id is connected, i.e. is in `io.sockets.sockets`. -/
def Manager.connected (s : Manager) (id : String) : Bool :=
  (s.findSocket id).isSome

/-- Whether the socket with the given id is connected and has `socket.authenticated` set. -/
def Manager.isAuthenticated (s : Manager) (id : String) : Bool :=
  match s.findSocket id with
  | some k => k.authenticated
  | none => false

/-- The registry once `id` has been taken out of every subscriber set and the entries
left without subscribers have been dropped. -/
def registryWithout (id : String) (rooms : JSMap JSSet) : JSMap JSSet :=
  (rooms.map (fun e => (e.1, JSSet.delete e.2 id))).filter (fun e => e.2.length != 0)

/-- What holds of the state after every sequence of events. -/
structure Inv (s : Manager) : Prop where
  socketIds : (s.sockets.map Socket.id).Nodup
  roomKeys : (JSMap.keys s.rooms).Nodup
  clientKeys : (JSMap.keys s.clients).Nodup
  nonempty : ∀ e ∈ s.rooms, e.2 ≠ []
  memberNodup : ∀ e ∈ s.rooms, e.2.Nodup
  memberJoined : ∀ e ∈ s.rooms, ∀ c ∈ e.2, ∃ k ∈ s.sockets, k.id = c ∧ e.1 ∈ k.rooms
  joinedAuth : ∀ k ∈ s.sockets, k.rooms ≠ [] → k.authenticated = true
  clientAuth : ∀ e ∈ s.clients, ∃ k ∈ s.sockets, k.id = e.1 ∧ k.authenticated = true

/-- The room names of the two topic kinds that the subscribe handlers enter in the
registry: `streamer_<id>` and `game_<id>`. -/
def isTopicRoom (room : String) : Prop :=
  (∃ streamerId, room = "streamer_" ++ streamerId) ∨ (∃ gameId, room = "game_" ++ gameId)

/-- Every connected socket is in the registry's subscriber set of each streamer or game
room it has joined. -/
def Registered (s : Manager) : Prop :=
  ∀ k ∈ s.sockets, ∀ room ∈ k.rooms, isTopicRoom room → ∃ e ∈ s.rooms, e.1 = room ∧ k.id ∈ e.2

/-- The socket on which a client event is handled; `none` for the events that do not come
from a connected client. -/
def Event.socket : Event → Option String
  | Event.authenticate id _ => some id
  | Event.subscribe_streamer id _ => some id
  | Event.unsubscribe_streamer id _ => some id
  | Event.subscribe_game id _ => some id
  | Event.unsubscribe_game id _ => some id
  | Event.subscribe_global_trends id => some id
  | Event.get_viewer_count id _ _ => some id
  | Event.check_live_status id _ _ => some id
  | Event.analyze_chat id _ _ => some id
  | Event.disconnect id => some id
  | _ => none

/-- The connection `d` is the same in `t` as in `s`: the same socket (connected or not,
authentication state, identity, joined rooms), the same entry of `this.clients`, and in the
same subscriber sets of `this.rooms`. -/
def SameFor (d : String) (s t : Manager) : Prop :=
  t.findSocket d = s.findSocket d ∧
  JSMap.get t.clients d = JSMap.get s.clients d ∧
  ∀ room, d ∈ resolveSubscribers t.rooms room ↔ d ∈ resolveSubscribers s.rooms room

/-- A call of `broadcastStreamerUpdate(streamerId, data)` that is suspended at
`await CacheService.cacheStreamData(...)`. -/
structure PendingBroadcast where
  streamerId : String
  data : Json
  deriving DecidableEq, Repr

/-- The server together with the calls of `broadcastStreamerUpdate` that wait for their
cache write, oldest first.  The source has no queue, lock or sequence number: whichever
waiting call has its cache write resolved resumes. -/
structure AsyncManager where
  state : Manager
  pending : List PendingBroadcast
  deriving DecidableEq, Repr

/-- What happens while broadcasts are in flight: `broadcastStreamerUpdate` is called and
runs up to its `await`, the cache write of the waiting call at position `i` (0 for the
oldest) resolves and that call resumes, or time passes. -/
inductive AsyncEvent where
  | call (streamerId : String) (data : Json)
  | resolve (i : Nat)
  | tick (ms : Nat)
  deriving DecidableEq, Repr

/-- One step of the server with `broadcastStreamerUpdate` split at its `await`: the part
before it sends the cache write, the part after it emits to the room with the time of the
resumption as `timestamp`. -/
def asyncStep (m : AsyncManager) : AsyncEvent → AsyncManager
  | AsyncEvent.call streamerId data =>
      { state := { m.state with cache :=
          CacheService.cacheStreamData m.state.cache m.state.now streamerId data 60 },
        pending := m.pending ++ [{ streamerId := streamerId, data := data }] }
  | AsyncEvent.resolve i =>
      match m.pending.get? i with
      | none => m
      | some p =>
          { state := m.state.emitToRoom ("streamer_" ++ p.streamerId)
              (Emit.mk "streamer_update"
                [("streamerId", Json.str p.streamerId), ("data", p.data),
                 ("timestamp", Json.num m.state.now)]),
            pending := m.pending.eraseIdx i }
  | AsyncEvent.tick ms => { m with state := { m.state with now := m.state.now + ms } }

/-- The state after a schedule of calls, resolutions and ticks. -/
def asyncRun (m : AsyncManager) (schedule : List AsyncEvent) : AsyncManager :=
  schedule.foldl asyncStep m

/-- Whether a delivery is a `streamer_update` for streamer `streamerId` to the connection
`c`; if so, its `data`. -/
def streamerUpdateData (c streamerId : String) (m : String × Emit) : Option Json :=
  if m.1 = c ∧ m.2.name = "streamer_update" ∧
      JSMap.get m.2.fields "streamerId" = some (Json.str streamerId) then
    JSMap.get m.2.fields "data"
  else none

/-- The payloads of the `streamer_update` events for streamer `streamerId` that the
connection `c` has received, oldest first. -/
def streamerUpdatesTo (log : List (String × Emit)) (c streamerId : String) : List Json :=
  log.filterMap (streamerUpdateData c streamerId)

/-- The payloads of the calls for streamer `streamerId` that are waiting, oldest first. -/
def pendingFor (pending : List PendingBroadcast) (streamerId : String) : List Json :=
  pending.filterMap (fun p => if p.streamerId = streamerId then some p.data else none)

/-- Whether every cache write of a schedule resolves while it is the oldest one waiting,
that is, whether the writes resolve in the order in which they were issued. -/
def resolvesOldestFirst (schedule : List AsyncEvent) : Bool :=
  schedule.all (fun e =>
    match e with
    | AsyncEvent.resolve i => i == 0
    | _ => true)

/-- The payloads with which a schedule calls `broadcastStreamerUpdate` for streamer
`streamerId`, in the order of the calls. -/
def calledFor (schedule : List AsyncEvent) (streamerId : String) : List Json :=
  schedule.filterMap (fun e =>
    match e with
    | AsyncEvent.call sId data => if sId = streamerId then some data else none
    | _ => none)

/-- Every connected socket with `socket.authenticated` set has an entry in
`this.clients`. -/
def Recorded (s : Manager) : Prop :=
  ∀ k ∈ s.sockets, k.authenticated = true → JSMap.has s.clients k.id = true

/-! ## Counters of `CacheService` -/

/-- A Redis key that holds an integer: the count, and the time after which the key is
expired when it has a time to live. -/
structure Counter where
  value : Int
  expiresAt : Option Int
  deriving DecidableEq, Repr

/-- What Redis holds for a key at a given time: nothing for a key that was never written
or that is expired. -/
def RedisClient.lookup (store : JSMap Counter) (now : Int) (key : String) : Option Counter :=
  match JSMap.get store key with
  | some e =>
      match e.expiresAt with
      | some t => if now > t then none else some e
      | none => some e
  | none => none

/-- `redisClient.incrBy(key, n)`: a key that does not exist counts as 0 and is created
without a time to live; an existing key keeps its time to live.  The result is the new
count. -/
def RedisClient.incrBy (store : JSMap Counter) (now : Int) (key : String) (n : Int) :
    JSMap Counter × Int :=
  match RedisClient.lookup store now key with
  | some e => (JSMap.set store key { e with value := e.value + n }, e.value + n)
  | none => (JSMap.set store key { value := n, expiresAt := none }, n)

/-- `redisClient.decrBy(key, n)`. -/
def RedisClient.decrBy (store : JSMap Counter) (now : Int) (key : String) (n : Int) :
    JSMap Counter × Int :=
  match RedisClient.lookup store now key with
  | some e => (JSMap.set store key { e with value := e.value - n }, e.value - n)
  | none => (JSMap.set store key { value := -n, expiresAt := none }, -n)

/-- `redisClient.expire(key, ttl)`: an existing key expires `ttl` seconds from now. -/
def RedisClient.expire (store : JSMap Counter) (now : Int) (key : String) (ttl : Int) :
    JSMap Counter :=
  match RedisClient.lookup store now key with
  | some e => JSMap.set store key { e with expiresAt := some (now + ttl * 1000) }
  | none => store

/-- `CacheService.increment(key, increment, ttl)`: the store after the call and the
returned count. -/
def CacheService.increment (store : JSMap Counter) (now : Int) (key : String)
    (increment ttl : Int) : JSMap Counter × Int :=
  let r := RedisClient.incrBy store now key increment
  if r.2 = increment then
    -- Key was created, set TTL
    (RedisClient.expire r.1 now key ttl, r.2)
  else r

/-- `CacheService.decrement(key, decrement)`. -/
def CacheService.decrement (store : JSMap Counter) (now : Int) (key : String)
    (decrement : Int) : JSMap Counter × Int :=
  RedisClient.decrBy store now key decrement

/-- `CacheService.isRateLimited(identifier, limit, window)`. -/
def CacheService.isRateLimited (store : JSMap Counter) (now : Int) (identifier : String)
    (limit window : Int) : JSMap Counter × Bool :=
  let r := CacheService.increment store now ("rate_limit:" ++ identifier) 1 window
  (r.1, decide (r.2 > limit))

/-! ## The trend-analysis job of `CronJobService` -/

/-- A row of the `GameTrend` table, with the columns the job reads.  A date is the number
of its day, so that the day before `d` is `d - 1`. -/
structure GameTrendRow where
  game_id : String
  date : Int
  hour : Int
  viewer_count : Int
  deriving DecidableEq, Repr

/-- `GameTrend.findOne({ where: { game_id, date, hour } })`. -/
def GameTrend.findOne (table : List GameTrendRow) (game_id : String) (date hour : Int) :
    Option GameTrendRow :=
  table.find? (fun r => r.game_id == game_id && r.date == date && r.hour == hour)

/-- The `previousTrend` of the job for one game: the row of the current date with hour
`currentHour - 1`. -/
def CronJobService.previousTrend (table : List GameTrendRow) (gameId : String)
    (currentDate currentHour : Int) : Option GameTrendRow :=
  GameTrend.findOne table gameId currentDate (currentHour - 1)

/-- The job's `previousViewers`: `previousTrend?.viewer_count || 0`. -/
def CronJobService.previousViewers (previousTrend : Option GameTrendRow) : Int :=
  match previousTrend with
  | some r => if r.viewer_count = 0 then 0 else r.viewer_count
  | none => 0

/-- The job's `growthRate`, as a rational number:
`previousViewers > 0 ? ((currentViewers - previousViewers) / previousViewers) * 100 : 0`. -/
def CronJobService.growthRate (currentViewers previousViewers : Int) : ℚ :=
  if previousViewers > 0 then
    (((currentViewers - previousViewers : Int) : ℚ) / (previousViewers : ℚ)) * 100
  else 0

/-- The growth rate the job stores for a game with `currentViewers` viewers. -/
def CronJobService.analyze (table : List GameTrendRow) (gameId : String)
    (currentDate currentHour currentViewers : Int) : ℚ :=
  CronJobService.growthRate currentViewers
    (CronJobService.previousViewers
      (CronJobService.previousTrend table gameId currentDate currentHour))

/-- The hour immediately before hour `h` of day `d`: hour `h - 1` of the same day, or
hour 23 of the day before when `h` is 0. -/
def precedingHour (d h : Int) : Int × Int :=
  if h ≥ 1 then (d, h - 1) else (d - 1, 23)

/-! ## The client provider (`WebSocketContext.js`) -/

/-- The state of a mounted `WebSocketProvider` whose socket has been created: the React
state `connected` and `subscriptions`, the ref `reconnectAttempts`, and what the provider
has done so far: the events it emitted to the server (name and argument), the toasts it
raised (kind and message), the number of its calls of `newSocket.connect()` and whether it
has called `disconnect()` on the socket. -/
structure Provider where
  connected : Bool
  reconnectAttempts : Nat
  subscriptions : JSSet
  emitted : List (String × Option String)
  toasts : List (String × String)
  connectCalls : Nat
  disconnected : Bool
  deriving DecidableEq, Repr

/-- The constant `maxReconnectAttempts` of the provider. -/
def maxReconnectAttempts : Nat := 5

/-- The provider right after the effect has created the socket, registered the handlers
and called `newSocket.connect()`. -/
def Provider.mounted : Provider :=
  { connected := false, reconnectAttempts := 0, subscriptions := [], emitted := [],
    toasts := [], connectCalls := 1, disconnected := false }

/-- What can happen to the provider: an event of its socket (`connect`, `disconnect` with
its reason, `connect_error`, `authenticated`, `authentication_error`), a call of one of the
functions it hands to the components, or the cleanup of the effect. -/
inductive ProviderEvent where
  | connect
  | disconnect (reason : String)
  | connect_error
  | authenticated
  | authentication_error
  | subscribeToStreamer (streamerId : String)
  | unsubscribeFromStreamer (streamerId : String)
  | subscribeToGame (gameId : String)
  | unsubscribeFromGame (gameId : String)
  | subscribeToGlobalTrends
  | cleanup
  deriving DecidableEq, Repr

/-- One step of the provider; `token` is the token of `useAuth()` that the handlers
close over. -/
def providerStep (token : String) (c : Provider) : ProviderEvent → Provider
  | .connect =>
      { c with connected := true, reconnectAttempts := 0,
               emitted := c.emitted ++ [("authenticate", some token)] }
  | .disconnect reason =>
      { c with connected := false,
               connectCalls :=
                 if reason = "io server disconnect" then c.connectCalls + 1 else c.connectCalls }
  | .connect_error =>
      { c with reconnectAttempts := c.reconnectAttempts + 1,
               toasts :=
                 if c.reconnectAttempts + 1 ≥ maxReconnectAttempts then
                   c.toasts ++ [("error", "Failed to connect to real-time updates")]
                 else c.toasts }
  | .authenticated =>
      { c with toasts := c.toasts ++ [("success", "Connected to real-time updates")] }
  | .authentication_error =>
      { c with toasts := c.toasts ++ [("error", "Failed to authenticate WebSocket connection")] }
  | .subscribeToStreamer streamerId =>
      if c.connected then
        { c with emitted := c.emitted ++ [("subscribe_streamer", some streamerId)],
                 subscriptions := JSSet.add c.subscriptions ("streamer_" ++ streamerId) }
      else c
  | .unsubscribeFromStreamer streamerId =>
      if c.connected then
        { c with emitted := c.emitted ++ [("unsubscribe_streamer", some streamerId)],
                 subscriptions := JSSet.delete c.subscriptions ("streamer_" ++ streamerId) }
      else c
  | .subscribeToGame gameId =>
      if c.connected then
        { c with emitted := c.emitted ++ [("subscribe_game", some gameId)],
                 subscriptions := JSSet.add c.subscriptions ("game_" ++ gameId) }
      else c
  | .unsubscribeFromGame gameId =>
      if c.connected then
        { c with emitted := c.emitted ++ [("unsubscribe_game", some gameId)],
                 subscriptions := JSSet.delete c.subscriptions ("game_" ++ gameId) }
      else c
  | .subscribeToGlobalTrends =>
      if c.connected then
        { c with emitted := c.emitted ++ [("subscribe_global_trends", none)],
                 subscriptions := JSSet.add c.subscriptions "global_trends" }
      else c
  | .cleanup => { c with disconnected := true }

/-- The provider after a sequence of events. -/
def providerRun (token : String) (c : Provider) (events : List ProviderEvent) : Provider :=
  events.foldl (providerStep token) c

/-- The number of `connect_error` events since the most recent `connect` of a sequence of
events (since its start when it has no `connect`). -/
def failuresSinceConnect (events : List ProviderEvent) : Nat :=
  ((events.reverse.takeWhile (fun e => e != ProviderEvent.connect)).filter
    (fun e => e == ProviderEvent.connect_error)).length

/-- The server event that an event emitted by the client on connection `id` gives rise
to, for the events the server has a handler for. -/
def serverEvent (id : String) (m : String × Option String) : Option Event :=
  match m.2 with
  | some arg =>
      if m.1 = "authenticate" then some (Event.authenticate id arg)
      else if m.1 = "subscribe_streamer" then some (Event.subscribe_streamer id arg)
      else if m.1 = "unsubscribe_streamer" then some (Event.unsubscribe_streamer id arg)
      else if m.1 = "subscribe_game" then some (Event.subscribe_game id arg)
      else if m.1 = "unsubscribe_game" then some (Event.unsubscribe_game id arg)
      else none
  | none =>
      if m.1 = "subscribe_global_trends" then some (Event.subscribe_global_trends id)
      else none

/-- The rooms whose subscriber set in the registry contains the connection `id`. -/
def registryTopicsOf (s : Manager) (id : String) : List String :=
  (s.rooms.filter (fun e => decide (id ∈ e.2))).map Prod.fst

/-- The number of warning toasts `Failed to connect to real-time updates` raised so far. -/
def Provider.warnings (c : Provider) : Nat :=
  (c.toasts.filter (fun t => t == ("error", "Failed to connect to real-time updates"))).length

/-! ## The HTTP route table (`server.js`, `routes/games.js`) -/

/-- A value of a field of a JSON response body. -/
inductive Field where
  | null
  | str (s : String)
  | int (n : Int)
  | rat (q : ℚ)
  deriving DecidableEq

/-- A JSON object, as the list of its fields. -/
abbrev JsonObject := List (String × Field)

/-- A JSON response body: an object or an array of objects. -/
inductive Body where
  | object (fields : JsonObject)
  | array (items : List JsonObject)
  deriving DecidableEq

/-- What a handler answers: `res.status(status).json(body)`. -/
structure Response where
  status : Nat
  body : Body
  deriving DecidableEq

/-- An HTTP request: its method, `req.originalUrl`, the segments of its path
(`/api/games/trending` is `api`, `games`, `trending`) and `parseInt(req.query.limit)`,
`none` when that is `NaN`. -/
structure Request where
  method : String
  originalUrl : String
  path : List String
  limit : Option Int

/-- A segment of a route path: a literal or a parameter such as `:gameId`. -/
inductive Seg where
  | lit (s : String)
  | param (name : String)
  deriving DecidableEq

/-- Match the segments of a path against a route path; the result is `req.params`.
Segments are compared as written: the requests considered are in lower case, as the
route paths are. -/
def matchRoute : List Seg → List String → Option (List (String × String))
  | [], [] => some []
  | Seg.lit s :: ps, x :: xs => if s = x then matchRoute ps xs else none
  | Seg.param n :: ps, x :: xs => (matchRoute ps xs).map (fun params => (n, x) :: params)
  | _, _ => none

/-- A route of a router: `router.get(path, handler)`. -/
structure Route where
  method : String
  pattern : List Seg
  handler : Request → List (String × String) → Response

/-- A router: the first route, in registration order, whose method and path match
answers; none of the handlers of the source calls `next()`. -/
def Router.handle : List Route → Request → List String → Option Response
  | [], _, _ => none
  | r :: rest, req, path =>
      if r.method = req.method then
        match matchRoute r.pattern path with
        | some params => some (r.handler req params)
        | none => Router.handle rest req path
      else Router.handle rest req path

/-- A game of the Twitch API, with the fields the routes read. -/
structure TwitchGame where
  id : String
  name : String
  box_art_url : String
  deriving DecidableEq

/-- A row of `GameTrend.findAll`, with the fields the trending route reads. -/
structure TrendPoint where
  viewerCount : Int
  streamerCount : Int
  deriving DecidableEq

/-- What the games routes call: the cache, the database and the Twitch service.  A call
that can throw answers `Except.error`. -/
structure Backend where
  cacheGet : String → Option JsonObject
  findGame : String → Except String (Option JsonObject)
  getGameById : String → Option TwitchGame
  createGame : TwitchGame → Except String JsonObject
  getTopGames : Int → Except String (List TwitchGame)
  recentTrends : String → Except String (List TrendPoint)

/-- The `limit` of a route: `parseInt(req.query.limit) || fallback`. -/
def Request.limitOr (req : Request) (fallback : Int) : Int :=
  match req.limit with
  | some n => if n = 0 then fallback else n
  | none => fallback

/-- A Twitch game as a JSON object. -/
def TwitchGame.json (g : TwitchGame) : JsonObject :=
  [("id", Field.str g.id), ("name", Field.str g.name), ("box_art_url", Field.str g.box_art_url)]

/-- Handler of `GET /top`. -/
def GamesRouter.top (b : Backend) (req : Request) : Response :=
  match b.getTopGames (req.limitOr 20) with
  | .ok topGames => { status := 200, body := Body.array (topGames.map TwitchGame.json) }
  | .error _ =>
      { status := 500, body := Body.object [("error", Field.str "Failed to fetch top games")] }

/-- Handler of `GET /:gameId`: the cached game, else the game of the database, else the
game of the Twitch API once created in the database, else 404. -/
def GamesRouter.gameDetails (b : Backend) (gameId : String) : Response :=
  let failed : Response :=
    { status := 500, body := Body.object [("error", Field.str "Failed to fetch game details")] }
  match b.cacheGet ("game_details_" ++ gameId) with
  | some game => { status := 200, body := Body.object game }
  | none =>
      match b.findGame gameId with
      | .error _ => failed
      | .ok (some game) => { status := 200, body := Body.object game }
      | .ok none =>
          match b.getGameById gameId with
          | some twitchGame =>
              match b.createGame twitchGame with
              | .ok game => { status := 200, body := Body.object game }
              | .error _ => failed
          | none => { status := 404, body := Body.object [("error", Field.str "Game not found")] }

/-- The `growthRate` field of the trending route, over the rationals:
`Math.round(growthRate * 100) / 100`, which JSON renders as `null` when the division
by the older viewer count is a division by 0. -/
def GamesRouter.growthRate (recentTrends : List TrendPoint) : Field :=
  match recentTrends with
  | r0 :: r1 :: _ =>
      if r1.viewerCount = 0 then Field.null
      else
        let growthRate : ℚ :=
          ((r0.viewerCount - r1.viewerCount : Int) : ℚ) / (r1.viewerCount : ℚ) * 100
        Field.rat ((⌊growthRate * 100 + 1 / 2⌋ : Int) / 100)
  | _ => Field.rat 0

/-- The object the trending route builds for the game at position `index` of the top
games. -/
def GamesRouter.trendingItem (index : Nat) (game : TwitchGame) (recentTrends : List TrendPoint) :
    JsonObject :=
  [("id", Field.str game.id), ("name", Field.str game.name),
   ("boxArtUrl", Field.str game.box_art_url), ("rank", Field.int (index + 1)),
   ("growthRate", GamesRouter.growthRate recentTrends),
   ("viewers", Field.int (match recentTrends.head? with
      | some r => r.viewerCount
      | none => 0)),
   ("streamers", Field.int (match recentTrends.head? with
      | some r => r.streamerCount
      | none => 0))]

/-- The `Promise.all(topGames.map(async (game, index) => ...))` of the trending route, from
position `index` on. -/
def GamesRouter.trendingItems (b : Backend) : Nat → List TwitchGame →
    Except String (List JsonObject)
  | _, [] => .ok []
  | index, game :: rest =>
      match b.recentTrends game.id with
      | .error e => .error e
      | .ok recentTrends =>
          match GamesRouter.trendingItems b (index + 1) rest with
          | .error e => .error e
          | .ok items => .ok (GamesRouter.trendingItem index game recentTrends :: items)

/-- Handler of `GET /trending`. -/
def GamesRouter.trending (b : Backend) (req : Request) : Response :=
  let failed : Response :=
    { status := 500, body := Body.object [("error", Field.str "Failed to fetch trending games")] }
  match b.getTopGames (req.limitOr 10) with
  | .error _ => failed
  | .ok topGames =>
      match GamesRouter.trendingItems b 0 topGames with
      | .ok trendingGames => { status := 200, body := Body.array trendingGames }
      | .error _ => failed

/-- The handlers of the games routes that are taken as given. -/
structure GamesHandlers where
  trends : Request → List (String × String) → Response
  trendingNow : Request → List (String × String) → Response
  search : Request → List (String × String) → Response
  analytics : Request → List (String × String) → Response

/-- The router of `routes/games.js`, its routes in the order of their registration. -/
def gamesRouter (b : Backend) (h : GamesHandlers) : List Route :=
  [ { method := "GET", pattern := [Seg.lit "top"], handler := fun req _ => GamesRouter.top b req },
    { method := "GET", pattern := [Seg.param "gameId", Seg.lit "trends"], handler := h.trends },
    { method := "GET", pattern := [Seg.param "gameId"],
      handler := fun _ params =>
        GamesRouter.gameDetails b ((JSMap.get params "gameId").getD "") },
    { method := "GET", pattern := [Seg.lit "trending", Seg.lit "now"], handler := h.trendingNow },
    { method := "GET", pattern := [Seg.lit "trending"],
      handler := fun req _ => GamesRouter.trending b req },
    { method := "GET", pattern := [Seg.lit "search", Seg.param "query"], handler := h.search },
    { method := "GET", pattern := [Seg.param "gameId", Seg.lit "analytics"],
      handler := h.analytics } ]

/-- A layer of the application: a router mounted with `app.use(path, router)`, a route
registered with `app.get(path, handler)`, or the handler of `app.use('*', handler)`. -/
inductive Layer where
  | use (mount : List String) (router : Request → List String → Option Response)
  | get (path : List String) (handler : Request → Response)
  | all (handler : Request → Response)

/-- The rest of a path below a mount path, when the path is below it. -/
def stripMount : List String → List String → Option (List String)
  | [], path => some path
  | m :: ms, x :: xs => if m = x then stripMount ms xs else none
  | _ :: _, [] => none

/-- The layers answer in the order of their registration; a mounted router that has no
matching route passes the request on. -/
def dispatch : List Layer → Request → Option Response
  | [], _ => none
  | Layer.use mount router :: rest, req =>
      match stripMount mount req.path with
      | some sub =>
          match router req sub with
          | some r => some r
          | none => dispatch rest req
      | none => dispatch rest req
  | Layer.get path handler :: rest, req =>
      if req.method = "GET" ∧ req.path = path then some (handler req) else dispatch rest req
  | Layer.all handler :: _, req => some (handler req)

/-- The routers that `server.js` mounts besides the games router, taken as given. -/
structure Routers where
  authRoutes : Request → List String → Option Response
  streamerRoutes : Request → List String → Option Response
  streamsRoutes : Request → List String → Option Response
  analyticsRoutes : Request → List String → Option Response
  dashboardRoutes : Request → List String → Option Response

/-- What the health handler reads of the process: `new Date().toISOString()`,
`process.uptime()` and `process.env.NODE_ENV`. -/
structure Process where
  timestamp : String
  uptime : ℚ
  environment : Option String

/-- Handler of `app.get('/api/health', ...)`; a field that is `undefined` is left out of
the JSON body. -/
def healthHandler (p : Process) (_req : Request) : Response :=
  { status := 200,
    body := Body.object ([("status", Field.str "OK"), ("timestamp", Field.str p.timestamp),
      ("uptime", Field.rat p.uptime)] ++
      (match p.environment with
       | some env => [("environment", Field.str env)]
       | none => [])) }

/-- The 404 handler, `app.use('*', ...)`. -/
def notFoundHandler (req : Request) : Response :=
  { status := 404,
    body := Body.object [("error", Field.str "Route not found"),
      ("path", Field.str req.originalUrl)] }

/-- The routes of `server.js` in the order of their registration.  The middleware
registered before them passes a request on and the error middleware is not reached, as
every route handler catches what it throws. -/
def app (b : Backend) (h : GamesHandlers) (r : Routers) (p : Process) : List Layer :=
  [ Layer.use ["api", "auth"] r.authRoutes,
    Layer.use ["api", "games"] (Router.handle (gamesRouter b h)),
    Layer.use ["api", "streamers"] r.streamerRoutes,
    Layer.use ["api", "streams"] r.streamsRoutes,
    Layer.use ["api", "analytics"] r.analyticsRoutes,
    Layer.use ["api", "dashboard"] r.dashboardRoutes,
    Layer.get ["api", "health"] (healthHandler p),
    Layer.all notFoundHandler ]

/-- A backend that has no game at all and whose calls succeed. -/
def Backend.empty : Backend :=
  { cacheGet := fun _ => none, findGame := fun _ => .ok none, getGameById := fun _ => none,
    createGame := fun g => .ok g.json, getTopGames := fun _ => .ok [],
    recentTrends := fun _ => .ok [] }

/-! ## Facts about the `Set` and `Map` operations -/

theorem JSSet.mem_add {s : JSSet} {x y : String} : y ∈ JSSet.add s x ↔ y ∈ s ∨ y = x := by
  unfold JSSet.add
  split
  · constructor
    · intro h; exact Or.inl h
    · rintro (h | rfl)
      · exact h
      · assumption
  · simp

theorem JSSet.mem_delete {s : JSSet} {x y : String} : y ∈ JSSet.delete s x ↔ y ∈ s ∧ y ≠ x := by
  simp [JSSet.delete]

theorem JSSet.add_ne_nil (s : JSSet) (x : String) : JSSet.add s x ≠ [] := by
  intro h
  have : x ∈ JSSet.add s x := JSSet.mem_add.2 (Or.inr rfl)
  rw [h] at this
  exact List.not_mem_nil _ this

theorem JSSet.delete_eq_self {s : JSSet} {x : String} (h : x ∉ s) : JSSet.delete s x = s := by
  unfold JSSet.delete
  rw [List.filter_eq_self]
  intro y hy
  have : y ≠ x := fun e => h (e ▸ hy)
  simpa using this

theorem JSMap.has_iff {β : Type} {m : JSMap β} {k : String} :
    JSMap.has m k = true ↔ ∃ e ∈ m, e.1 = k := by
  simp [JSMap.has]

theorem JSMap.has_eq_false_iff {β : Type} {m : JSMap β} {k : String} :
    JSMap.has m k = false ↔ ∀ e ∈ m, e.1 ≠ k := by
  rw [← Bool.not_eq_true, JSMap.has_iff]
  constructor
  · intro h e he hk; exact h ⟨e, he, hk⟩
  · rintro h ⟨e, he, hk⟩; exact h e he hk

theorem JSMap.mem_delete_key {β : Type} {m : JSMap β} {k : String} {e : String × β} :
    e ∈ JSMap.delete m k ↔ e ∈ m ∧ e.1 ≠ k := by
  simp [JSMap.delete]

theorem JSMap.mem_set {β : Type} {m : JSMap β} {k : String} {v : β} {e : String × β} :
    e ∈ JSMap.set m k v ↔ (e ∈ m ∧ e.1 ≠ k) ∨ e = (k, v) := by
  unfold JSMap.set
  split
  next hhas =>
    obtain ⟨e0, he0, hk0⟩ := JSMap.has_iff.1 hhas
    simp only [List.mem_map]
    constructor
    · rintro ⟨a, ha, rfl⟩
      by_cases hak : a.1 = k
      · simp [hak]
      · simp [hak, ha]
    · rintro (⟨he, hne⟩ | rfl)
      · exact ⟨e, he, by simp [hne]⟩
      · exact ⟨e0, he0, by simp [hk0]⟩
  next hhas =>
    have hno := JSMap.has_eq_false_iff.1 (by simpa using hhas)
    simp only [List.mem_append, List.mem_singleton]
    constructor
    · rintro (he | rfl)
      · exact Or.inl ⟨he, hno e he⟩
      · exact Or.inr rfl
    · rintro (⟨he, _⟩ | rfl)
      · exact Or.inl he
      · exact Or.inr rfl

theorem JSMap.keys_set {β : Type} (m : JSMap β) (k : String) (v : β) :
    JSMap.keys (JSMap.set m k v) = if JSMap.has m k then JSMap.keys m else JSMap.keys m ++ [k] := by
  unfold JSMap.set JSMap.keys
  split
  · rw [List.map_map]
    apply List.map_congr_left
    intro e _
    by_cases h : e.1 = k <;> simp [h]
  · simp

theorem JSMap.keys_set_nodup {β : Type} {m : JSMap β} (k : String) (v : β)
    (h : (JSMap.keys m).Nodup) : (JSMap.keys (JSMap.set m k v)).Nodup := by
  rw [JSMap.keys_set]
  split
  · exact h
  next hhas =>
    have hno := JSMap.has_eq_false_iff.1 (by simpa using hhas)
    rw [List.nodup_append]
    refine ⟨h, List.nodup_singleton k, ?_⟩
    intro a ha hb
    simp only [List.mem_singleton] at hb
    subst hb
    simp only [JSMap.keys, List.mem_map] at ha
    obtain ⟨e, he, hk⟩ := ha
    exact hno e he hk

theorem JSMap.keys_delete_nodup {β : Type} {m : JSMap β} (k : String)
    (h : (JSMap.keys m).Nodup) : (JSMap.keys (JSMap.delete m k)).Nodup := by
  unfold JSMap.keys JSMap.delete at *
  exact (List.filter_sublist m).map Prod.fst |>.nodup h

theorem JSMap.get_some_mem {β : Type} {m : JSMap β} {k : String} {v : β}
    (h : JSMap.get m k = some v) : (k, v) ∈ m := by
  induction m with
  | nil => simp [JSMap.get] at h
  | cons e rest ih =>
    obtain ⟨k', v'⟩ := e
    unfold JSMap.get at h
    split at h
    next hk =>
      simp only [Option.some.injEq] at h
      subst hk; subst h
      exact List.mem_cons_self _ _
    next hk => exact List.mem_cons_of_mem _ (ih h)

theorem JSMap.get_eq_none_iff {β : Type} {m : JSMap β} {k : String} :
    JSMap.get m k = none ↔ ∀ e ∈ m, e.1 ≠ k := by
  induction m with
  | nil => simp [JSMap.get]
  | cons e rest ih =>
    obtain ⟨k', v'⟩ := e
    unfold JSMap.get
    by_cases hk : k' = k
    · simp [hk]
    · simp [hk, ih]

theorem JSMap.get_of_mem {β : Type} {m : JSMap β} {k : String} {v : β}
    (hnd : (JSMap.keys m).Nodup) (h : (k, v) ∈ m) : JSMap.get m k = some v := by
  induction m with
  | nil => simp at h
  | cons e rest ih =>
    obtain ⟨k', v'⟩ := e
    simp only [JSMap.keys, List.map_cons, List.nodup_cons, List.mem_map, not_exists, not_and] at hnd
    unfold JSMap.get
    rcases List.mem_cons.1 h with heq | hmem
    · simp only [Prod.mk.injEq] at heq
      simp [heq.1, heq.2]
    · have hne : k' ≠ k := fun e => hnd.1 (k, v) hmem e.symm
      simp only [hne, if_false]
      exact ih hnd.2 hmem

theorem JSMap.get_set_same {β : Type} (m : JSMap β) (k : String) (v : β) :
    JSMap.get (JSMap.set m k v) k = some v := by
  unfold JSMap.set
  split
  next hhas =>
    induction m with
    | nil => simp [JSMap.has] at hhas
    | cons e rest ih =>
      obtain ⟨k', v'⟩ := e
      by_cases hk : k' = k
      · simp [JSMap.get, hk]
      · have : JSMap.has rest k = true := by
          simpa [JSMap.has, hk] using hhas
        simp only [List.map_cons, hk, if_false, JSMap.get]
        exact ih this
  next hhas =>
    have hno := JSMap.has_eq_false_iff.1 (by simpa using hhas)
    clear hhas
    induction m with
    | nil => simp [JSMap.get]
    | cons e rest ih =>
      obtain ⟨k', v'⟩ := e
      have hk : k' ≠ k := hno (k', v') (List.mem_cons_self _ _)
      simp only [List.cons_append, JSMap.get, hk, if_false]
      exact ih (fun e he => hno e (List.mem_cons_of_mem _ he))

theorem JSMap.get_map_replace_other {β : Type} (m : JSMap β) {k k' : String} (v : β)
    (h : k' ≠ k) :
    JSMap.get (m.map (fun e => if e.1 = k then (k, v) else e)) k' = JSMap.get m k' := by
  induction m with
  | nil => rfl
  | cons e rest ih =>
    have hkk : ¬ k = k' := fun e => h e.symm
    by_cases hak : e.1 = k
    · have h2 : ¬ e.1 = k' := by rw [hak]; exact hkk
      simp only [List.map_cons, hak, if_true, JSMap.get, hkk, if_false, h2]
      exact ih
    · by_cases hak' : e.1 = k'
      · have hk'k : ¬ k' = k := h
        simp [JSMap.get, hak']
        simp [hk'k, hak']
      · simp only [List.map_cons, hak, if_false, JSMap.get, hak']
        exact ih

theorem JSMap.get_append_other {β : Type} (m : JSMap β) {k k' : String} (v : β)
    (h : k' ≠ k) : JSMap.get (m ++ [(k, v)]) k' = JSMap.get m k' := by
  induction m with
  | nil =>
    have hkk : ¬ k = k' := fun e => h e.symm
    simp [JSMap.get, hkk]
  | cons e rest ih =>
    by_cases hak' : e.1 = k'
    · simp only [List.cons_append, JSMap.get, hak', if_true]
    · simp only [List.cons_append, JSMap.get, hak', if_false]
      exact ih

theorem JSMap.get_set_other {β : Type} (m : JSMap β) {k k' : String} (v : β) (h : k' ≠ k) :
    JSMap.get (JSMap.set m k v) k' = JSMap.get m k' := by
  unfold JSMap.set
  split
  · exact JSMap.get_map_replace_other m v h
  · exact JSMap.get_append_other m v h

/-! ## Facts about the registry operations -/

theorem resolveSubscribers_of_not_has {rooms : JSMap JSSet} {room : String}
    (h : JSMap.has rooms room = false) : resolveSubscribers rooms room = [] := by
  have := JSMap.get_eq_none_iff.2 (JSMap.has_eq_false_iff.1 h)
  simp [resolveSubscribers, this]

theorem mem_resolveSubscribers {rooms : JSMap JSSet} {room c : String}
    (h : c ∈ resolveSubscribers rooms room) : ∃ e ∈ rooms, e.1 = room ∧ c ∈ e.2 := by
  unfold resolveSubscribers at h
  cases hg : JSMap.get rooms room with
  | none => simp [hg] at h
  | some ms =>
    simp only [hg, Option.getD_some] at h
    exact ⟨(room, ms), JSMap.get_some_mem hg, rfl, h⟩

theorem mem_registryAdd {rooms : JSMap JSSet} {room id : String} {e : String × JSSet} :
    e ∈ registryAdd rooms room id ↔
      (e ∈ rooms ∧ e.1 ≠ room) ∨ e = (room, JSSet.add (resolveSubscribers rooms room) id) := by
  unfold registryAdd
  by_cases hhas : JSMap.has rooms room = true
  · simp only [hhas, Bool.not_true, Bool.false_eq_true, if_false]
    rw [JSMap.mem_set]
    rfl
  · have hf : JSMap.has rooms room = false := by simpa using hhas
    simp only [hf, Bool.not_false, if_true]
    rw [JSMap.mem_set, JSMap.get_set_same, JSMap.mem_set, resolveSubscribers_of_not_has hf]
    simp only [Option.getD_some]
    constructor
    · rintro (⟨(⟨h1, h2⟩ | h1), h3⟩ | h)
      · exact Or.inl ⟨h1, h2⟩
      · exact absurd (by rw [h1]) h3
      · exact Or.inr h
    · rintro (⟨h1, h2⟩ | h)
      · exact Or.inl ⟨Or.inl ⟨h1, h2⟩, h2⟩
      · exact Or.inr h

theorem keys_registryAdd_nodup {rooms : JSMap JSSet} (room id : String)
    (h : (JSMap.keys rooms).Nodup) : (JSMap.keys (registryAdd rooms room id)).Nodup := by
  unfold registryAdd
  apply JSMap.keys_set_nodup
  split
  · exact JSMap.keys_set_nodup _ _ h
  · exact h

theorem mem_registryRemove {rooms : JSMap JSSet} {room id : String} {e : String × JSSet} :
    e ∈ registryRemove rooms room id ↔
      (e ∈ rooms ∧ e.1 ≠ room) ∨
      (e = (room, JSSet.delete (resolveSubscribers rooms room) id) ∧
        JSMap.has rooms room = true ∧ JSSet.delete (resolveSubscribers rooms room) id ≠ []) := by
  unfold registryRemove
  by_cases hhas : JSMap.has rooms room = true
  · simp only [hhas, if_true]
    by_cases hsz : JSSet.size (JSSet.delete ((JSMap.get rooms room).getD []) id) = 0
    · have hnil : JSSet.delete (resolveSubscribers rooms room) id = [] :=
        List.length_eq_zero.1 hsz
      simp only [hsz, if_true]
      rw [JSMap.mem_delete_key, JSMap.mem_set]
      constructor
      · rintro ⟨(h | h), h2⟩
        · exact Or.inl h
        · exact absurd (by rw [h]) h2
      · rintro (h | ⟨_, _, h⟩)
        · exact ⟨Or.inl h, h.2⟩
        · exact absurd hnil h
    · have hnn : JSSet.delete (resolveSubscribers rooms room) id ≠ [] :=
        fun h => hsz (List.length_eq_zero.2 h)
      simp only [hsz, if_false]
      rw [JSMap.mem_set]
      constructor
      · rintro (h | h)
        · exact Or.inl h
        · exact Or.inr ⟨h, trivial, hnn⟩
      · rintro (h | ⟨h, _, _⟩)
        · exact Or.inl h
        · exact Or.inr h
  · have hf : JSMap.has rooms room = false := by simpa using hhas
    have hno := JSMap.has_eq_false_iff.1 hf
    simp only [hf, Bool.false_eq_true, if_false]
    constructor
    · intro h; exact Or.inl ⟨h, hno e h⟩
    · rintro (h | ⟨_, h, _⟩)
      · exact h.1
      · exact absurd h (by simp)

theorem keys_registryRemove_nodup {rooms : JSMap JSSet} (room id : String)
    (h : (JSMap.keys rooms).Nodup) : (JSMap.keys (registryRemove rooms room id)).Nodup := by
  unfold registryRemove
  split
  · simp only
    split
    · exact JSMap.keys_delete_nodup _ (JSMap.keys_set_nodup _ _ h)
    · exact JSMap.keys_set_nodup _ _ h
  · exact h

theorem mem_registryWithout {rooms : JSMap JSSet} {id : String} {e : String × JSSet} :
    e ∈ registryWithout id rooms ↔
      ∃ e0 ∈ rooms, e = (e0.1, JSSet.delete e0.2 id) ∧ JSSet.delete e0.2 id ≠ [] := by
  unfold registryWithout
  simp only [List.mem_filter, List.mem_map]
  constructor
  · rintro ⟨⟨e0, he0, rfl⟩, h⟩
    refine ⟨e0, he0, rfl, ?_⟩
    intro hnil
    simp [hnil] at h
  · rintro ⟨e0, he0, rfl, h⟩
    refine ⟨⟨e0, he0, rfl⟩, ?_⟩
    simpa using h

theorem keys_registryWithout_nodup {rooms : JSMap JSSet} (id : String)
    (h : (JSMap.keys rooms).Nodup) : (JSMap.keys (registryWithout id rooms)).Nodup := by
  unfold registryWithout JSMap.keys at *
  have hs : (List.filter (fun e => e.2.length != 0)
      (List.map (fun e => (e.1, JSSet.delete e.2 id)) rooms)).Sublist
      (List.map (fun e => (e.1, JSSet.delete e.2 id)) rooms) := List.filter_sublist _
  have := hs.map Prod.fst
  rw [List.map_map] at this
  exact this.nodup h

/-- On a map without repeated keys, replacing the value at the key of an entry changes
that entry alone. -/
theorem JSMap.set_at {β : Type} (done rest : JSMap β) (k : String) (v w : β)
    (hd : ∀ e ∈ done, e.1 ≠ k) (hr : ∀ e ∈ rest, e.1 ≠ k) :
    JSMap.set (done ++ (k, v) :: rest) k w = done ++ (k, w) :: rest := by
  have hhas : JSMap.has (done ++ (k, v) :: rest) k = true :=
    JSMap.has_iff.2 ⟨(k, v), by simp, rfl⟩
  unfold JSMap.set
  simp only [hhas, if_true, List.map_append, List.map_cons]
  congr 1
  · conv => rhs; rw [← List.map_id done]
    apply List.map_congr_left
    intro e he
    simp [hd e he]
  · congr 1
    conv => rhs; rw [← List.map_id rest]
    apply List.map_congr_left
    intro e he
    simp [hr e he]

theorem JSMap.delete_at {β : Type} (done rest : JSMap β) (k : String) (w : β)
    (hd : ∀ e ∈ done, e.1 ≠ k) (hr : ∀ e ∈ rest, e.1 ≠ k) :
    JSMap.delete (done ++ (k, w) :: rest) k = done ++ rest := by
  unfold JSMap.delete
  rw [List.filter_append, List.filter_cons]
  simp only [bne_self_eq_false, Bool.false_eq_true, if_false]
  congr 1
  · rw [List.filter_eq_self]
    intro e he
    simpa using hd e he
  · rw [List.filter_eq_self]
    intro e he
    simpa using hr e he

/-- The loop of the `disconnect` handler, started on a map without repeated keys of which
`done` has been visited. -/
theorem disconnectSweep_append (id : String) (todo done : JSMap JSSet)
    (h : (JSMap.keys (done ++ todo)).Nodup) :
    disconnectSweep id todo (done ++ todo) = done ++ registryWithout id todo := by
  induction todo generalizing done with
  | nil => simp [disconnectSweep, registryWithout]
  | cons e rest ih =>
    obtain ⟨room, members⟩ := e
    have hk : (JSMap.keys done ++ room :: JSMap.keys rest).Nodup := by
      simpa [JSMap.keys] using h
    have hd : ∀ e ∈ done, e.1 ≠ room := by
      intro e he heq
      have h1 : room ∈ JSMap.keys done := heq ▸ List.mem_map_of_mem Prod.fst he
      exact (List.nodup_append.1 hk).2.2 h1 (List.mem_cons_self _ _)
    have hr : ∀ e ∈ rest, e.1 ≠ room := by
      intro e he heq
      have h1 : room ∈ JSMap.keys rest := heq ▸ List.mem_map_of_mem Prod.fst he
      exact (List.nodup_cons.1 (List.nodup_append.1 hk).2.1).1 h1
    unfold disconnectSweep
    simp only
    rw [JSMap.set_at done rest room members _ hd hr]
    by_cases hsz : JSSet.size (JSSet.delete members id) = 0
    · simp only [hsz, if_true]
      rw [JSMap.delete_at done rest room _ hd hr]
      have hnd : (JSMap.keys (done ++ rest)).Nodup := by
        have : (JSMap.keys done ++ JSMap.keys rest).Sublist
            (JSMap.keys done ++ room :: JSMap.keys rest) :=
          List.Sublist.append_left (List.sublist_cons_self _ _) _
        have := this.nodup hk
        simpa [JSMap.keys] using this
      rw [ih done hnd]
      have : registryWithout id ((room, members) :: rest) = registryWithout id rest := by
        have h0 : (JSSet.delete members id).length = 0 := hsz
        simp [registryWithout, h0]
      rw [this]
    · simp only [hsz, if_false]
      have hnd : (JSMap.keys ((done ++ [(room, JSSet.delete members id)]) ++ rest)).Nodup := by
        simpa [JSMap.keys] using hk
      have := ih (done ++ [(room, JSSet.delete members id)]) (by simpa using hnd)
      simp only [List.append_assoc, List.singleton_append] at this
      rw [this]
      have : registryWithout id ((room, members) :: rest) =
          (room, JSSet.delete members id) :: registryWithout id rest := by
        have h0 : ¬ (JSSet.delete members id).length = 0 := hsz
        simp [registryWithout, h0]
      rw [this]

/-- On a registry without repeated keys the loop of the `disconnect` handler takes the
socket out of every subscriber set and drops the entries left empty. -/
theorem disconnectSweep_eq (id : String) (rooms : JSMap JSSet)
    (h : (JSMap.keys rooms).Nodup) :
    disconnectSweep id rooms rooms = registryWithout id rooms := by
  have := disconnectSweep_append id rooms [] (by simpa using h)
  simpa using this

/-! ## The invariant is kept by every step -/

theorem Manager.findSocket_some {s : Manager} {id : String} {k : Socket}
    (h : s.findSocket id = some k) : k ∈ s.sockets ∧ k.id = id := by
  unfold Manager.findSocket at h
  refine ⟨List.mem_of_find?_eq_some h, ?_⟩
  have := List.find?_some h
  simpa using this

theorem Manager.findSocket_none {s : Manager} {id : String}
    (h : s.findSocket id = none) : ∀ k ∈ s.sockets, k.id ≠ id := by
  unfold Manager.findSocket at h
  intro k hk
  have := List.find?_eq_none.1 h k hk
  simpa using this

theorem Manager.findSocket_of_mem {s : Manager} {k : Socket}
    (hnd : (s.sockets.map Socket.id).Nodup) (hk : k ∈ s.sockets) :
    s.findSocket k.id = some k := by
  cases hf : s.findSocket k.id with
  | none => exact absurd rfl (Manager.findSocket_none hf k hk)
  | some k' =>
    obtain ⟨hk', hid⟩ := Manager.findSocket_some hf
    have := List.inj_on_of_nodup_map hnd hk' hk hid
    rw [this]

theorem Inv.of_eq {s t : Manager} (h : Inv s) (h1 : t.sockets = s.sockets)
    (h2 : t.clients = s.clients) (h3 : t.rooms = s.rooms) : Inv t := by
  constructor
  · rw [h1]; exact h.socketIds
  · rw [h3]; exact h.roomKeys
  · rw [h2]; exact h.clientKeys
  · rw [h3]; exact h.nonempty
  · rw [h3]; exact h.memberNodup
  · rw [h3, h1]; exact h.memberJoined
  · rw [h1]; exact h.joinedAuth
  · rw [h2, h1]; exact h.clientAuth

theorem Inv.init : Inv Manager.init := by
  constructor <;> simp [Manager.init, JSMap.keys]

theorem Inv.connection {s : Manager} (h : Inv s) (id : String)
    (hfresh : s.findSocket id = none) :
    Inv { s with sockets := s.sockets ++
      [{ id := id, authenticated := false, userId := none, rooms := [] }] } := by
  have hno := Manager.findSocket_none hfresh
  constructor
  · simp only [List.map_append, List.map_cons, List.map_nil]
    rw [List.nodup_append]
    refine ⟨h.socketIds, List.nodup_singleton _, ?_⟩
    intro a ha hb
    simp only [List.mem_singleton] at hb
    subst hb
    obtain ⟨k, hk, hid⟩ := List.mem_map.1 ha
    exact hno k hk hid
  · exact h.roomKeys
  · exact h.clientKeys
  · exact h.nonempty
  · exact h.memberNodup
  · intro e he c hc
    obtain ⟨k, hk, h1, h2⟩ := h.memberJoined e he c hc
    exact ⟨k, List.mem_append_left _ hk, h1, h2⟩
  · intro k hk hr
    rcases List.mem_append.1 hk with hk | hk
    · exact h.joinedAuth k hk hr
    · simp only [List.mem_singleton] at hk
      subst hk
      exact absurd rfl hr
  · intro e he
    obtain ⟨k, hk, h1, h2⟩ := h.clientAuth e he
    exact ⟨k, List.mem_append_left _ hk, h1, h2⟩

theorem Manager.mem_updateSocket {s : Manager} {id : String} {f : Socket → Socket}
    {k' : Socket} :
    k' ∈ (s.updateSocket id f).sockets ↔
      ∃ k ∈ s.sockets, k' = if k.id = id then f k else k := by
  simp only [Manager.updateSocket, List.mem_map]
  constructor
  · rintro ⟨k, hk, rfl⟩; exact ⟨k, hk, rfl⟩
  · rintro ⟨k, hk, rfl⟩; exact ⟨k, hk, rfl⟩

theorem Manager.updateSocket_ids (s : Manager) (id : String) (f : Socket → Socket)
    (hid : ∀ k, (f k).id = k.id) :
    (s.updateSocket id f).sockets.map Socket.id = s.sockets.map Socket.id := by
  simp only [Manager.updateSocket, List.map_map]
  apply List.map_congr_left
  intro k _
  simp only [Function.comp]
  split
  · exact hid k
  · rfl

/-- A write to the socket `id` that keeps its id, does not take it out of a room, does not
clear `authenticated`, and leaves it authenticated when it is in a room. -/
theorem Inv.updateSocket {s : Manager} (h : Inv s) (id : String) (f : Socket → Socket)
    (hid : ∀ k, (f k).id = k.id) (hrooms : ∀ k, ∀ r ∈ k.rooms, r ∈ (f k).rooms)
    (hkeep : ∀ k, k.authenticated = true → (f k).authenticated = true)
    (hauth : ∀ k ∈ s.sockets, k.id = id → (f k).rooms ≠ [] → (f k).authenticated = true) :
    Inv (s.updateSocket id f) := by
  constructor
  · rw [Manager.updateSocket_ids s id f hid]; exact h.socketIds
  · exact h.roomKeys
  · exact h.clientKeys
  · exact h.nonempty
  · exact h.memberNodup
  · intro e he c hc
    obtain ⟨k, hk, h1, h2⟩ := h.memberJoined e he c hc
    refine ⟨_, Manager.mem_updateSocket.2 ⟨k, hk, rfl⟩, ?_, ?_⟩
    · split
      · rw [hid]; exact h1
      · exact h1
    · split
      · exact hrooms k _ h2
      · exact h2
  · intro k' hk' hr
    obtain ⟨k, hk, rfl⟩ := Manager.mem_updateSocket.1 hk'
    split at hr
    next hkid =>
      simp only [hkid, if_true]
      exact hauth k hk hkid hr
    next hkid =>
      simp only [hkid, if_false]
      exact h.joinedAuth k hk hr
  · intro e he
    obtain ⟨k, hk, h1, h2⟩ := h.clientAuth e he
    refine ⟨_, Manager.mem_updateSocket.2 ⟨k, hk, rfl⟩, ?_, ?_⟩
    · split
      · rw [hid]; exact h1
      · exact h1
    · split
      · exact hkeep k h2
      · exact h2

theorem Inv.setClient {s : Manager} (h : Inv s) (id : String) (info : ClientInfo)
    (hk : ∃ k ∈ s.sockets, k.id = id ∧ k.authenticated = true) :
    Inv { s with clients := JSMap.set s.clients id info } := by
  constructor
  · exact h.socketIds
  · exact h.roomKeys
  · exact JSMap.keys_set_nodup _ _ h.clientKeys
  · exact h.nonempty
  · exact h.memberNodup
  · exact h.memberJoined
  · exact h.joinedAuth
  · intro e he
    rcases JSMap.mem_set.1 he with ⟨he, _⟩ | rfl
    · exact h.clientAuth e he
    · exact hk

theorem JSSet.add_nodup {s : JSSet} (x : String) (h : s.Nodup) : (JSSet.add s x).Nodup := by
  unfold JSSet.add
  split
  · exact h
  next hx =>
    rw [List.nodup_append]
    refine ⟨h, List.nodup_singleton _, ?_⟩
    intro a ha hb
    simp only [List.mem_singleton] at hb
    exact hx (hb ▸ ha)

theorem JSSet.delete_nodup {s : JSSet} (x : String) (h : s.Nodup) : (JSSet.delete s x).Nodup :=
  (List.filter_sublist s).nodup h

theorem resolveSubscribers_nodup {rooms : JSMap JSSet} (room : String)
    (h : ∀ e ∈ rooms, e.2.Nodup) : (resolveSubscribers rooms room).Nodup := by
  unfold resolveSubscribers
  cases hg : JSMap.get rooms room with
  | none => simp
  | some ms => exact h _ (JSMap.get_some_mem hg)

theorem Inv.registryAdd_ok {s : Manager} (h : Inv s) (room id : String)
    (hk : ∃ k ∈ s.sockets, k.id = id ∧ room ∈ k.rooms) :
    Inv { s with rooms := registryAdd s.rooms room id } := by
  constructor
  · exact h.socketIds
  · exact keys_registryAdd_nodup _ _ h.roomKeys
  · exact h.clientKeys
  · intro e he
    rcases mem_registryAdd.1 he with ⟨he, _⟩ | rfl
    · exact h.nonempty e he
    · exact JSSet.add_ne_nil _ _
  · intro e he
    rcases mem_registryAdd.1 he with ⟨he, _⟩ | rfl
    · exact h.memberNodup e he
    · exact JSSet.add_nodup _ (resolveSubscribers_nodup _ h.memberNodup)
  · intro e he c hc
    rcases mem_registryAdd.1 he with ⟨he, _⟩ | rfl
    · exact h.memberJoined e he c hc
    · rcases JSSet.mem_add.1 hc with hc | rfl
      · obtain ⟨e0, he0, h1, h2⟩ := mem_resolveSubscribers hc
        obtain ⟨k, hk, h3, h4⟩ := h.memberJoined e0 he0 c h2
        exact ⟨k, hk, h3, h1 ▸ h4⟩
      · exact hk
  · exact h.joinedAuth
  · exact h.clientAuth

theorem Inv.unsubscribe {s : Manager} (h : Inv s) (room id : String) :
    Inv { (s.leave id room) with rooms := registryRemove (s.leave id room).rooms room id } := by
  have hrooms : (s.leave id room).rooms = s.rooms := rfl
  have hclients : (s.leave id room).clients = s.clients := rfl
  have himg : ∀ k ∈ s.sockets,
      (if k.id = id then { k with rooms := JSSet.delete k.rooms room } else k) ∈
        (s.leave id room).sockets := by
    intro k hk
    exact Manager.mem_updateSocket.2 ⟨k, hk, rfl⟩
  constructor
  · show ((s.leave id room).sockets.map Socket.id).Nodup
    have := Manager.updateSocket_ids s id
      (fun k => { k with rooms := JSSet.delete k.rooms room }) (fun _ => rfl)
    unfold Manager.leave
    rw [this]
    exact h.socketIds
  · exact keys_registryRemove_nodup _ _ h.roomKeys
  · exact h.clientKeys
  · intro e he
    rcases mem_registryRemove.1 he with ⟨he, _⟩ | ⟨rfl, _, hne⟩
    · exact h.nonempty e he
    · exact hne
  · intro e he
    rcases mem_registryRemove.1 he with ⟨he, _⟩ | ⟨rfl, _, _⟩
    · exact h.memberNodup e he
    · exact JSSet.delete_nodup _ (resolveSubscribers_nodup _ h.memberNodup)
  · intro e he c hc
    rcases mem_registryRemove.1 he with ⟨he, hne⟩ | ⟨rfl, _, _⟩
    · obtain ⟨k, hk, h1, h2⟩ := h.memberJoined e he c hc
      refine ⟨_, himg k hk, ?_, ?_⟩
      · split <;> exact h1
      · split
        · exact JSSet.mem_delete.2 ⟨h2, hne⟩
        · exact h2
    · obtain ⟨hc1, hc2⟩ := JSSet.mem_delete.1 hc
      obtain ⟨e0, he0, h1, h2⟩ := mem_resolveSubscribers hc1
      obtain ⟨k, hk, h3, h4⟩ := h.memberJoined e0 he0 c h2
      have hkid : ¬ k.id = id := by rw [h3]; exact hc2
      refine ⟨_, himg k hk, ?_, ?_⟩
      · simp only [hkid, if_false]; exact h3
      · simp only [hkid, if_false]; exact h1 ▸ h4
  · intro k' hk' hr
    obtain ⟨k, hk, rfl⟩ := Manager.mem_updateSocket.1 hk'
    split at hr
    next hkid =>
      simp only [hkid, if_true]
      apply h.joinedAuth k hk
      intro hnil
      apply hr
      simp [hnil, JSSet.delete]
    next hkid =>
      simp only [hkid, if_false]
      exact h.joinedAuth k hk hr
  · intro e he
    obtain ⟨k, hk, h1, h2⟩ := h.clientAuth e he
    refine ⟨_, himg k hk, ?_, ?_⟩
    · split <;> exact h1
    · split <;> exact h2

theorem closeSocket_of_not_connected {s : Manager} {id : String}
    (h : s.findSocket id = none) : closeSocket s id = s := by
  simp [closeSocket, h]

theorem closeSocket_eq {s : Manager} {id : String} {k : Socket}
    (hkeys : (JSMap.keys s.rooms).Nodup) (h : s.findSocket id = some k) :
    closeSocket s id =
      { s with sockets := s.sockets.filter (fun k => k.id != id),
               clients := JSMap.delete s.clients id,
               rooms := registryWithout id s.rooms } := by
  simp only [closeSocket, h, onDisconnect]
  rw [disconnectSweep_eq id s.rooms hkeys]

theorem Inv.without {s : Manager} (h : Inv s) (id : String) :
    Inv { s with sockets := s.sockets.filter (fun k => k.id != id),
                 clients := JSMap.delete s.clients id,
                 rooms := registryWithout id s.rooms } := by
  have hkeep : ∀ k ∈ s.sockets, k.id ≠ id → k ∈ s.sockets.filter (fun k => k.id != id) := by
    intro k hk hne
    exact List.mem_filter.2 ⟨hk, by simpa using hne⟩
  constructor
  · exact ((List.filter_sublist s.sockets).map Socket.id).nodup h.socketIds
  · exact keys_registryWithout_nodup _ h.roomKeys
  · exact JSMap.keys_delete_nodup _ h.clientKeys
  · intro e he
    obtain ⟨e0, _, rfl, hne⟩ := mem_registryWithout.1 he
    exact hne
  · intro e he
    obtain ⟨e0, he0, rfl, _⟩ := mem_registryWithout.1 he
    exact JSSet.delete_nodup _ (h.memberNodup e0 he0)
  · intro e he c hc
    obtain ⟨e0, he0, rfl, _⟩ := mem_registryWithout.1 he
    obtain ⟨hc1, hc2⟩ := JSSet.mem_delete.1 hc
    obtain ⟨k, hk, h1, h2⟩ := h.memberJoined e0 he0 c hc1
    exact ⟨k, hkeep k hk (h1 ▸ hc2), h1, h2⟩
  · intro k hk hr
    exact h.joinedAuth k (List.mem_filter.1 hk).1 hr
  · intro e he
    obtain ⟨he1, he2⟩ := JSMap.mem_delete_key.1 he
    obtain ⟨k, hk, h1, h2⟩ := h.clientAuth e he1
    exact ⟨k, hkeep k hk (h1 ▸ he2), h1, h2⟩

theorem Inv.closeSocket_ok {s : Manager} (h : Inv s) (id : String) : Inv (closeSocket s id) := by
  cases hf : s.findSocket id with
  | none => rw [closeSocket_of_not_connected hf]; exact h
  | some k => rw [closeSocket_eq h.roomKeys hf]; exact h.without id

theorem Inv.cleanupStep_ok {s : Manager} (h : Inv s) (now : Int) (entry : String × ClientInfo) :
    Inv (cleanupStep now s entry) := by
  unfold cleanupStep
  simp only
  split
  · split
    · split
      · exact h.closeSocket_ok _
      · exact h
    · exact h
  · exact h

theorem Inv.cleanupFold (now : Int) (entries : List (String × ClientInfo)) :
    ∀ {s : Manager}, Inv s → Inv (entries.foldl (cleanupStep now) s) := by
  induction entries with
  | nil => intro s h; exact h
  | cons e rest ih => intro s h; exact ih (h.cleanupStep_ok now e)

theorem Inv.emit {s : Manager} (h : Inv s) (id : String) (e : Emit) : Inv (s.emit id e) :=
  h.of_eq rfl rfl rfl

theorem Inv.emitToRoom {s : Manager} (h : Inv s) (room : String) (e : Emit) :
    Inv (s.emitToRoom room e) :=
  h.of_eq rfl rfl rfl

theorem Inv.join {s : Manager} (h : Inv s) (id room : String)
    (hauth : ∀ k ∈ s.sockets, k.id = id → k.authenticated = true) : Inv (s.join id room) := by
  unfold Manager.join
  apply h.updateSocket id (fun k => { k with rooms := JSSet.add k.rooms room }) (fun _ => rfl)
  · intro k r hr
    exact JSSet.mem_add.2 (Or.inl hr)
  · intro k hk; exact hk
  · intro k hk hid _
    exact hauth k hk hid

theorem Manager.join_mem {s : Manager} {k : Socket} (hk : k ∈ s.sockets) (room : String) :
    ∃ k' ∈ (s.join k.id room).sockets, k'.id = k.id ∧ room ∈ k'.rooms := by
  refine ⟨_, Manager.mem_updateSocket.2 ⟨k, hk, rfl⟩, ?_, ?_⟩
  · simp
  · simp only [if_true]
    exact JSSet.mem_add.2 (Or.inr rfl)

theorem Inv.authenticated_of_find {s : Manager} (h : Inv s) {id : String} {k : Socket}
    (hf : s.findSocket id = some k) (hauth : k.authenticated = true) :
    ∀ k' ∈ s.sockets, k'.id = id → k'.authenticated = true := by
  intro k' hk' hid
  obtain ⟨hk, hkid⟩ := Manager.findSocket_some hf
  have := List.inj_on_of_nodup_map h.socketIds hk' hk (hid.trans hkid.symm)
  rw [this]; exact hauth

theorem Inv.onAuthenticate_ok {s : Manager} (h : Inv s) (jwtVerify : String → Int → Option Decoded)
    {id : String} {k : Socket} (hf : s.findSocket id = some k) (token : String) :
    Inv (onAuthenticate jwtVerify s id token) := by
  obtain ⟨hk, hkid⟩ := Manager.findSocket_some hf
  unfold onAuthenticate
  split
  next decoded _ =>
    simp only
    have h1 : Inv (s.updateSocket id
        (fun k => { k with userId := some decoded.id, authenticated := true })) := by
      apply h.updateSocket id
        (fun k => { k with userId := some decoded.id, authenticated := true }) (fun _ => rfl)
      · intro k r hr; exact hr
      · intro k _; rfl
      · intro k _ _ _; rfl
    have hall : ∀ k' ∈ (s.updateSocket id
        (fun k => { k with userId := some decoded.id, authenticated := true })).sockets,
        k'.id = id → k'.authenticated = true := by
      intro k' hk' hid
      obtain ⟨k0, _, rfl⟩ := Manager.mem_updateSocket.1 hk'
      by_cases hne : k0.id = id
      · simp [hne]
      · simp only [hne, if_false] at hid
    have hex : ∃ k' ∈ (s.updateSocket id
        (fun k => { k with userId := some decoded.id, authenticated := true })).sockets,
        k'.id = id ∧ k'.authenticated = true := by
      refine ⟨_, Manager.mem_updateSocket.2 ⟨k, hk, rfl⟩, ?_, ?_⟩
      · simp [hkid]
      · simp [hkid]
    have h2 := h1.setClient id
      { userId := decoded.id, username := decoded.username,
        connectedAt := (s.updateSocket id
          (fun k => { k with userId := some decoded.id, authenticated := true })).now } hex
    exact (h2.emit id _).join id _ hall
  · exact h.emit _ _

theorem Inv.onSubscribe {s : Manager} (h : Inv s) {k : Socket} (hf : s.findSocket k.id = some k)
    (hauth : k.authenticated = true) (room : String) :
    Inv { (s.join k.id room) with rooms := registryAdd (s.join k.id room).rooms room k.id } := by
  have h1 := h.join k.id room (h.authenticated_of_find hf hauth)
  exact h1.registryAdd_ok room k.id (Manager.join_mem (Manager.findSocket_some hf).1 room)

theorem Inv.onSubscribeStreamer_ok {s : Manager} (h : Inv s) {k : Socket}
    (hf : s.findSocket k.id = some k) (streamerId : String) :
    Inv (onSubscribeStreamer s k streamerId) := by
  unfold onSubscribeStreamer
  split
  · exact h.emit _ _
  next hauth =>
    have hauth : k.authenticated = true := by simpa using hauth
    have h2 := h.onSubscribe hf hauth ("streamer_" ++ streamerId)
    simp only
    apply Inv.emit
    split
    · exact h2.emit _ _
    · exact h2

theorem Inv.onSubscribeGame_ok {s : Manager} (h : Inv s) {k : Socket}
    (hf : s.findSocket k.id = some k) (gameId : String) :
    Inv (onSubscribeGame s k gameId) := by
  unfold onSubscribeGame
  split
  · exact h.emit _ _
  next hauth =>
    have hauth : k.authenticated = true := by simpa using hauth
    have h2 := h.onSubscribe hf hauth ("game_" ++ gameId)
    simp only
    apply Inv.emit
    split
    · exact h2.emit _ _
    · exact h2

theorem Inv.onSubscribeGlobalTrends_ok {s : Manager} (h : Inv s) {k : Socket}
    (hf : s.findSocket k.id = some k) : Inv (onSubscribeGlobalTrends s k) := by
  unfold onSubscribeGlobalTrends
  split
  · exact h.emit _ _
  next hauth =>
    have hauth : k.authenticated = true := by simpa using hauth
    exact (h.join k.id _ (h.authenticated_of_find hf hauth)).emit _ _

theorem Inv.withSocket_ok {s : Manager} (h : Inv s) (id : String) (handler : Socket → Manager)
    (hh : ∀ k, s.findSocket k.id = some k → k.id = id → Inv (handler k)) :
    Inv (withSocket s id handler) := by
  unfold withSocket
  split
  next k hf =>
    have hkid := (Manager.findSocket_some hf).2
    exact hh k (hkid ▸ hf) hkid
  · exact h

theorem Inv.step_ok {s : Manager} (h : Inv s) (jwtVerify : String → Int → Option Decoded)
    (e : Event) : Inv (step jwtVerify s e) := by
  cases e with
  | connection id =>
    simp only [step]
    split
    · exact h
    next hf =>
      have : s.findSocket id = none := by simpa using hf
      exact h.connection id this
  | authenticate id token =>
    exact h.withSocket_ok id _ (fun k hf hid => h.onAuthenticate_ok jwtVerify (hid ▸ hf) token)
  | subscribe_streamer id streamerId =>
    exact h.withSocket_ok id _ (fun k hf _ => h.onSubscribeStreamer_ok hf streamerId)
  | unsubscribe_streamer id streamerId =>
    exact h.withSocket_ok id _ (fun k _ _ => (h.unsubscribe _ k.id).emit _ _)
  | subscribe_game id gameId =>
    exact h.withSocket_ok id _ (fun k hf _ => h.onSubscribeGame_ok hf gameId)
  | unsubscribe_game id gameId =>
    exact h.withSocket_ok id _ (fun k _ _ => (h.unsubscribe _ k.id).emit _ _)
  | subscribe_global_trends id =>
    exact h.withSocket_ok id _ (fun k hf _ => h.onSubscribeGlobalTrends_ok hf)
  | get_viewer_count id streamerId result =>
    refine h.withSocket_ok id _ (fun k _ _ => ?_)
    unfold onGetViewerCount
    split <;> exact h.emit _ _
  | check_live_status id streamerId result =>
    refine h.withSocket_ok id _ (fun k _ _ => ?_)
    unfold onCheckLiveStatus
    split <;> exact h.emit _ _
  | analyze_chat id streamerId result =>
    refine h.withSocket_ok id _ (fun k _ _ => ?_)
    unfold onAnalyzeChat
    split
    · exact h.emit _ _
    · split <;> exact h.emit _ _
  | disconnect id => exact h.closeSocket_ok id
  | broadcastStreamerUpdate streamerId data => exact h.of_eq rfl rfl rfl
  | broadcastGameTrendUpdate gameId trendData => exact h.of_eq rfl rfl rfl
  | broadcastGlobalTrends trendsData => exact h.of_eq rfl rfl rfl
  | broadcastAlert alertData => exact h.of_eq rfl rfl rfl
  | sendUserNotification userId notification => exact h.of_eq rfl rfl rfl
  | broadcastViewerCountUpdate streamerId count => exact h.of_eq rfl rfl rfl
  | broadcastLiveStatusChange streamerId isLive streamData => exact h.of_eq rfl rfl rfl
  | cleanupInactiveConnections => exact Inv.cleanupFold s.now s.clients h
  | tick ms => exact h.of_eq rfl rfl rfl

theorem Inv.run_ok (jwtVerify : String → Int → Option Decoded) (events : List Event) :
    ∀ {s : Manager}, Inv s → Inv (run jwtVerify s events) := by
  induction events with
  | nil => intro s h; exact h
  | cons e rest ih => intro s h; exact ih (h.step_ok jwtVerify e)

theorem Inv.reachable (jwtVerify : String → Int → Option Decoded) (events : List Event) :
    Inv (run jwtVerify Manager.init events) :=
  Inv.run_ok jwtVerify events Inv.init

/-! ## Looking a socket up after a step -/

theorem run_append (jwtVerify : String → Int → Option Decoded) (s : Manager)
    (es1 es2 : List Event) :
    run jwtVerify s (es1 ++ es2) = run jwtVerify (run jwtVerify s es1) es2 := by
  simp [run, List.foldl_append]

theorem find?_congr_mem {α : Type} {p q : α → Bool} (l : List α)
    (h : ∀ a ∈ l, p a = q a) : l.find? p = l.find? q := by
  induction l with
  | nil => rfl
  | cons a rest ih =>
    have ha := h a (List.mem_cons_self _ _)
    have hr := ih (fun b hb => h b (List.mem_cons_of_mem _ hb))
    simp only [List.find?_cons, ha, hr]

theorem Manager.findSocket_updateSocket (s : Manager) (id c : String) (f : Socket → Socket)
    (hid : ∀ k, (f k).id = k.id) :
    (s.updateSocket id f).findSocket c =
      (s.findSocket c).map (fun k => if k.id = id then f k else k) := by
  unfold Manager.findSocket Manager.updateSocket
  simp only [List.find?_map]
  congr 1
  apply find?_congr_mem
  intro k _
  simp only [Function.comp]
  split
  · rw [hid]
  · rfl

theorem Manager.findSocket_filter_ne (s : Manager) {id c : String} (h : c ≠ id) :
    ({ s with sockets := s.sockets.filter (fun k => k.id != id) } : Manager).findSocket c =
      s.findSocket c := by
  unfold Manager.findSocket
  simp only [List.find?_filter]
  apply find?_congr_mem
  intro k _
  by_cases hk : k.id = c
  · have : ¬ k.id = id := by rw [hk]; exact h
    simp [hk, this, h]
  · simp [hk]

theorem findSocket_closeSocket_ne (s : Manager) {id c : String} (h : c ≠ id) :
    (closeSocket s id).findSocket c = s.findSocket c := by
  unfold closeSocket
  split
  · rfl
  · exact Manager.findSocket_filter_ne s h

theorem findSocket_closeSocket_self (s : Manager) (c : String) (hc : s.connected c = true) : (closeSocket s c).findSocket c = none := by
  cases hf : s.findSocket c with
  | none => simp [Manager.connected, hf] at hc
  | some k =>
    simp only [closeSocket, hf, onDisconnect]
    unfold Manager.findSocket
    rw [List.find?_eq_none]
    intro x hx
    have := (List.mem_filter.1 hx).2
    simpa using this

/-! ## Disconnection and the registry -/

theorem Inv.member_connected {s : Manager} (h : Inv s) {e : String × JSSet} (he : e ∈ s.rooms)
    {c : String} (hc : c ∈ e.2) :
    ∃ k, s.findSocket c = some k ∧ e.1 ∈ k.rooms ∧ k.authenticated = true := by
  obtain ⟨k, hk, h1, h2⟩ := h.memberJoined e he c hc
  refine ⟨k, h1 ▸ Manager.findSocket_of_mem h.socketIds hk, h2, ?_⟩
  apply h.joinedAuth k hk
  intro hnil
  rw [hnil] at h2
  exact List.not_mem_nil _ h2

theorem Inv.client_connected {s : Manager} (h : Inv s) {e : String × ClientInfo}
    (he : e ∈ s.clients) : ∃ k, s.findSocket e.1 = some k ∧ k.authenticated = true := by
  obtain ⟨k, hk, h1, h2⟩ := h.clientAuth e he
  exact ⟨k, h1 ▸ Manager.findSocket_of_mem h.socketIds hk, h2⟩

theorem Inv.closeSocket_clean {s : Manager} (h : Inv s) (c : String) :
    (∀ e ∈ (closeSocket s c).rooms, c ∉ e.2) ∧ (∀ e ∈ (closeSocket s c).clients, e.1 ≠ c) := by
  cases hf : s.findSocket c with
  | none =>
    rw [closeSocket_of_not_connected hf]
    constructor
    · intro e he hc
      obtain ⟨k, hk, _⟩ := h.member_connected he hc
      rw [hf] at hk
      exact Option.noConfusion hk
    · intro e he hc
      obtain ⟨k, hk, _⟩ := h.client_connected he
      rw [hc, hf] at hk
      exact Option.noConfusion hk
  | some k =>
    rw [closeSocket_eq h.roomKeys hf]
    constructor
    · intro e he hc
      obtain ⟨e0, _, rfl, _⟩ := mem_registryWithout.1 he
      exact (JSSet.mem_delete.1 hc).2 rfl
    · intro e he
      exact (JSMap.mem_delete_key.1 he).2

theorem not_mem_resolveSubscribers {rooms : JSMap JSSet} {c : String}
    (h : ∀ e ∈ rooms, c ∉ e.2) (room : String) : c ∉ resolveSubscribers rooms room := by
  intro hc
  obtain ⟨e, he, _, h2⟩ := mem_resolveSubscribers hc
  exact h e he h2

theorem registryWithout_eq_self {rooms : JSMap JSSet} {c : String}
    (h1 : ∀ e ∈ rooms, c ∉ e.2) (h2 : ∀ e ∈ rooms, e.2 ≠ []) :
    registryWithout c rooms = rooms := by
  unfold registryWithout
  have hmap : rooms.map (fun e => (e.1, JSSet.delete e.2 c)) = rooms := by
    conv => rhs; rw [← List.map_id rooms]
    apply List.map_congr_left
    intro e he
    simp [JSSet.delete_eq_self (h1 e he)]
  rw [hmap, List.filter_eq_self]
  intro e he
  have := h2 e he
  simpa using this

/-! ## Disconnect leaves no membership behind -/

/-- C1. After the `disconnect` handler of a connection `c` has run, in whatever state the
server was, no subscriber set of `this.rooms` contains `c` and `this.clients` has no entry
for `c`; in particular, when `c` subscribes to a streamer, a game or the global trends and
is then disconnected, the registry's subscriber set of that topic does not contain `c`. -/
theorem disconnect_leaves_no_membership (jwtVerify : String → Int → Option Decoded)
    (events : List Event) (c : String) :
    (∀ e ∈ (run jwtVerify Manager.init (events ++ [Event.disconnect c])).rooms, c ∉ e.2) ∧
    (∀ e ∈ (run jwtVerify Manager.init (events ++ [Event.disconnect c])).clients, e.1 ≠ c) ∧
    (∀ room, c ∉ resolveSubscribers
      (run jwtVerify Manager.init (events ++ [Event.disconnect c])).rooms room) ∧
    (∀ streamerId, c ∉ resolveSubscribers
      (run jwtVerify Manager.init
        (events ++ [Event.subscribe_streamer c streamerId, Event.disconnect c])).rooms
      ("streamer_" ++ streamerId)) ∧
    (∀ gameId, c ∉ resolveSubscribers
      (run jwtVerify Manager.init
        (events ++ [Event.subscribe_game c gameId, Event.disconnect c])).rooms
      ("game_" ++ gameId)) ∧
    c ∉ resolveSubscribers
      (run jwtVerify Manager.init
        (events ++ [Event.subscribe_global_trends c, Event.disconnect c])).rooms
      "global_trends" := by
  have key : ∀ evs : List Event,
      (∀ e ∈ (run jwtVerify Manager.init (evs ++ [Event.disconnect c])).rooms, c ∉ e.2) ∧
      (∀ e ∈ (run jwtVerify Manager.init (evs ++ [Event.disconnect c])).clients, e.1 ≠ c) := by
    intro evs
    rw [run_append]
    exact (Inv.reachable jwtVerify evs).closeSocket_clean c
  have sub : ∀ (e0 : Event) (room : String), c ∉ resolveSubscribers
      (run jwtVerify Manager.init (events ++ [e0, Event.disconnect c])).rooms room := by
    intro e0 room
    have := (key (events ++ [e0])).1
    rw [List.append_assoc] at this
    exact not_mem_resolveSubscribers this room
  exact ⟨(key events).1, (key events).2, not_mem_resolveSubscribers (key events).1,
    fun _ => sub _ _, fun _ => sub _ _, sub _ _⟩

/-- C1, on a run: `c1` authenticates, subscribes to streamer 42 and is in the registry;
once it is disconnected the registry and `this.clients` are empty. -/
theorem disconnect_leaves_no_membership_run :
    resolveSubscribers (run sampleVerify Manager.init
      [Event.connection "c1", Event.authenticate "c1" "good",
       Event.subscribe_streamer "c1" "42"]).rooms "streamer_42" = ["c1"] ∧
    "c1" ∉ resolveSubscribers (run sampleVerify Manager.init
      ([Event.connection "c1", Event.authenticate "c1" "good"] ++
       [Event.subscribe_streamer "c1" "42", Event.disconnect "c1"])).rooms
      ("streamer_" ++ "42") :=
  ⟨by decide,
   (disconnect_leaves_no_membership sampleVerify
     [Event.connection "c1", Event.authenticate "c1" "good"] "c1").2.2.2.1 "42"⟩

/-! ## Subscribing needs authentication -/

/-- C3. On a connection that is not authenticated each of the three subscribe handlers
emits one `error` event with message `Authentication required` to that connection and
does nothing else: no other event is emitted, `this.rooms`, `this.clients`, the joined
rooms and the cache are unchanged, and the connection stays connected. -/
theorem subscribe_requires_authentication (jwtVerify : String → Int → Option Decoded)
    (s : Manager) (c : String) (k : Socket) (hk : s.findSocket c = some k)
    (hanon : k.authenticated = false) :
    (∀ streamerId, step jwtVerify s (Event.subscribe_streamer c streamerId) =
      { s with sent := s.sent ++
        [(c, Emit.mk "error" [("message", Json.str "Authentication required")])] }) ∧
    (∀ gameId, step jwtVerify s (Event.subscribe_game c gameId) =
      { s with sent := s.sent ++
        [(c, Emit.mk "error" [("message", Json.str "Authentication required")])] }) ∧
    step jwtVerify s (Event.subscribe_global_trends c) =
      { s with sent := s.sent ++
        [(c, Emit.mk "error" [("message", Json.str "Authentication required")])] } ∧
    ({ s with sent := s.sent ++
        [(c, Emit.mk "error" [("message", Json.str "Authentication required")])] }
      : Manager).findSocket c = some k := by
  have hid : k.id = c := (Manager.findSocket_some hk).2
  refine ⟨?_, ?_, ?_, hk⟩
  · intro streamerId
    simp [step, withSocket, hk, onSubscribeStreamer, hanon, hid, Manager.emit, authRequired]
  · intro gameId
    simp [step, withSocket, hk, onSubscribeGame, hanon, hid, Manager.emit, authRequired]
  · simp [step, withSocket, hk, onSubscribeGlobalTrends, hanon, hid, Manager.emit, authRequired]

/-- C3, on a run: the connection `c1` has not authenticated, and its `subscribe_game`
is answered by the one error event. -/
theorem subscribe_requires_authentication_run :
    (run sampleVerify Manager.init [Event.connection "c1"]).findSocket "c1" =
      some { id := "c1", authenticated := false, userId := none, rooms := [] } ∧
    step sampleVerify (run sampleVerify Manager.init [Event.connection "c1"])
        (Event.subscribe_game "c1" "42") =
      { run sampleVerify Manager.init [Event.connection "c1"] with
        sent := (run sampleVerify Manager.init [Event.connection "c1"]).sent ++
          [("c1", Emit.mk "error" [("message", Json.str "Authentication required")])] } :=
  ⟨by decide,
   (subscribe_requires_authentication sampleVerify
     (run sampleVerify Manager.init [Event.connection "c1"]) "c1"
     { id := "c1", authenticated := false, userId := none, rooms := [] }
     (by decide) rfl).2.1 "42"⟩

/-! ## Authentication -/

theorem Manager.findSocket_congr {s t : Manager} (h : t.sockets = s.sockets) (c : String) :
    t.findSocket c = s.findSocket c := by
  unfold Manager.findSocket
  rw [h]

theorem Manager.findSocket_join (s : Manager) (id room c : String) :
    (s.join id room).findSocket c = (s.findSocket c).map
      (fun k => if k.id = id then { k with rooms := JSSet.add k.rooms room } else k) :=
  Manager.findSocket_updateSocket s id c
    (fun k => { k with rooms := JSSet.add k.rooms room }) (fun _ => rfl)

theorem Manager.findSocket_leave (s : Manager) (id room c : String) :
    (s.leave id room).findSocket c = (s.findSocket c).map
      (fun k => if k.id = id then { k with rooms := JSSet.delete k.rooms room } else k) :=
  Manager.findSocket_updateSocket s id c
    (fun k => { k with rooms := JSSet.delete k.rooms room }) (fun _ => rfl)

theorem step_authenticate_connected (jwtVerify : String → Int → Option Decoded) {s : Manager}
    {c : String} {k : Socket} (hk : s.findSocket c = some k) (token : String) :
    step jwtVerify s (Event.authenticate c token) = onAuthenticate jwtVerify s c token := by
  simp [step, withSocket, hk]

theorem findSocket_onAuthenticate_ok (jwtVerify : String → Int → Option Decoded) (s : Manager)
    (c token : String) (k : Socket) (d : Decoded) (hk : s.findSocket c = some k)
    (hok : jwtVerify token s.now = some d) :
    (onAuthenticate jwtVerify s c token).findSocket c =
      some { k with authenticated := true, userId := some d.id,
                    rooms := JSSet.add k.rooms ("user_" ++ d.id) } := by
  have hid : k.id = c := (Manager.findSocket_some hk).2
  have h1 := Manager.findSocket_updateSocket s c c
    (fun k => { k with userId := some d.id, authenticated := true }) (fun _ => rfl)
  have hs : (onAuthenticate jwtVerify s c token).sockets =
      ((s.updateSocket c (fun k => { k with userId := some d.id, authenticated := true })).join
        c ("user_" ++ d.id)).sockets := by
    simp only [onAuthenticate, hok]
    rfl
  rw [Manager.findSocket_congr hs c, Manager.findSocket_join, h1, hk]
  simp [hid]

/-- C5. When the verification of the credential fails, the `authenticate` handler of an
anonymous connection emits one `authentication_error` event to it and changes nothing
else: the connection is still connected and anonymous with the same properties,
`this.clients`, `this.rooms` and the joined rooms are as before, and an `authenticate`
with a credential that verifies, sent next on the same connection, authenticates it. -/
theorem failed_authentication_changes_nothing (jwtVerify : String → Int → Option Decoded)
    (s : Manager) (c token : String) (k : Socket) (hk : s.findSocket c = some k)
    (hanon : k.authenticated = false) (hfail : jwtVerify token s.now = none) :
    step jwtVerify s (Event.authenticate c token) =
      { s with sent := s.sent ++
        [(c, Emit.mk "authentication_error" [("error", Json.str "Invalid token")])] } ∧
    (step jwtVerify s (Event.authenticate c token)).findSocket c = some k ∧
    (step jwtVerify s (Event.authenticate c token)).isAuthenticated c = false ∧
    (∀ token2 d, jwtVerify token2 s.now = some d →
      (step jwtVerify (step jwtVerify s (Event.authenticate c token))
        (Event.authenticate c token2)).isAuthenticated c = true) := by
  have h1 : step jwtVerify s (Event.authenticate c token) =
      { s with sent := s.sent ++
        [(c, Emit.mk "authentication_error" [("error", Json.str "Invalid token")])] } := by
    simp [step, withSocket, hk, onAuthenticate, hfail, Manager.emit]
  have h2 : (step jwtVerify s (Event.authenticate c token)).findSocket c = some k := by
    rw [h1]; exact hk
  refine ⟨h1, h2, ?_, ?_⟩
  · simp [Manager.isAuthenticated, h2, hanon]
  · intro token2 d hd
    have hnow : (step jwtVerify s (Event.authenticate c token)).now = s.now := by rw [h1]
    have := findSocket_onAuthenticate_ok jwtVerify _ c token2 k d h2 (hnow ▸ hd)
    rw [step_authenticate_connected jwtVerify h2 token2]
    simp [Manager.isAuthenticated, this]

/-- C5, on a run: the anonymous connection `c1` sends a token that does not verify. -/
theorem failed_authentication_changes_nothing_run :
    step sampleVerify (run sampleVerify Manager.init [Event.connection "c1"])
        (Event.authenticate "c1" "forged") =
      { run sampleVerify Manager.init [Event.connection "c1"] with
        sent := (run sampleVerify Manager.init [Event.connection "c1"]).sent ++
          [("c1", Emit.mk "authentication_error" [("error", Json.str "Invalid token")])] } :=
  (failed_authentication_changes_nothing sampleVerify
    (run sampleVerify Manager.init [Event.connection "c1"]) "c1" "forged"
    { id := "c1", authenticated := false, userId := none, rooms := [] }
    (by decide) rfl (by decide)).1

/-- C6. When the credential verifies and decodes to `id` and `username`, the `authenticate`
handler sets `socket.authenticated` and `socket.userId = id`, joins the connection to the
room `user_<id>`, records `userId = id`, `username = username` and the current time under
the connection's id in `this.clients`, and emits to the connection one event, which is
`authenticated` with `userId = id` and `username = username` (and so no
`authentication_error`). -/
theorem successful_authentication (jwtVerify : String → Int → Option Decoded)
    (s : Manager) (c token : String) (k : Socket) (d : Decoded)
    (hk : s.findSocket c = some k) (hok : jwtVerify token s.now = some d) :
    (step jwtVerify s (Event.authenticate c token)).findSocket c =
      some { k with authenticated := true, userId := some d.id,
                    rooms := JSSet.add k.rooms ("user_" ++ d.id) } ∧
    (step jwtVerify s (Event.authenticate c token)).isAuthenticated c = true ∧
    JSMap.get (step jwtVerify s (Event.authenticate c token)).clients c =
      some { userId := d.id, username := d.username, connectedAt := s.now } ∧
    (step jwtVerify s (Event.authenticate c token)).sent = s.sent ++
      [(c, Emit.mk "authenticated" [("success", Json.bool true), ("userId", Json.str d.id),
        ("username", Json.str d.username)])] ∧
    (step jwtVerify s (Event.authenticate c token)).rooms = s.rooms := by
  have hf := findSocket_onAuthenticate_ok jwtVerify s c token k d hk hok
  rw [step_authenticate_connected jwtVerify hk token]
  refine ⟨hf, ?_, ?_, ?_, ?_⟩
  · simp [Manager.isAuthenticated, hf]
  · simp only [onAuthenticate, hok, Manager.join, Manager.emit, Manager.updateSocket]
    exact JSMap.get_set_same _ _ _
  · simp [onAuthenticate, hok, Manager.join, Manager.emit, Manager.updateSocket]
  · simp [onAuthenticate, hok, Manager.join, Manager.emit, Manager.updateSocket]

/-- C6, on a run: the connection `c1` sends the token of user 7, `ann`. -/
theorem successful_authentication_run :
    (step sampleVerify (run sampleVerify Manager.init [Event.connection "c1"])
        (Event.authenticate "c1" "good")).findSocket "c1" =
      some { id := "c1", authenticated := true, userId := some "7", rooms := ["user_7"] } ∧
    (step sampleVerify (run sampleVerify Manager.init [Event.connection "c1"])
        (Event.authenticate "c1" "good")).sent =
      [("c1", Emit.mk "authenticated" [("success", Json.bool true), ("userId", Json.str "7"),
        ("username", Json.str "ann")])] :=
  ⟨(successful_authentication sampleVerify
      (run sampleVerify Manager.init [Event.connection "c1"]) "c1" "good"
      { id := "c1", authenticated := false, userId := none, rooms := [] }
      { id := "7", username := "ann" } (by decide) (by decide)).1,
   (successful_authentication sampleVerify
      (run sampleVerify Manager.init [Event.connection "c1"]) "c1" "good"
      { id := "c1", authenticated := false, userId := none, rooms := [] }
      { id := "7", username := "ann" } (by decide) (by decide)).2.2.2.1⟩

/-! ## Anonymous connections are subscribed to nothing -/

/-- C4. After every sequence of events: every connection id in a subscriber set of
`this.rooms` is the id of a connected, authenticated connection; every connected
connection that joined a room (a streamer, game, global trends or personal room) is
authenticated; and closing a connection that is not authenticated leaves `this.rooms`,
hence the subscriber set of every topic, as it was. -/
theorem anonymous_never_subscribed (jwtVerify : String → Int → Option Decoded)
    (events : List Event) :
    (∀ e ∈ (run jwtVerify Manager.init events).rooms, ∀ c ∈ e.2,
      (run jwtVerify Manager.init events).isAuthenticated c = true) ∧
    (∀ k ∈ (run jwtVerify Manager.init events).sockets, ∀ room ∈ k.rooms,
      k.authenticated = true) ∧
    (∀ c, (run jwtVerify Manager.init events).connected c = true →
      (run jwtVerify Manager.init events).isAuthenticated c = false →
      (step jwtVerify (run jwtVerify Manager.init events) (Event.disconnect c)).rooms =
          (run jwtVerify Manager.init events).rooms ∧
        ∀ room, resolveSubscribers
          (step jwtVerify (run jwtVerify Manager.init events) (Event.disconnect c)).rooms room =
          resolveSubscribers (run jwtVerify Manager.init events).rooms room) := by
  have h := Inv.reachable jwtVerify events
  have hmem : ∀ e ∈ (run jwtVerify Manager.init events).rooms, ∀ c ∈ e.2,
      (run jwtVerify Manager.init events).isAuthenticated c = true := by
    intro e he c hc
    obtain ⟨k, hk, _, hauth⟩ := h.member_connected he hc
    simp [Manager.isAuthenticated, hk, hauth]
  refine ⟨hmem, ?_, ?_⟩
  · intro k hk room hroom
    apply h.joinedAuth k hk
    intro hnil
    rw [hnil] at hroom
    exact List.not_mem_nil _ hroom
  · intro c hconn hanon
    have hrooms : (step jwtVerify (run jwtVerify Manager.init events) (Event.disconnect c)).rooms =
        (run jwtVerify Manager.init events).rooms := by
      cases hf : (run jwtVerify Manager.init events).findSocket c with
      | none => simp [Manager.connected, hf] at hconn
      | some k =>
        simp only [step]
        rw [closeSocket_eq h.roomKeys hf]
        apply registryWithout_eq_self
        · intro e he hc
          rw [hmem e he c hc] at hanon
          exact Bool.noConfusion hanon
        · exact h.nonempty
    exact ⟨hrooms, fun room => by rw [hrooms]⟩

/-- C4, on a run: `c1` is subscribed to game 1, the anonymous `c2` was refused; closing
`c2` leaves the registry as it was. -/
theorem anonymous_never_subscribed_run :
    (run sampleVerify Manager.init
      [Event.connection "c1", Event.authenticate "c1" "good", Event.subscribe_game "c1" "1",
       Event.connection "c2", Event.subscribe_game "c2" "1"]).rooms = [("game_1", ["c1"])] ∧
    (step sampleVerify (run sampleVerify Manager.init
      [Event.connection "c1", Event.authenticate "c1" "good", Event.subscribe_game "c1" "1",
       Event.connection "c2", Event.subscribe_game "c2" "1"]) (Event.disconnect "c2")).rooms =
      (run sampleVerify Manager.init
      [Event.connection "c1", Event.authenticate "c1" "good", Event.subscribe_game "c1" "1",
       Event.connection "c2", Event.subscribe_game "c2" "1"]).rooms :=
  ⟨by decide,
   ((anonymous_never_subscribed sampleVerify
      [Event.connection "c1", Event.authenticate "c1" "good", Event.subscribe_game "c1" "1",
       Event.connection "c2", Event.subscribe_game "c2" "1"]).2.2 "c2"
      (by decide) (by decide)).1⟩

/-! ## What a step does to the sockets -/

theorem sockets_same_map {s t : Manager} (h : t.sockets = s.sockets) :
    ∃ g : Socket → Socket,
      (∀ k, (g k).id = k.id ∧ (k.authenticated = true → (g k).authenticated = true)) ∧
      ∀ c, t.findSocket c = (s.findSocket c).map g :=
  ⟨fun k => k, fun _ => ⟨rfl, fun h => h⟩, fun c => by
    rw [Manager.findSocket_congr h c]; simp⟩

theorem sockets_join_map {s t : Manager} (id room : String)
    (h : t.sockets = (s.join id room).sockets) :
    ∃ g : Socket → Socket,
      (∀ k, (g k).id = k.id ∧ (k.authenticated = true → (g k).authenticated = true)) ∧
      ∀ c, t.findSocket c = (s.findSocket c).map g := by
  refine ⟨fun k => if k.id = id then { k with rooms := JSSet.add k.rooms room } else k, ?_, ?_⟩
  · intro k
    by_cases hk : k.id = id <;> simp [hk]
  · intro c
    rw [Manager.findSocket_congr h c, Manager.findSocket_join]

theorem sockets_leave_map {s t : Manager} (id room : String)
    (h : t.sockets = (s.leave id room).sockets) :
    ∃ g : Socket → Socket,
      (∀ k, (g k).id = k.id ∧ (k.authenticated = true → (g k).authenticated = true)) ∧
      ∀ c, t.findSocket c = (s.findSocket c).map g := by
  refine ⟨fun k => if k.id = id then { k with rooms := JSSet.delete k.rooms room } else k,
    ?_, ?_⟩
  · intro k
    by_cases hk : k.id = id <;> simp [hk]
  · intro c
    rw [Manager.findSocket_congr h c, Manager.findSocket_leave]

theorem sockets_onAuthenticate_map (jwtVerify : String → Int → Option Decoded) (s : Manager)
    (id token : String) :
    ∃ g : Socket → Socket,
      (∀ k, (g k).id = k.id ∧ (k.authenticated = true → (g k).authenticated = true)) ∧
      ∀ c, (onAuthenticate jwtVerify s id token).findSocket c = (s.findSocket c).map g := by
  cases hv : jwtVerify token s.now with
  | none =>
    apply sockets_same_map
    simp only [onAuthenticate, hv]
    rfl
  | some d =>
    refine ⟨fun k => if k.id = id then
        { k with userId := some d.id, authenticated := true,
                 rooms := JSSet.add k.rooms ("user_" ++ d.id) } else k, ?_, ?_⟩
    · intro k
      by_cases hk : k.id = id <;> simp [hk]
    · intro c
      have hs : (onAuthenticate jwtVerify s id token).sockets =
          ((s.updateSocket id
            (fun k => { k with userId := some d.id, authenticated := true })).join
            id ("user_" ++ d.id)).sockets := by
        simp only [onAuthenticate, hv]
        rfl
      have h1 := Manager.findSocket_updateSocket s id c
        (fun k => { k with userId := some d.id, authenticated := true }) (fun _ => rfl)
      rw [Manager.findSocket_congr hs c, Manager.findSocket_join, h1]
      cases s.findSocket c with
      | none => rfl
      | some k =>
        by_cases hk : k.id = id <;> simp [hk]

theorem sockets_withSocket_map (s : Manager) (id : String) (handler : Socket → Manager)
    (hh : ∀ k, ∃ g : Socket → Socket,
      (∀ k, (g k).id = k.id ∧ (k.authenticated = true → (g k).authenticated = true)) ∧
      ∀ c, (handler k).findSocket c = (s.findSocket c).map g) :
    ∃ g : Socket → Socket,
      (∀ k, (g k).id = k.id ∧ (k.authenticated = true → (g k).authenticated = true)) ∧
      ∀ c, (withSocket s id handler).findSocket c = (s.findSocket c).map g := by
  unfold withSocket
  split
  · exact hh _
  · exact sockets_same_map rfl

/-- Every step other than a new connection, the end of a connection and the sweep maps the
sockets one to one, keeping their ids and never clearing `authenticated`. -/
theorem step_sockets_map (jwtVerify : String → Int → Option Decoded) (s : Manager) (e : Event)
    (h1 : ∀ id, e ≠ Event.connection id) (h2 : ∀ id, e ≠ Event.disconnect id)
    (h3 : e ≠ Event.cleanupInactiveConnections) :
    ∃ g : Socket → Socket,
      (∀ k, (g k).id = k.id ∧ (k.authenticated = true → (g k).authenticated = true)) ∧
      ∀ c, (step jwtVerify s e).findSocket c = (s.findSocket c).map g := by
  cases e with
  | connection id => exact absurd rfl (h1 id)
  | disconnect id => exact absurd rfl (h2 id)
  | cleanupInactiveConnections => exact absurd rfl h3
  | authenticate id token =>
    exact sockets_withSocket_map s id _ (fun _ => sockets_onAuthenticate_map jwtVerify s id token)
  | subscribe_streamer id streamerId =>
    refine sockets_withSocket_map s id _ (fun k => ?_)
    unfold onSubscribeStreamer
    split
    · exact sockets_same_map rfl
    · apply sockets_join_map k.id ("streamer_" ++ streamerId)
      simp only [Manager.emit]
      split <;> rfl
  | unsubscribe_streamer id streamerId =>
    exact sockets_withSocket_map s id _
      (fun k => sockets_leave_map k.id ("streamer_" ++ streamerId) rfl)
  | subscribe_game id gameId =>
    refine sockets_withSocket_map s id _ (fun k => ?_)
    unfold onSubscribeGame
    split
    · exact sockets_same_map rfl
    · apply sockets_join_map k.id ("game_" ++ gameId)
      simp only [Manager.emit]
      split <;> rfl
  | unsubscribe_game id gameId =>
    exact sockets_withSocket_map s id _
      (fun k => sockets_leave_map k.id ("game_" ++ gameId) rfl)
  | subscribe_global_trends id =>
    refine sockets_withSocket_map s id _ (fun k => ?_)
    unfold onSubscribeGlobalTrends
    split
    · exact sockets_same_map rfl
    · exact sockets_join_map k.id "global_trends" rfl
  | get_viewer_count id streamerId result =>
    refine sockets_withSocket_map s id _ (fun k => sockets_same_map ?_)
    unfold onGetViewerCount
    split <;> rfl
  | check_live_status id streamerId result =>
    refine sockets_withSocket_map s id _ (fun k => sockets_same_map ?_)
    unfold onCheckLiveStatus
    split <;> rfl
  | analyze_chat id streamerId result =>
    refine sockets_withSocket_map s id _ (fun k => sockets_same_map ?_)
    unfold onAnalyzeChat
    split
    · rfl
    · split <;> rfl
  | broadcastStreamerUpdate streamerId data => exact sockets_same_map rfl
  | broadcastGameTrendUpdate gameId trendData => exact sockets_same_map rfl
  | broadcastGlobalTrends trendsData => exact sockets_same_map rfl
  | broadcastAlert alertData => exact sockets_same_map rfl
  | sendUserNotification userId notification => exact sockets_same_map rfl
  | broadcastViewerCountUpdate streamerId count => exact sockets_same_map rfl
  | broadcastLiveStatusChange streamerId isLive streamData => exact sockets_same_map rfl
  | tick ms => exact sockets_same_map rfl

theorem findSocket_connection (jwtVerify : String → Int → Option Decoded) (s : Manager)
    (id c : String) (k : Socket) (h : s.findSocket c = some k) :
    (step jwtVerify s (Event.connection id)).findSocket c = some k := by
  simp only [step]
  split
  · exact h
  · unfold Manager.findSocket at h ⊢
    simp only [List.find?_append, h]
    rfl

/-- The loop of `cleanupInactiveConnections` leaves a socket in place when it is
authenticated, or when every entry of `this.clients` under its id that the loop visits is
at most 30 minutes old. -/
theorem cleanupFold_spares (now : Int) (c : String) (k : Socket)
    (entries : List (String × ClientInfo)) :
    ∀ s : Manager, s.findSocket c = some k →
      (k.authenticated = true ∨
        ∀ e ∈ entries, e.1 = c → now - e.2.connectedAt ≤ 30 * 60 * 1000) →
      (entries.foldl (cleanupStep now) s).findSocket c = some k := by
  induction entries with
  | nil => intro s h _; exact h
  | cons e rest ih =>
    intro s h hcond
    simp only [List.foldl_cons]
    apply ih
    · unfold cleanupStep
      simp only
      split
      next hold =>
        split
        next socket hf =>
          split
          next hanon =>
            have hne : c ≠ e.1 := by
              intro hc
              rw [← hc, h] at hf
              have hks : k = socket := Option.some.inj hf
              rcases hcond with hauth | hyoung
              · rw [hks] at hauth
                simp [hauth] at hanon
              · have := hyoung e (List.mem_cons_self _ _) hc.symm
                omega
            rw [findSocket_closeSocket_ne s hne]
            exact h
          · exact h
        · exact h
      · exact h
    · rcases hcond with hauth | hyoung
      · exact Or.inl hauth
      · exact Or.inr (fun e' he' => hyoung e' (List.mem_cons_of_mem _ he'))

/-! ## Authentication is never undone -/

theorem isAuthenticated_step (jwtVerify : String → Int → Option Decoded) (s : Manager)
    (c : String) (e : Event) (hauth : s.isAuthenticated c = true)
    (hne : e ≠ Event.disconnect c) : (step jwtVerify s e).isAuthenticated c = true := by
  cases hf : s.findSocket c with
  | none => simp [Manager.isAuthenticated, hf] at hauth
  | some k =>
    have hk : k.authenticated = true := by simpa [Manager.isAuthenticated, hf] using hauth
    have hmap : ∀ e : Event, (∀ id, e ≠ Event.connection id) → (∀ id, e ≠ Event.disconnect id) →
        e ≠ Event.cleanupInactiveConnections →
        (step jwtVerify s e).isAuthenticated c = true := by
      intro e h1 h2 h3
      obtain ⟨g, hg, hfind⟩ := step_sockets_map jwtVerify s e h1 h2 h3
      simp [Manager.isAuthenticated, hfind c, hf, (hg k).2 hk]
    by_cases h1 : ∃ id, e = Event.connection id
    · obtain ⟨id, rfl⟩ := h1
      simp [Manager.isAuthenticated, findSocket_connection jwtVerify s id c k hf, hk]
    by_cases h2 : ∃ id, e = Event.disconnect id
    · obtain ⟨id, rfl⟩ := h2
      have hc : c ≠ id := fun h => hne (by rw [h])
      simp only [step, Manager.isAuthenticated]
      rw [findSocket_closeSocket_ne s hc, hf]
      exact hk
    by_cases h3 : e = Event.cleanupInactiveConnections
    · subst h3
      have := cleanupFold_spares s.now c k s.clients s hf (Or.inl hk)
      simp only [step, cleanupInactiveConnections, Manager.isAuthenticated]
      rw [this]
      exact hk
    exact hmap e (fun id h => h1 ⟨id, h⟩) (fun id h => h2 ⟨id, h⟩) h3

/-- C7. Once a connection is authenticated it stays authenticated through every sequence of
events that does not end the connection: client events on it or on other connections
(`authenticate` with a credential that fails included), the broadcasts, and the sweep. -/
theorem authenticated_never_reverts (jwtVerify : String → Int → Option Decoded) (s : Manager)
    (c : String) (events : List Event) (hauth : s.isAuthenticated c = true)
    (hconn : Event.disconnect c ∉ events) :
    (run jwtVerify s events).isAuthenticated c = true := by
  induction events generalizing s with
  | nil => exact hauth
  | cons e rest ih =>
    have hne : e ≠ Event.disconnect c := fun h => hconn (h ▸ List.mem_cons_self _ _)
    have hrest : Event.disconnect c ∉ rest := fun h => hconn (List.mem_cons_of_mem _ h)
    exact ih (step jwtVerify s e) (isAuthenticated_step jwtVerify s c e hauth hne) hrest

/-- C7, on a run: `c1` authenticates, then sends a forged token, subscribes, unsubscribes,
asks for an analysis, and the server broadcasts and sweeps 40 minutes later. -/
theorem authenticated_never_reverts_run :
    (run sampleVerify
      (run sampleVerify Manager.init [Event.connection "c1", Event.authenticate "c1" "good"])
      [Event.authenticate "c1" "forged", Event.subscribe_game "c1" "1",
       Event.unsubscribe_game "c1" "1", Event.analyze_chat "c1" "9" none,
       Event.broadcastAlert [], Event.tick 2400000,
       Event.cleanupInactiveConnections]).isAuthenticated "c1" = true :=
  authenticated_never_reverts sampleVerify
    (run sampleVerify Manager.init [Event.connection "c1", Event.authenticate "c1" "good"])
    "c1" _ (by decide) (by decide)

/-! ## The sweep -/

theorem cleanupFold_noop (now : Int) (s : Manager)
    (hs : ∀ e ∈ s.clients, ∃ k, s.findSocket e.1 = some k ∧ k.authenticated = true)
    (entries : List (String × ClientInfo)) (hsub : ∀ e ∈ entries, e ∈ s.clients) :
    entries.foldl (cleanupStep now) s = s := by
  induction entries with
  | nil => rfl
  | cons e rest ih =>
    have hstep : cleanupStep now s e = s := by
      obtain ⟨k, hk, hauth⟩ := hs e (hsub e (List.mem_cons_self _ _))
      unfold cleanupStep
      simp [hk, hauth]
    simp only [List.foldl_cons, hstep]
    exact ih (fun e' he' => hsub e' (List.mem_cons_of_mem _ he'))

/-- After every sequence of events `cleanupInactiveConnections` changes nothing: the
entries of `this.clients` it visits all belong to authenticated connections. -/
theorem cleanupInactiveConnections_reachable (jwtVerify : String → Int → Option Decoded)
    (events : List Event) :
    cleanupInactiveConnections (run jwtVerify Manager.init events) =
      run jwtVerify Manager.init events := by
  have h := Inv.reachable jwtVerify events
  exact cleanupFold_noop _ _ (fun e he => h.client_connected he) _ (fun _ he => he)

/-- C8, the failing run: the connection `c1` never authenticates; 31 minutes after it
connected it is anonymous and more than 30 minutes old, and `cleanupInactiveConnections`
leaves the state as it is, `c1` connected. -/
theorem sweep_keeps_old_anonymous_connection :
    (run sampleVerify Manager.init
      [Event.connection "c1", Event.tick 1860000]).isAuthenticated "c1" = false ∧
    (run sampleVerify Manager.init [Event.connection "c1", Event.tick 1860000]).now - 0 >
      30 * 60 * 1000 ∧
    (run sampleVerify Manager.init
      [Event.connection "c1", Event.tick 1860000,
       Event.cleanupInactiveConnections]).connected "c1" = true ∧
    cleanupInactiveConnections
        (run sampleVerify Manager.init [Event.connection "c1", Event.tick 1860000]) =
      run sampleVerify Manager.init [Event.connection "c1", Event.tick 1860000] := by
  decide

/-- C9. `cleanupInactiveConnections` leaves connected every connection that is
authenticated and every connection whose entries in `this.clients` are 30 minutes old or
less, and every step of the server other than the sweep and the end of a connection leaves
every connected connection connected. -/
theorem only_the_sweep_disconnects (jwtVerify : String → Int → Option Decoded) (s : Manager)
    (c : String) (k : Socket) (hk : s.findSocket c = some k) :
    (k.authenticated = true → (cleanupInactiveConnections s).findSocket c = some k) ∧
    ((∀ e ∈ s.clients, e.1 = c → s.now - e.2.connectedAt ≤ 30 * 60 * 1000) →
      (cleanupInactiveConnections s).findSocket c = some k) ∧
    (∀ e : Event, e ≠ Event.cleanupInactiveConnections → (∀ id, e ≠ Event.disconnect id) →
      (step jwtVerify s e).connected c = true) := by
  refine ⟨fun h => cleanupFold_spares s.now c k s.clients s hk (Or.inl h),
    fun h => cleanupFold_spares s.now c k s.clients s hk (Or.inr h), ?_⟩
  intro e h3 h2
  by_cases h1 : ∃ id, e = Event.connection id
  · obtain ⟨id, rfl⟩ := h1
    simp [Manager.connected, findSocket_connection jwtVerify s id c k hk]
  · obtain ⟨g, _, hfind⟩ := step_sockets_map jwtVerify s e (fun id h => h1 ⟨id, h⟩) h2 h3
    simp [Manager.connected, hfind c, hk]

/-- C9, on a run: `c1` authenticated 40 minutes ago and the sweep leaves it connected. -/
theorem only_the_sweep_disconnects_run :
    (cleanupInactiveConnections (run sampleVerify Manager.init
      [Event.connection "c1", Event.authenticate "c1" "good", Event.tick 2400000])).findSocket
        "c1" =
      some { id := "c1", authenticated := true, userId := some "7", rooms := ["user_7"] } :=
  (only_the_sweep_disconnects sampleVerify
    (run sampleVerify Manager.init
      [Event.connection "c1", Event.authenticate "c1" "good", Event.tick 2400000])
    "c1" { id := "c1", authenticated := true, userId := some "7", rooms := ["user_7"] }
    (by decide)).1 rfl

/-! ## The global trends room -/

/-- C2, the failing run: `c1` authenticates and subscribes to the global trends; it has
joined the room `global_trends`, yet `global_trends` is not a key of `this.rooms` and
`getRoomSubscriberCount` counts no subscriber. -/
theorem global_trends_not_in_registry :
    ((run sampleVerify Manager.init
      [Event.connection "c1", Event.authenticate "c1" "good",
       Event.subscribe_global_trends "c1"]).findSocket "c1").map Socket.rooms =
      some ["user_7", "global_trends"] ∧
    JSMap.has (run sampleVerify Manager.init
      [Event.connection "c1", Event.authenticate "c1" "good",
       Event.subscribe_global_trends "c1"]).rooms "global_trends" = false ∧
    getRoomSubscriberCount (run sampleVerify Manager.init
      [Event.connection "c1", Event.authenticate "c1" "good",
       Event.subscribe_global_trends "c1"]) "global_trends" = 0 ∧
    getActiveRooms (run sampleVerify Manager.init
      [Event.connection "c1", Event.authenticate "c1" "good",
       Event.subscribe_global_trends "c1"]) = [] := by
  decide

/-! ## The snapshot cache along a run -/

theorem key_stream_ne_trend (a b : String) : "stream:" ++ a ≠ "trend:game:" ++ b := by
  intro h
  have := congrArg String.data h
  simp [String.data_append] at this

theorem key_viewers_ne_trend (a b : String) : "viewers:" ++ a ≠ "trend:game:" ++ b := by
  intro h
  have := congrArg String.data h
  simp [String.data_append] at this

theorem key_viewers_ne_stream (a b : String) : "viewers:" ++ a ≠ "stream:" ++ b := by
  intro h
  have := congrArg String.data h
  simp [String.data_append] at this

theorem key_trend_inj {a b : String} (h : "trend:game:" ++ a = "trend:game:" ++ b) : a = b := by
  have := congrArg String.data h
  simp [String.data_append] at this
  exact String.ext this

theorem key_stream_inj {a b : String} (h : "stream:" ++ a = "stream:" ++ b) : a = b := by
  have := congrArg String.data h
  simp [String.data_append] at this
  exact String.ext this

theorem closeSocket_cache (s : Manager) (id : String) : (closeSocket s id).cache = s.cache := by
  unfold closeSocket
  split <;> rfl

theorem cleanupFold_cache (now : Int) (entries : List (String × ClientInfo)) :
    ∀ s : Manager, (entries.foldl (cleanupStep now) s).cache = s.cache := by
  induction entries with
  | nil => intro s; rfl
  | cons e rest ih =>
    intro s
    simp only [List.foldl_cons]
    rw [ih]
    unfold cleanupStep
    simp only
    split
    · split
      · split
        · exact closeSocket_cache s _
        · rfl
      · rfl
    · rfl

theorem withSocket_cache (s : Manager) (id : String) (handler : Socket → Manager)
    (h : ∀ k, (handler k).cache = s.cache) : (withSocket s id handler).cache = s.cache := by
  unfold withSocket
  split
  · exact h _
  · rfl

/-- The cache after a step: only the three broadcasts that store a snapshot write to it. -/
theorem step_cache (jwtVerify : String → Int → Option Decoded) (s : Manager) (e : Event) :
    (step jwtVerify s e).cache =
      match e with
      | Event.broadcastStreamerUpdate streamerId data =>
          CacheService.cacheStreamData s.cache s.now streamerId data 60
      | Event.broadcastGameTrendUpdate gameId trendData =>
          CacheService.cacheGameTrend s.cache s.now gameId trendData 300
      | Event.broadcastViewerCountUpdate streamerId count =>
          CacheService.cacheViewerCount s.cache s.now streamerId count 30
      | _ => s.cache := by
  cases e with
  | connection id =>
    simp only [step]
    split <;> rfl
  | authenticate id token =>
    refine withSocket_cache s id _ (fun _ => ?_)
    unfold onAuthenticate
    split <;> rfl
  | subscribe_streamer id streamerId =>
    refine withSocket_cache s id _ (fun k => ?_)
    unfold onSubscribeStreamer
    split
    · rfl
    · simp only [Manager.emit]
      split <;> rfl
  | unsubscribe_streamer id streamerId => exact withSocket_cache s id _ (fun _ => rfl)
  | subscribe_game id gameId =>
    refine withSocket_cache s id _ (fun k => ?_)
    unfold onSubscribeGame
    split
    · rfl
    · simp only [Manager.emit]
      split <;> rfl
  | unsubscribe_game id gameId => exact withSocket_cache s id _ (fun _ => rfl)
  | subscribe_global_trends id =>
    refine withSocket_cache s id _ (fun k => ?_)
    unfold onSubscribeGlobalTrends
    split <;> rfl
  | get_viewer_count id streamerId result =>
    refine withSocket_cache s id _ (fun k => ?_)
    unfold onGetViewerCount
    split <;> rfl
  | check_live_status id streamerId result =>
    refine withSocket_cache s id _ (fun k => ?_)
    unfold onCheckLiveStatus
    split <;> rfl
  | analyze_chat id streamerId result =>
    refine withSocket_cache s id _ (fun k => ?_)
    unfold onAnalyzeChat
    split
    · rfl
    · split <;> rfl
  | disconnect id => exact closeSocket_cache s id
  | broadcastStreamerUpdate streamerId data => rfl
  | broadcastGameTrendUpdate gameId trendData => rfl
  | broadcastGlobalTrends trendsData => rfl
  | broadcastAlert alertData => rfl
  | sendUserNotification userId notification => rfl
  | broadcastViewerCountUpdate streamerId count => rfl
  | broadcastLiveStatusChange streamerId isLive streamData => rfl
  | cleanupInactiveConnections => exact cleanupFold_cache s.now s.clients s
  | tick ms => rfl

theorem run_cache_game (jwtVerify : String → Int → Option Decoded) (gameId : String)
    (events : List Event) :
    ∀ s : Manager, (∀ e ∈ events, ∀ trendData, e ≠ Event.broadcastGameTrendUpdate gameId trendData) →
      JSMap.get (run jwtVerify s events).cache ("trend:game:" ++ gameId) =
        JSMap.get s.cache ("trend:game:" ++ gameId) := by
  induction events with
  | nil => intro s _; rfl
  | cons e rest ih =>
    intro s h
    have hrest := ih (step jwtVerify s e) (fun e' he' => h e' (List.mem_cons_of_mem _ he'))
    have he := h e (List.mem_cons_self _ _)
    show JSMap.get (run jwtVerify (step jwtVerify s e) rest).cache _ = _
    rw [hrest, step_cache]
    cases e with
    | broadcastStreamerUpdate streamerId data =>
      exact JSMap.get_set_other _ _ (fun h => key_stream_ne_trend _ _ h.symm)
    | broadcastViewerCountUpdate streamerId count =>
      exact JSMap.get_set_other _ _ (fun h => key_viewers_ne_trend _ _ h.symm)
    | broadcastGameTrendUpdate g trendData =>
      have hg : g ≠ gameId := fun hg => he trendData (by rw [hg])
      exact JSMap.get_set_other _ _ (fun h => hg (key_trend_inj h.symm))
    | _ => rfl

theorem run_cache_stream (jwtVerify : String → Int → Option Decoded) (streamerId : String)
    (events : List Event) :
    ∀ s : Manager, (∀ e ∈ events, ∀ data, e ≠ Event.broadcastStreamerUpdate streamerId data) →
      JSMap.get (run jwtVerify s events).cache ("stream:" ++ streamerId) =
        JSMap.get s.cache ("stream:" ++ streamerId) := by
  induction events with
  | nil => intro s _; rfl
  | cons e rest ih =>
    intro s h
    have hrest := ih (step jwtVerify s e) (fun e' he' => h e' (List.mem_cons_of_mem _ he'))
    have he := h e (List.mem_cons_self _ _)
    show JSMap.get (run jwtVerify (step jwtVerify s e) rest).cache _ = _
    rw [hrest, step_cache]
    cases e with
    | broadcastStreamerUpdate g data =>
      have hg : g ≠ streamerId := fun hg => he data (by rw [hg])
      exact JSMap.get_set_other _ _ (fun h => hg (key_stream_inj h.symm))
    | broadcastViewerCountUpdate g count =>
      exact JSMap.get_set_other _ _ (fun h => key_viewers_ne_stream _ _ h.symm)
    | broadcastGameTrendUpdate g trendData =>
      exact JSMap.get_set_other _ _ (fun h => key_stream_ne_trend _ _ h)
    | _ => rfl

theorem CacheService.get_of_entry {cache : JSMap CacheEntry} {now : Int} {key : String}
    {value : Json} {expiresAt : Int}
    (h : JSMap.get cache key = some { value := value, expiresAt := expiresAt })
    (hnow : now ≤ expiresAt) : CacheService.get cache now key = value := by
  unfold CacheService.get
  rw [h]
  have : ¬ now > expiresAt := by omega
  simp [this]

theorem onSubscribeGame_sent (s : Manager) (k : Socket) (gameId : String)
    (hauth : k.authenticated = true) (trendData : Json)
    (hget : CacheService.getGameTrend s.cache s.now gameId = trendData)
    (htruthy : trendData.truthy = true) :
    (onSubscribeGame s k gameId).sent = s.sent ++
      [(k.id, Emit.mk "game_trend_update" [("gameId", Json.str gameId), ("data", trendData)]),
       (k.id, Emit.mk "subscribed"
         [("gameId", Json.str gameId), ("room", Json.str ("game_" ++ gameId))])] := by
  have hc : CacheService.getGameTrend (s.join k.id ("game_" ++ gameId)).cache
      (s.join k.id ("game_" ++ gameId)).now gameId = trendData := hget
  unfold onSubscribeGame
  simp only [hauth, Bool.not_true, Bool.false_eq_true, if_false, hc, htruthy, if_true,
    Manager.emit]
  simp [Manager.join, Manager.updateSocket]

theorem onSubscribeStreamer_sent (s : Manager) (k : Socket) (streamerId : String)
    (hauth : k.authenticated = true) (cachedData : Json)
    (hget : CacheService.getStreamData s.cache s.now streamerId = cachedData)
    (htruthy : cachedData.truthy = true) :
    (onSubscribeStreamer s k streamerId).sent = s.sent ++
      [(k.id, Emit.mk "streamer_update"
         [("streamerId", Json.str streamerId), ("data", cachedData)]),
       (k.id, Emit.mk "subscribed"
         [("streamerId", Json.str streamerId),
          ("room", Json.str ("streamer_" ++ streamerId))])] := by
  have hc : CacheService.getStreamData (s.join k.id ("streamer_" ++ streamerId)).cache
      (s.join k.id ("streamer_" ++ streamerId)).now streamerId = cachedData := hget
  unfold onSubscribeStreamer
  simp only [hauth, Bool.not_true, Bool.false_eq_true, if_false, hc, htruthy, if_true,
    Manager.emit]
  simp [Manager.join, Manager.updateSocket]

/-! ## Replay of the snapshot on subscribe -/

/-- The replay of a truthy snapshot, every Redis command succeeding. Let `payload` be truthy
in the JavaScript sense (not `null`, `false`, `0` or the empty string), among the payloads
that JSON renders faithfully. After `broadcastGameTrendUpdate(x, payload)`, followed by any
events among which there is no other `broadcastGameTrendUpdate` for `x`, and at most 300
seconds later, the `subscribe_game(x)` handler of an authenticated connection emits to it
exactly two events, in this order: `game_trend_update` with `data` equal to `payload`, then
`subscribed`.  The same holds of `broadcastStreamerUpdate`, `subscribe_streamer` and
`streamer_update`, with 60 seconds. -/
theorem snapshot_replayed_on_subscribe (jwtVerify : String → Int → Option Decoded)
    (s0 : Manager) (x : String) (payload : Json) (events : List Event) (c : String)
    (k : Socket) (hP : payload.truthy = true) :
    ((∀ e ∈ events, ∀ trendData, e ≠ Event.broadcastGameTrendUpdate x trendData) →
      (run jwtVerify (broadcastGameTrendUpdate s0 x payload) events).now ≤ s0.now + 300 * 1000 →
      (run jwtVerify (broadcastGameTrendUpdate s0 x payload) events).findSocket c = some k →
      k.authenticated = true →
      (step jwtVerify (run jwtVerify (broadcastGameTrendUpdate s0 x payload) events)
          (Event.subscribe_game c x)).sent =
        (run jwtVerify (broadcastGameTrendUpdate s0 x payload) events).sent ++
          [(c, Emit.mk "game_trend_update" [("gameId", Json.str x), ("data", payload)]),
           (c, Emit.mk "subscribed"
             [("gameId", Json.str x), ("room", Json.str ("game_" ++ x))])]) ∧
    ((∀ e ∈ events, ∀ data, e ≠ Event.broadcastStreamerUpdate x data) →
      (run jwtVerify (broadcastStreamerUpdate s0 x payload) events).now ≤ s0.now + 60 * 1000 →
      (run jwtVerify (broadcastStreamerUpdate s0 x payload) events).findSocket c = some k →
      k.authenticated = true →
      (step jwtVerify (run jwtVerify (broadcastStreamerUpdate s0 x payload) events)
          (Event.subscribe_streamer c x)).sent =
        (run jwtVerify (broadcastStreamerUpdate s0 x payload) events).sent ++
          [(c, Emit.mk "streamer_update" [("streamerId", Json.str x), ("data", payload)]),
           (c, Emit.mk "subscribed"
             [("streamerId", Json.str x), ("room", Json.str ("streamer_" ++ x))])]) := by
  constructor
  · intro hnone hnow hk hauth
    have hid : k.id = c := (Manager.findSocket_some hk).2
    have hentry : JSMap.get (run jwtVerify (broadcastGameTrendUpdate s0 x payload) events).cache
        ("trend:game:" ++ x) = some { value := payload, expiresAt := s0.now + 300 * 1000 } := by
      rw [run_cache_game jwtVerify x events _ hnone]
      exact JSMap.get_set_same _ _ _
    have hget := CacheService.get_of_entry hentry hnow
    have := onSubscribeGame_sent _ k x hauth payload hget hP
    rw [hid] at this
    simp only [step, withSocket, hk]
    exact this
  · intro hnone hnow hk hauth
    have hid : k.id = c := (Manager.findSocket_some hk).2
    have hentry : JSMap.get (run jwtVerify (broadcastStreamerUpdate s0 x payload) events).cache
        ("stream:" ++ x) = some { value := payload, expiresAt := s0.now + 60 * 1000 } := by
      rw [run_cache_stream jwtVerify x events _ hnone]
      exact JSMap.get_set_same _ _ _
    have hget := CacheService.get_of_entry hentry hnow
    have := onSubscribeStreamer_sent _ k x hauth payload hget hP
    rw [hid] at this
    simp only [step, withSocket, hk]
    exact this

/-- The replay on a run: game 42 is published with 500 viewers; `c1` connects and authenticates,
the viewer count of a streamer is published, 200 seconds pass, and `c1` subscribes to
game 42: it receives the snapshot, then the acknowledgement. -/
theorem snapshot_replayed_on_subscribe_run :
    (step sampleVerify
        (run sampleVerify (broadcastGameTrendUpdate Manager.init "42" (Json.num 500))
          [Event.connection "c1", Event.authenticate "c1" "good",
           Event.broadcastViewerCountUpdate "42" (Json.num 3), Event.tick 200000])
        (Event.subscribe_game "c1" "42")).sent =
      (run sampleVerify (broadcastGameTrendUpdate Manager.init "42" (Json.num 500))
          [Event.connection "c1", Event.authenticate "c1" "good",
           Event.broadcastViewerCountUpdate "42" (Json.num 3), Event.tick 200000]).sent ++
        [("c1", Emit.mk "game_trend_update"
            [("gameId", Json.str "42"), ("data", Json.num 500)]),
         ("c1", Emit.mk "subscribed"
            [("gameId", Json.str "42"), ("room", Json.str ("game_" ++ "42"))])] :=
  (snapshot_replayed_on_subscribe sampleVerify Manager.init "42" (Json.num 500)
    [Event.connection "c1", Event.authenticate "c1" "good",
     Event.broadcastViewerCountUpdate "42" (Json.num 3), Event.tick 200000] "c1"
    { id := "c1", authenticated := true, userId := some "7", rooms := ["user_7"] }
    (by decide)).1 (by simp) (by decide) (by decide) rfl

/-- C10, the failing run: `broadcastGameTrendUpdate("42", 0)` completes with Redis working,
so that the snapshot 0 is stored and a read yields it; nothing is published after it and
no time passes; the authenticated connection `c1` subscribes to game 42, and the handler,
which tests `if (trendData)` under the comment `Send current trend data`, emits the
acknowledgement alone: no `game_trend_update` event is ever sent to `c1`. -/
theorem falsy_snapshot_is_not_replayed :
    (run sampleVerify Manager.init
      [Event.connection "c1", Event.authenticate "c1" "good",
       Event.broadcastGameTrendUpdate "42" (Json.num 0)]).isAuthenticated "c1" = true ∧
    CacheService.getGameTrend (run sampleVerify Manager.init
      [Event.connection "c1", Event.authenticate "c1" "good",
       Event.broadcastGameTrendUpdate "42" (Json.num 0)]).cache 0 "42" = Json.num 0 ∧
    (run sampleVerify Manager.init
      [Event.connection "c1", Event.authenticate "c1" "good",
       Event.broadcastGameTrendUpdate "42" (Json.num 0),
       Event.subscribe_game "c1" "42"]).sent =
      (run sampleVerify Manager.init
        [Event.connection "c1", Event.authenticate "c1" "good",
         Event.broadcastGameTrendUpdate "42" (Json.num 0)]).sent ++
        [("c1", Emit.mk "subscribed"
            [("gameId", Json.str "42"), ("room", Json.str "game_42")])] ∧
    ¬ ∃ m ∈ (run sampleVerify Manager.init
      [Event.connection "c1", Event.authenticate "c1" "good",
       Event.broadcastGameTrendUpdate "42" (Json.num 0),
       Event.subscribe_game "c1" "42"]).sent, m.2.name = "game_trend_update" := by
  decide

/-! ## Joined streamer and game rooms are in the registry -/

theorem not_isTopicRoom_user (userId : String) : ¬ isTopicRoom ("user_" ++ userId) := by
  rintro (⟨i, h⟩ | ⟨i, h⟩)
  · have := congrArg String.data h
    simp [String.data_append] at this
  · have := congrArg String.data h
    simp [String.data_append] at this

theorem not_isTopicRoom_global_trends : ¬ isTopicRoom "global_trends" := by
  rintro (⟨i, h⟩ | ⟨i, h⟩)
  · have := congrArg String.data h
    simp [String.data_append] at this
  · have := congrArg String.data h
    simp [String.data_append] at this

theorem resolveSubscribers_of_mem {rooms : JSMap JSSet} (hnd : (JSMap.keys rooms).Nodup)
    {e : String × JSSet} (he : e ∈ rooms) : resolveSubscribers rooms e.1 = e.2 := by
  unfold resolveSubscribers
  rw [JSMap.get_of_mem hnd (show (e.1, e.2) ∈ rooms from he)]
  rfl

theorem Registered.of_eq_reg {s t : Manager} (h : Registered s) (h1 : t.sockets = s.sockets)
    (h2 : t.rooms = s.rooms) : Registered t := by
  unfold Registered
  rw [h1, h2]
  exact h

theorem Registered.connection_reg {s : Manager} (h : Registered s) (id : String) :
    Registered { s with sockets := s.sockets ++
      [{ id := id, authenticated := false, userId := none, rooms := [] }] } := by
  intro k hk room hroom htopic
  rcases List.mem_append.1 hk with hk | hk
  · exact h k hk room hroom htopic
  · simp only [List.mem_singleton] at hk
    subst hk
    exact absurd hroom (List.not_mem_nil _)

/-- A write to a socket that keeps its id and adds no streamer or game room. -/
theorem Registered.updateSocket_reg {s : Manager} (h : Registered s) (id : String)
    (f : Socket → Socket) (hid : ∀ k, (f k).id = k.id)
    (hrooms : ∀ k, ∀ room ∈ (f k).rooms, isTopicRoom room → room ∈ k.rooms) :
    Registered (s.updateSocket id f) := by
  intro k' hk' room hroom htopic
  obtain ⟨k, hk, rfl⟩ := Manager.mem_updateSocket.1 hk'
  by_cases hkid : k.id = id
  · simp only [hkid, if_true] at hroom ⊢
    rw [hid]
    exact h k hk room (hrooms k room hroom htopic) htopic
  · simp only [hkid, if_false] at hroom ⊢
    exact h k hk room hroom htopic

theorem Registered.join_other {s : Manager} (h : Registered s) (id room : String)
    (hroom : ¬ isTopicRoom room) : Registered (s.join id room) := by
  unfold Manager.join
  apply h.updateSocket_reg id (fun k => { k with rooms := JSSet.add k.rooms room }) (fun _ => rfl)
  intro k r hr htopic
  rcases JSSet.mem_add.1 hr with hr | hr
  · exact hr
  · exact absurd (hr ▸ htopic) hroom

theorem Registered.subscribe {s : Manager} (h : Registered s)
    (hnd : (JSMap.keys s.rooms).Nodup) (id room : String) :
    Registered { (s.join id room) with rooms := registryAdd (s.join id room).rooms room id } := by
  intro k' hk' r hr htopic
  obtain ⟨k, hk, rfl⟩ := Manager.mem_updateSocket.1 hk'
  have hnew : (room, JSSet.add (resolveSubscribers s.rooms room) id) ∈
      registryAdd s.rooms room id := mem_registryAdd.2 (Or.inr rfl)
  have hold : r ∈ k.rooms → ∃ e ∈ registryAdd s.rooms room id, e.1 = r ∧ k.id ∈ e.2 := by
    intro hr0
    obtain ⟨e, he, he1, he2⟩ := h k hk r hr0 htopic
    by_cases her : e.1 = room
    · refine ⟨_, hnew, her ▸ he1, JSSet.mem_add.2 (Or.inl ?_)⟩
      rw [← her, resolveSubscribers_of_mem hnd he]
      exact he2
    · exact ⟨e, mem_registryAdd.2 (Or.inl ⟨he, her⟩), he1, he2⟩
  by_cases hkid : k.id = id
  · simp only [hkid, if_true] at hr ⊢
    rcases JSSet.mem_add.1 hr with hr | hr
    · exact hkid ▸ hold hr
    · exact ⟨_, hnew, hr.symm, JSSet.mem_add.2 (Or.inr rfl)⟩
  · simp only [hkid, if_false] at hr ⊢
    exact hold hr

theorem Registered.unsubscribe_reg {s : Manager} (h : Registered s)
    (hnd : (JSMap.keys s.rooms).Nodup) (id room : String) :
    Registered
      { (s.leave id room) with rooms := registryRemove (s.leave id room).rooms room id } := by
  intro k' hk' r hr htopic
  obtain ⟨k, hk, rfl⟩ := Manager.mem_updateSocket.1 hk'
  have hkeep : r ∈ k.rooms → (r = room → k.id ≠ id) →
      ∃ e ∈ registryRemove s.rooms room id, e.1 = r ∧ k.id ∈ e.2 := by
    intro hr0 hne
    obtain ⟨e, he, he1, he2⟩ := h k hk r hr0 htopic
    by_cases her : e.1 = room
    · have hres : resolveSubscribers s.rooms room = e.2 := by
        rw [← her]; exact resolveSubscribers_of_mem hnd he
      have hmem : k.id ∈ JSSet.delete (resolveSubscribers s.rooms room) id := by
        rw [hres]
        exact JSSet.mem_delete.2 ⟨he2, hne (he1.symm.trans her)⟩
      refine ⟨(room, JSSet.delete (resolveSubscribers s.rooms room) id),
        mem_registryRemove.2 (Or.inr ⟨rfl, JSMap.has_iff.2 ⟨e, he, her⟩, ?_⟩),
        her ▸ he1, hmem⟩
      intro hnil
      rw [hnil] at hmem
      exact List.not_mem_nil _ hmem
    · exact ⟨e, mem_registryRemove.2 (Or.inl ⟨he, her⟩), he1, he2⟩
  by_cases hkid : k.id = id
  · simp only [hkid, if_true] at hr ⊢
    obtain ⟨hr1, hr2⟩ := JSSet.mem_delete.1 hr
    exact hkid ▸ hkeep hr1 (fun h => absurd h hr2)
  · simp only [hkid, if_false] at hr ⊢
    exact hkeep hr (fun _ => hkid)

theorem Registered.without_reg {s : Manager} (h : Registered s) (id : String) :
    Registered { s with sockets := s.sockets.filter (fun k => k.id != id),
                        clients := JSMap.delete s.clients id,
                        rooms := registryWithout id s.rooms } := by
  intro k hk r hr htopic
  obtain ⟨hk1, hk2⟩ := List.mem_filter.1 hk
  have hne : k.id ≠ id := by simpa using hk2
  obtain ⟨e, he, he1, he2⟩ := h k hk1 r hr htopic
  have hmem : k.id ∈ JSSet.delete e.2 id := JSSet.mem_delete.2 ⟨he2, hne⟩
  refine ⟨(e.1, JSSet.delete e.2 id), mem_registryWithout.2 ⟨e, he, rfl, ?_⟩, he1, hmem⟩
  intro hnil
  rw [hnil] at hmem
  exact List.not_mem_nil _ hmem

theorem Registered.closeSocket_ok_reg {s : Manager} (h : Registered s)
    (hnd : (JSMap.keys s.rooms).Nodup) (id : String) : Registered (closeSocket s id) := by
  cases hf : s.findSocket id with
  | none => rw [closeSocket_of_not_connected hf]; exact h
  | some k => rw [closeSocket_eq hnd hf]; exact h.without_reg id

theorem Registered.cleanupFold_reg (now : Int) (entries : List (String × ClientInfo)) :
    ∀ {s : Manager}, Inv s → Registered s →
      Registered (entries.foldl (cleanupStep now) s) := by
  induction entries with
  | nil => intro s _ h; exact h
  | cons e rest ih =>
    intro s hi h
    refine ih (hi.cleanupStep_ok now e) ?_
    unfold cleanupStep
    simp only
    split
    · split
      · split
        · exact h.closeSocket_ok_reg hi.roomKeys _
        · exact h
      · exact h
    · exact h

theorem Registered.withSocket_ok_reg {s : Manager} (h : Registered s) (id : String)
    (handler : Socket → Manager) (hh : ∀ k, Registered (handler k)) :
    Registered (withSocket s id handler) := by
  unfold withSocket
  split
  · exact hh _
  · exact h

theorem Registered.onAuthenticate_ok_reg {s : Manager} (h : Registered s)
    (jwtVerify : String → Int → Option Decoded) (id token : String) :
    Registered (onAuthenticate jwtVerify s id token) := by
  unfold onAuthenticate
  split
  next decoded _ =>
    have h1 : Registered (s.updateSocket id
        (fun k => { k with userId := some decoded.id, authenticated := true })) :=
      h.updateSocket_reg id (fun k => { k with userId := some decoded.id, authenticated := true })
        (fun _ => rfl) (fun _ _ hr _ => hr)
    have h2 := h1.join_other id ("user_" ++ decoded.id) (not_isTopicRoom_user _)
    exact h2.of_eq_reg rfl rfl
  · exact h.of_eq_reg rfl rfl

theorem Registered.step_ok_reg {s : Manager} (hi : Inv s) (h : Registered s)
    (jwtVerify : String → Int → Option Decoded) (e : Event) :
    Registered (step jwtVerify s e) := by
  cases e with
  | connection id =>
    simp only [step]
    split
    · exact h
    · exact h.connection_reg id
  | authenticate id token =>
    exact h.withSocket_ok_reg id _ (fun _ => h.onAuthenticate_ok_reg jwtVerify id token)
  | subscribe_streamer id streamerId =>
    refine h.withSocket_ok_reg id _ (fun k => ?_)
    unfold onSubscribeStreamer
    split
    · exact h.of_eq_reg rfl rfl
    · refine (h.subscribe hi.roomKeys k.id ("streamer_" ++ streamerId)).of_eq_reg ?_ ?_
      · simp only [Manager.emit]; split <;> rfl
      · simp only [Manager.emit]; split <;> rfl
  | unsubscribe_streamer id streamerId =>
    exact h.withSocket_ok_reg id _ (fun k =>
      (h.unsubscribe_reg hi.roomKeys k.id ("streamer_" ++ streamerId)).of_eq_reg rfl rfl)
  | subscribe_game id gameId =>
    refine h.withSocket_ok_reg id _ (fun k => ?_)
    unfold onSubscribeGame
    split
    · exact h.of_eq_reg rfl rfl
    · refine (h.subscribe hi.roomKeys k.id ("game_" ++ gameId)).of_eq_reg ?_ ?_
      · simp only [Manager.emit]; split <;> rfl
      · simp only [Manager.emit]; split <;> rfl
  | unsubscribe_game id gameId =>
    exact h.withSocket_ok_reg id _ (fun k =>
      (h.unsubscribe_reg hi.roomKeys k.id ("game_" ++ gameId)).of_eq_reg rfl rfl)
  | subscribe_global_trends id =>
    refine h.withSocket_ok_reg id _ (fun k => ?_)
    unfold onSubscribeGlobalTrends
    split
    · exact h.of_eq_reg rfl rfl
    · exact (h.join_other k.id "global_trends" not_isTopicRoom_global_trends).of_eq_reg rfl rfl
  | get_viewer_count id streamerId result =>
    refine h.withSocket_ok_reg id _ (fun k => ?_)
    unfold onGetViewerCount
    split <;> exact h.of_eq_reg rfl rfl
  | check_live_status id streamerId result =>
    refine h.withSocket_ok_reg id _ (fun k => ?_)
    unfold onCheckLiveStatus
    split <;> exact h.of_eq_reg rfl rfl
  | analyze_chat id streamerId result =>
    refine h.withSocket_ok_reg id _ (fun k => ?_)
    unfold onAnalyzeChat
    split
    · exact h.of_eq_reg rfl rfl
    · split <;> exact h.of_eq_reg rfl rfl
  | disconnect id => exact h.closeSocket_ok_reg hi.roomKeys id
  | broadcastStreamerUpdate streamerId data => exact h.of_eq_reg rfl rfl
  | broadcastGameTrendUpdate gameId trendData => exact h.of_eq_reg rfl rfl
  | broadcastGlobalTrends trendsData => exact h.of_eq_reg rfl rfl
  | broadcastAlert alertData => exact h.of_eq_reg rfl rfl
  | sendUserNotification userId notification => exact h.of_eq_reg rfl rfl
  | broadcastViewerCountUpdate streamerId count => exact h.of_eq_reg rfl rfl
  | broadcastLiveStatusChange streamerId isLive streamData => exact h.of_eq_reg rfl rfl
  | cleanupInactiveConnections => exact Registered.cleanupFold_reg s.now s.clients hi h
  | tick ms => exact h.of_eq_reg rfl rfl

theorem Registered.run_ok_reg (jwtVerify : String → Int → Option Decoded) (events : List Event) :
    ∀ {s : Manager}, Inv s → Registered s → Registered (run jwtVerify s events) := by
  induction events with
  | nil => intro s _ h; exact h
  | cons e rest ih => intro s hi h; exact ih (hi.step_ok jwtVerify e) (h.step_ok_reg hi jwtVerify e)

theorem Registered.reachable_reg (jwtVerify : String → Int → Option Decoded)
    (events : List Event) : Registered (run jwtVerify Manager.init events) :=
  Registered.run_ok_reg jwtVerify events Inv.init
    (fun _ hk => absurd hk (List.not_mem_nil _))

/-- After every sequence of events, for a connected socket and a streamer or game room:
the socket has joined the room if and only if its id is in the subscriber set that the
registry holds for the room. -/
theorem joined_iff_registered (jwtVerify : String → Int → Option Decoded)
    (events : List Event) (c room : String) (k : Socket)
    (hk : (run jwtVerify Manager.init events).findSocket c = some k)
    (htopic : isTopicRoom room) :
    room ∈ k.rooms ↔ c ∈ resolveSubscribers (run jwtVerify Manager.init events).rooms room := by
  have hi := Inv.reachable jwtVerify events
  have hr := Registered.reachable_reg jwtVerify events
  obtain ⟨hmem, hid⟩ := Manager.findSocket_some hk
  constructor
  · intro hroom
    obtain ⟨e, he, he1, he2⟩ := hr k hmem room hroom htopic
    rw [← he1, resolveSubscribers_of_mem hi.roomKeys he, ← hid]
    exact he2
  · intro hc
    obtain ⟨e, he, he1, he2⟩ := mem_resolveSubscribers hc
    obtain ⟨k', hk', hroom, _⟩ := hi.member_connected he he2
    rw [hk] at hk'
    rw [Option.some.inj hk', ← he1]
    exact hroom

/-! ## The registry holds no empty subscriber set -/

theorem has_registryRemove_of_last {rooms : JSMap JSSet} {room c : String}
    (h : resolveSubscribers rooms room = [c]) :
    JSMap.has (registryRemove rooms room c) room = false := by
  rw [JSMap.has_eq_false_iff]
  intro e he
  rcases mem_registryRemove.1 he with ⟨_, hne⟩ | ⟨_, _, hnil⟩
  · exact hne
  · exact absurd (by simp [h, JSSet.delete]) hnil

theorem has_registryWithout_of_last {rooms : JSMap JSSet} (hnd : (JSMap.keys rooms).Nodup)
    {room c : String} (h : resolveSubscribers rooms room = [c]) :
    JSMap.has (registryWithout c rooms) room = false := by
  rw [JSMap.has_eq_false_iff]
  intro e he heq
  obtain ⟨e0, he0, rfl, hnil⟩ := mem_registryWithout.1 he
  have h0 : e0.1 = room := heq
  have hres := resolveSubscribers_of_mem hnd he0
  rw [h0, h] at hres
  exact hnil (by simp [← hres, JSSet.delete])

/-- C14. After every sequence of events every key of `this.rooms` maps to a non-empty
subscriber set, so no room of `getActiveRooms` has a `getRoomSubscriberCount` of 0; and
when a connection is the only subscriber of a room, its `unsubscribe_streamer`,
`unsubscribe_game` or disconnect removes the room's entry. -/
theorem registry_sets_never_empty (jwtVerify : String → Int → Option Decoded)
    (events : List Event) :
    (∀ e ∈ (run jwtVerify Manager.init events).rooms, e.2 ≠ []) ∧
    (∀ room ∈ getActiveRooms (run jwtVerify Manager.init events),
      getRoomSubscriberCount (run jwtVerify Manager.init events) room ≠ 0) ∧
    (∀ c streamerId,
      resolveSubscribers (run jwtVerify Manager.init events).rooms
          ("streamer_" ++ streamerId) = [c] →
      JSMap.has (step jwtVerify (run jwtVerify Manager.init events)
          (Event.unsubscribe_streamer c streamerId)).rooms ("streamer_" ++ streamerId) = false) ∧
    (∀ c gameId,
      resolveSubscribers (run jwtVerify Manager.init events).rooms ("game_" ++ gameId) = [c] →
      JSMap.has (step jwtVerify (run jwtVerify Manager.init events)
          (Event.unsubscribe_game c gameId)).rooms ("game_" ++ gameId) = false) ∧
    (∀ c room,
      resolveSubscribers (run jwtVerify Manager.init events).rooms room = [c] →
      JSMap.has (step jwtVerify (run jwtVerify Manager.init events)
          (Event.disconnect c)).rooms room = false) := by
  have h := Inv.reachable jwtVerify events
  have hconn : ∀ c room,
      resolveSubscribers (run jwtVerify Manager.init events).rooms room = [c] →
      ∃ k, (run jwtVerify Manager.init events).findSocket c = some k ∧ k.id = c := by
    intro c room hres
    have hc : c ∈ resolveSubscribers (run jwtVerify Manager.init events).rooms room := by
      rw [hres]; exact List.mem_singleton.2 rfl
    obtain ⟨e, he, _, he2⟩ := mem_resolveSubscribers hc
    obtain ⟨k, hk, _⟩ := h.member_connected he he2
    exact ⟨k, hk, (Manager.findSocket_some hk).2⟩
  refine ⟨h.nonempty, ?_, ?_, ?_, ?_⟩
  · intro room hroom
    obtain ⟨e, he, hkey⟩ := List.mem_map.1 hroom
    have hget := JSMap.get_of_mem h.roomKeys (show (e.1, e.2) ∈ _ from he)
    have hne := h.nonempty e he
    unfold getRoomSubscriberCount
    rw [← hkey, hget]
    exact fun h0 => hne (List.length_eq_zero.1 h0)
  · intro c streamerId hres
    obtain ⟨k, hk, hid⟩ := hconn c _ hres
    simp only [step, withSocket, hk, onUnsubscribeStreamer, Manager.emit, hid]
    exact has_registryRemove_of_last hres
  · intro c gameId hres
    obtain ⟨k, hk, hid⟩ := hconn c _ hres
    simp only [step, withSocket, hk, onUnsubscribeGame, Manager.emit, hid]
    exact has_registryRemove_of_last hres
  · intro c room hres
    obtain ⟨k, hk, _⟩ := hconn c _ hres
    simp only [step]
    rw [closeSocket_eq h.roomKeys hk]
    exact has_registryWithout_of_last h.roomKeys hres

/-- C14, on a run: `c1` is the only subscriber of streamer 42; once it unsubscribes the
registry has no room left. -/
theorem registry_sets_never_empty_run :
    getActiveRooms (run sampleVerify Manager.init
      [Event.connection "c1", Event.authenticate "c1" "good",
       Event.subscribe_streamer "c1" "42"]) = ["streamer_42"] ∧
    JSMap.has (step sampleVerify (run sampleVerify Manager.init
      [Event.connection "c1", Event.authenticate "c1" "good",
       Event.subscribe_streamer "c1" "42"])
      (Event.unsubscribe_streamer "c1" "42")).rooms ("streamer_" ++ "42") = false :=
  ⟨by decide,
   (registry_sets_never_empty sampleVerify
      [Event.connection "c1", Event.authenticate "c1" "good",
       Event.subscribe_streamer "c1" "42"]).2.2.1 "c1" "42" (by decide)⟩

/-! ## Expiry of cache entries -/

/-- C19. `CacheService.get` returns `null` for a key the store has no entry for; after
`CacheService.set(k, P, ttl)` at time `t` with a positive `ttl` (in seconds), a read of `k`
at a time later than `t + ttl` seconds returns `null`, and a read at a time up to
`t + ttl` seconds returns `P`. -/
theorem cache_entry_expires (cache : JSMap CacheEntry) (t now : Int) (k : String) (P : Json)
    (ttl : Int) (_httl : 0 < ttl) :
    (∀ k', (∀ e ∈ cache, e.1 ≠ k') → CacheService.get cache now k' = Json.null) ∧
    (now > t + ttl * 1000 →
      CacheService.get (CacheService.set cache t k P ttl) now k = Json.null) ∧
    (now ≤ t + ttl * 1000 →
      CacheService.get (CacheService.set cache t k P ttl) now k = P) := by
  refine ⟨?_, ?_, ?_⟩
  · intro k' hk'
    have := JSMap.get_eq_none_iff.2 hk'
    simp [CacheService.get, this]
  · intro hnow
    simp [CacheService.get, CacheService.set, JSMap.get_set_same, hnow]
  · intro hnow
    have : ¬ now > t + ttl * 1000 := by omega
    simp [CacheService.get, CacheService.set, JSMap.get_set_same, this]

/-- C19, on values: a payload stored for 1 second at time 0 is read back at 1000 ms and is
gone at 1001 ms. -/
theorem cache_entry_expires_run :
    CacheService.get (CacheService.set [] 0 "stream:7" (Json.num 10) 1) 1001 "stream:7" =
      Json.null ∧
    CacheService.get (CacheService.set [] 0 "stream:7" (Json.num 10) 1) 1000 "stream:7" =
      Json.num 10 :=
  ⟨(cache_entry_expires [] 0 1001 "stream:7" (Json.num 10) 1 (by decide)).2.1 (by decide),
   (cache_entry_expires [] 0 1000 "stream:7" (Json.num 10) 1 (by decide)).2.2 (by decide)⟩

/-! ## Alerts -/

/-- C18. `broadcastAlert` appends to the deliveries one `alert` event (the payload's fields
with `timestamp`) for every connected socket, authenticated or not and whatever rooms it
joined, each connected socket receiving exactly one; it leaves the sockets, `this.rooms`,
`this.clients` and the cache as they are, and what it delivers is the same whatever
`this.rooms`, `this.clients` and the cache hold. -/
theorem alert_reaches_every_connection (jwtVerify : String → Int → Option Decoded)
    (events : List Event) (alertData : List (String × Json)) :
    (broadcastAlert (run jwtVerify Manager.init events) alertData).sent =
      (run jwtVerify Manager.init events).sent ++
        (run jwtVerify Manager.init events).sockets.map (fun k =>
          (k.id, Emit.mk "alert"
            (JSMap.set alertData "timestamp"
              (Json.num (run jwtVerify Manager.init events).now)))) ∧
    (∀ k ∈ (run jwtVerify Manager.init events).sockets,
      (((run jwtVerify Manager.init events).sockets.map (fun k =>
          (k.id, Emit.mk "alert"
            (JSMap.set alertData "timestamp"
              (Json.num (run jwtVerify Manager.init events).now))))).filter
        (fun m => m.1 == k.id)).length = 1) ∧
    (broadcastAlert (run jwtVerify Manager.init events) alertData).sockets =
      (run jwtVerify Manager.init events).sockets ∧
    (broadcastAlert (run jwtVerify Manager.init events) alertData).rooms =
      (run jwtVerify Manager.init events).rooms ∧
    (broadcastAlert (run jwtVerify Manager.init events) alertData).clients =
      (run jwtVerify Manager.init events).clients ∧
    (broadcastAlert (run jwtVerify Manager.init events) alertData).cache =
      (run jwtVerify Manager.init events).cache ∧
    (∀ rooms clients cache,
      (broadcastAlert { run jwtVerify Manager.init events with
          rooms := rooms, clients := clients, cache := cache } alertData).sent =
        (broadcastAlert (run jwtVerify Manager.init events) alertData).sent) := by
  refine ⟨rfl, ?_, rfl, rfl, rfl, rfl, fun _ _ _ => rfl⟩
  intro k hk
  have hnd := (Inv.reachable jwtVerify events).socketIds
  generalize (run jwtVerify Manager.init events).sockets = l at hk hnd
  generalize Emit.mk "alert" _ = ev
  induction l with
  | nil => exact absurd hk (List.not_mem_nil _)
  | cons a rest ih =>
    simp only [List.map_cons, List.nodup_cons, List.mem_map, not_exists, not_and] at hnd
    rcases List.mem_cons.1 hk with rfl | hmem
    · have hnone : (rest.map (fun k' => (k'.id, ev))).filter (fun m => m.1 == k.id) = [] := by
        rw [List.filter_eq_nil_iff]
        intro m hm
        obtain ⟨k', hk', rfl⟩ := List.mem_map.1 hm
        have := hnd.1 k' hk'
        simpa using this
      simp [List.filter_cons, hnone]
    · have hne : ¬ a.id = k.id := fun h => hnd.1 k hmem h.symm
      simp only [List.map_cons, List.filter_cons]
      have : ((a.id, ev).1 == k.id) = false := by simpa using hne
      rw [this]
      exact ih hmem hnd.2

/-- C18, on a run: an authenticated connection subscribed to a game and an anonymous one
both receive the alert, the anonymous one exactly once. -/
theorem alert_reaches_every_connection_run :
    (broadcastAlert (run sampleVerify Manager.init
      [Event.connection "c1", Event.authenticate "c1" "good", Event.subscribe_game "c1" "1",
       Event.connection "c2"]) [("type", Json.str "trending_game")]).sent =
    (run sampleVerify Manager.init
      [Event.connection "c1", Event.authenticate "c1" "good", Event.subscribe_game "c1" "1",
       Event.connection "c2"]).sent ++
      [("c1", Emit.mk "alert" [("type", Json.str "trending_game"), ("timestamp", Json.num 0)]),
       ("c2", Emit.mk "alert"
         [("type", Json.str "trending_game"), ("timestamp", Json.num 0)])] ∧
    (broadcastAlert (run sampleVerify Manager.init
      [Event.connection "c1", Event.authenticate "c1" "good", Event.subscribe_game "c1" "1",
       Event.connection "c2"]) [("type", Json.str "trending_game")]).rooms =
    (run sampleVerify Manager.init
      [Event.connection "c1", Event.authenticate "c1" "good", Event.subscribe_game "c1" "1",
       Event.connection "c2"]).rooms :=
  ⟨by decide,
   (alert_reaches_every_connection sampleVerify
      [Event.connection "c1", Event.authenticate "c1" "good", Event.subscribe_game "c1" "1",
       Event.connection "c2"] [("type", Json.str "trending_game")]).2.2.2.1⟩

/-! ## The subscriber set of a room after a registry write -/

theorem JSMap.get_delete_same {β : Type} (m : JSMap β) (k : String) :
    JSMap.get (JSMap.delete m k) k = none := by
  rw [JSMap.get_eq_none_iff]
  intro e he
  exact (JSMap.mem_delete_key.1 he).2

theorem JSMap.get_delete_other {β : Type} (m : JSMap β) {k k' : String} (h : k' ≠ k) :
    JSMap.get (JSMap.delete m k) k' = JSMap.get m k' := by
  induction m with
  | nil => rfl
  | cons e rest ih =>
    unfold JSMap.delete at ih ⊢
    by_cases hek : e.1 = k
    · have hek' : ¬ e.1 = k' := by rw [hek]; exact fun h' => h h'.symm
      simp only [List.filter_cons, hek, bne_self_eq_false, Bool.false_eq_true, if_false]
      rw [ih]
      simp only [JSMap.get, hek', if_false]
    · have hb : (e.1 != k) = true := by simpa using hek
      simp only [List.filter_cons, hb, if_true, JSMap.get]
      rw [ih]

theorem JSMap.set_of_has {β : Type} {m : JSMap β} {k : String} (h : JSMap.has m k = true)
    (v : β) : JSMap.set m k v = m.map (fun e => if e.1 = k then (k, v) else e) := by
  simp [JSMap.set, h]

theorem JSMap.set_of_not_has {β : Type} {m : JSMap β} {k : String}
    (h : JSMap.has m k = false) (v : β) : JSMap.set m k v = m ++ [(k, v)] := by
  simp [JSMap.set, h]

theorem JSMap.has_set {β : Type} (m : JSMap β) (k : String) (v : β) :
    JSMap.has (JSMap.set m k v) k = true :=
  JSMap.has_iff.2 ⟨(k, v), JSMap.mem_set.2 (Or.inr rfl), rfl⟩

theorem JSMap.set_set {β : Type} (m : JSMap β) (k : String) (v w : β) :
    JSMap.set (JSMap.set m k v) k w = JSMap.set m k w := by
  rw [JSMap.set_of_has (JSMap.has_set m k v) w]
  by_cases h : JSMap.has m k = true
  · rw [JSMap.set_of_has h v, JSMap.set_of_has h w, List.map_map]
    apply List.map_congr_left
    intro e _
    by_cases hek : e.1 = k <;> simp [hek]
  · have hf : JSMap.has m k = false := by simpa using h
    have hno := JSMap.has_eq_false_iff.1 hf
    rw [JSMap.set_of_not_has hf v, JSMap.set_of_not_has hf w, List.map_append]
    congr 1
    · conv => rhs; rw [← List.map_id m]
      apply List.map_congr_left
      intro e he
      simp [hno e he]
    · simp

theorem JSMap.set_get_self {β : Type} {m : JSMap β} (hnd : (JSMap.keys m).Nodup) {k : String}
    {v : β} (h : JSMap.get m k = some v) : JSMap.set m k v = m := by
  have hmem := JSMap.get_some_mem h
  have hhas : JSMap.has m k = true := JSMap.has_iff.2 ⟨(k, v), hmem, rfl⟩
  unfold JSMap.set
  simp only [hhas, if_true]
  conv => rhs; rw [← List.map_id m]
  apply List.map_congr_left
  intro e he
  by_cases hek : e.1 = k
  · have := JSMap.get_of_mem hnd (show (e.1, e.2) ∈ m from he)
    rw [hek, h] at this
    simp only [hek, if_true, id]
    rw [← hek, Option.some.inj this]
  · simp [hek]

theorem resolveSubscribers_registryAdd (rooms : JSMap JSSet) (room id room' : String) :
    resolveSubscribers (registryAdd rooms room id) room' =
      if room' = room then JSSet.add (resolveSubscribers rooms room) id
      else resolveSubscribers rooms room' := by
  by_cases hr : room' = room
  · subst hr
    simp only [if_true]
    unfold registryAdd resolveSubscribers
    simp only
    rw [JSMap.get_set_same]
    by_cases hhas : JSMap.has rooms room' = true
    · simp [hhas]
    · have hf : JSMap.has rooms room' = false := by simpa using hhas
      have hnone := JSMap.get_eq_none_iff.2 (JSMap.has_eq_false_iff.1 hf)
      simp [hf, JSMap.get_set_same, hnone]
  · simp only [hr, if_false]
    unfold registryAdd resolveSubscribers
    simp only
    rw [JSMap.get_set_other _ _ hr]
    split
    · rw [JSMap.get_set_other _ _ hr]
    · rfl

theorem registryRemove_of_not_has {rooms : JSMap JSSet} {room : String}
    (h : JSMap.has rooms room = false) (id : String) : registryRemove rooms room id = rooms := by
  simp [registryRemove, h]

theorem registryRemove_of_last {rooms : JSMap JSSet} {room id : String}
    (h : JSMap.has rooms room = true)
    (hnil : JSSet.delete (resolveSubscribers rooms room) id = []) :
    registryRemove rooms room id =
      JSMap.delete (JSMap.set rooms room (JSSet.delete (resolveSubscribers rooms room) id))
        room := by
  have hsz : JSSet.size (JSSet.delete ((JSMap.get rooms room).getD []) id) = 0 :=
    List.length_eq_zero.2 hnil
  simp [registryRemove, h, hsz, resolveSubscribers]

theorem registryRemove_of_more {rooms : JSMap JSSet} {room id : String}
    (h : JSMap.has rooms room = true)
    (hne : JSSet.delete (resolveSubscribers rooms room) id ≠ []) :
    registryRemove rooms room id =
      JSMap.set rooms room (JSSet.delete (resolveSubscribers rooms room) id) := by
  have hsz : ¬ JSSet.size (JSSet.delete ((JSMap.get rooms room).getD []) id) = 0 :=
    fun h0 => hne (List.length_eq_zero.1 h0)
  simp [registryRemove, h, hsz, resolveSubscribers]

theorem resolveSubscribers_set_same (rooms : JSMap JSSet) (room : String) (ms : JSSet) :
    resolveSubscribers (JSMap.set rooms room ms) room = ms := by
  simp [resolveSubscribers, JSMap.get_set_same]

theorem resolveSubscribers_registryRemove (rooms : JSMap JSSet) (room id room' : String) :
    resolveSubscribers (registryRemove rooms room id) room' =
      if room' = room then JSSet.delete (resolveSubscribers rooms room) id
      else resolveSubscribers rooms room' := by
  by_cases hhas : JSMap.has rooms room = true
  · by_cases hnil : JSSet.delete (resolveSubscribers rooms room) id = []
    · rw [registryRemove_of_last hhas hnil]
      by_cases hr : room' = room
      · subst hr
        simp only [if_true, hnil]
        simp [resolveSubscribers, JSMap.get_delete_same]
      · simp only [hr, if_false]
        unfold resolveSubscribers
        rw [JSMap.get_delete_other _ hr, JSMap.get_set_other _ _ hr]
    · rw [registryRemove_of_more hhas hnil]
      by_cases hr : room' = room
      · subst hr
        simp only [if_true]
        exact resolveSubscribers_set_same _ _ _
      · simp only [hr, if_false]
        unfold resolveSubscribers
        rw [JSMap.get_set_other _ _ hr]
  · have hf : JSMap.has rooms room = false := by simpa using hhas
    rw [registryRemove_of_not_has hf]
    by_cases hr : room' = room
    · subst hr
      simp [resolveSubscribers_of_not_has hf, JSSet.delete]
    · simp [hr]

theorem resolveSubscribers_registryWithout {rooms : JSMap JSSet}
    (hnd : (JSMap.keys rooms).Nodup) (id room : String) :
    resolveSubscribers (registryWithout id rooms) room =
      JSSet.delete (resolveSubscribers rooms room) id := by
  cases hg : JSMap.get rooms room with
  | none =>
    have hno := JSMap.get_eq_none_iff.1 hg
    have : JSMap.get (registryWithout id rooms) room = none := by
      rw [JSMap.get_eq_none_iff]
      intro e he heq
      obtain ⟨e0, he0, rfl, _⟩ := mem_registryWithout.1 he
      exact hno e0 he0 heq
    simp [resolveSubscribers, hg, this, JSSet.delete]
  | some ms =>
    have hmem := JSMap.get_some_mem hg
    have hres : resolveSubscribers rooms room = ms := by simp [resolveSubscribers, hg]
    rw [hres]
    by_cases hnil : JSSet.delete ms id = []
    · have : JSMap.get (registryWithout id rooms) room = none := by
        rw [JSMap.get_eq_none_iff]
        intro e he heq
        obtain ⟨e0, he0, rfl, hne⟩ := mem_registryWithout.1 he
        have h0 : e0.1 = room := heq
        have := resolveSubscribers_of_mem hnd he0
        rw [h0, hres] at this
        exact hne (this ▸ hnil)
      simp [resolveSubscribers, this, hnil]
    · have hin : (room, JSSet.delete ms id) ∈ registryWithout id rooms :=
        mem_registryWithout.2 ⟨(room, ms), hmem, rfl, hnil⟩
      have := JSMap.get_of_mem (keys_registryWithout_nodup id hnd) hin
      simp [resolveSubscribers, this]

theorem JSSet.delete_delete (s : JSSet) (x : String) :
    JSSet.delete (JSSet.delete s x) x = JSSet.delete s x := by
  simp [JSSet.delete, List.filter_filter]

theorem JSSet.add_of_mem {s : JSSet} {x : String} (h : x ∈ s) : JSSet.add s x = s := by
  simp [JSSet.add, h]

theorem JSSet.add_add (s : JSSet) (x : String) :
    JSSet.add (JSSet.add s x) x = JSSet.add s x :=
  JSSet.add_of_mem (JSSet.mem_add.2 (Or.inr rfl))

theorem registryRemove_idem (rooms : JSMap JSSet) (room id : String) :
    registryRemove (registryRemove rooms room id) room id = registryRemove rooms room id := by
  by_cases hhas : JSMap.has rooms room = true
  · by_cases hnil : JSSet.delete (resolveSubscribers rooms room) id = []
    · have hno : JSMap.has (registryRemove rooms room id) room = false := by
        rw [registryRemove_of_last hhas hnil, JSMap.has_eq_false_iff]
        intro e he
        exact (JSMap.mem_delete_key.1 he).2
      exact registryRemove_of_not_has hno id
    · have hreg := registryRemove_of_more hhas hnil
      have hhas2 : JSMap.has (registryRemove rooms room id) room = true := by
        rw [hreg]; exact JSMap.has_set _ _ _
      have hres : resolveSubscribers (registryRemove rooms room id) room =
          JSSet.delete (resolveSubscribers rooms room) id := by
        rw [hreg]; exact resolveSubscribers_set_same _ _ _
      have hne2 : JSSet.delete (resolveSubscribers (registryRemove rooms room id) room) id ≠
          [] := by
        rw [hres, JSSet.delete_delete]; exact hnil
      rw [registryRemove_of_more hhas2 hne2, hres, JSSet.delete_delete, hreg, JSMap.set_set]
  · have hf : JSMap.has rooms room = false := by simpa using hhas
    rw [registryRemove_of_not_has hf, registryRemove_of_not_has hf]

theorem registryRemove_of_not_member {rooms : JSMap JSSet} (hnd : (JSMap.keys rooms).Nodup)
    (hne : ∀ e ∈ rooms, e.2 ≠ []) {room id : String}
    (h : id ∉ resolveSubscribers rooms room) : registryRemove rooms room id = rooms := by
  by_cases hhas : JSMap.has rooms room = true
  · obtain ⟨e, he, hkey⟩ := JSMap.has_iff.1 hhas
    have hget := JSMap.get_of_mem hnd (show (e.1, e.2) ∈ rooms from he)
    rw [hkey] at hget
    have hres : resolveSubscribers rooms room = e.2 := by simp [resolveSubscribers, hget]
    have hdel : JSSet.delete (resolveSubscribers rooms room) id = e.2 := by
      rw [JSSet.delete_eq_self h, hres]
    rw [registryRemove_of_more hhas (hdel ▸ hne e he), hdel]
    exact JSMap.set_get_self hnd hget
  · have hf : JSMap.has rooms room = false := by simpa using hhas
    exact registryRemove_of_not_has hf id

theorem registryAdd_eq (rooms : JSMap JSSet) (room id : String) :
    registryAdd rooms room id =
      JSMap.set rooms room (JSSet.add (resolveSubscribers rooms room) id) := by
  by_cases hh : JSMap.has rooms room = true
  · simp [registryAdd, hh, resolveSubscribers]
  · have hf : JSMap.has rooms room = false := by simpa using hh
    have hnone := JSMap.get_eq_none_iff.2 (JSMap.has_eq_false_iff.1 hf)
    simp [registryAdd, hf, JSMap.get_set_same, resolveSubscribers, hnone, JSMap.set_set]

theorem registryAdd_idem (rooms : JSMap JSSet) (room id : String) :
    registryAdd (registryAdd rooms room id) room id = registryAdd rooms room id := by
  rw [registryAdd_eq (registryAdd rooms room id), resolveSubscribers_registryAdd]
  simp only [if_true, JSSet.add_add]
  rw [registryAdd_eq rooms, JSMap.set_set]

/-! ## Unsubscribing twice, subscribing twice -/

theorem step_unsubscribe_streamer (jwtVerify : String → Int → Option Decoded) {s : Manager}
    {c : String} {k : Socket} (hk : s.findSocket c = some k) (streamerId : String) :
    step jwtVerify s (Event.unsubscribe_streamer c streamerId) =
      { s.leave c ("streamer_" ++ streamerId) with
        rooms := registryRemove s.rooms ("streamer_" ++ streamerId) c,
        sent := s.sent ++
          [(c, Emit.mk "unsubscribed" [("streamerId", Json.str streamerId)])] } := by
  have hid : k.id = c := (Manager.findSocket_some hk).2
  simp only [step, withSocket, hk, onUnsubscribeStreamer, hid, Manager.emit]
  rfl

theorem step_unsubscribe_game (jwtVerify : String → Int → Option Decoded) {s : Manager}
    {c : String} {k : Socket} (hk : s.findSocket c = some k) (gameId : String) :
    step jwtVerify s (Event.unsubscribe_game c gameId) =
      { s.leave c ("game_" ++ gameId) with
        rooms := registryRemove s.rooms ("game_" ++ gameId) c,
        sent := s.sent ++ [(c, Emit.mk "unsubscribed" [("gameId", Json.str gameId)])] } := by
  have hid : k.id = c := (Manager.findSocket_some hk).2
  simp only [step, withSocket, hk, onUnsubscribeGame, hid, Manager.emit]
  rfl

theorem findSocket_leave_self {s : Manager} {c : String} {k : Socket}
    (hk : s.findSocket c = some k) (room : String) :
    (s.leave c room).findSocket c = some { k with rooms := JSSet.delete k.rooms room } := by
  have hid : k.id = c := (Manager.findSocket_some hk).2
  rw [Manager.findSocket_leave, hk]
  simp [hid]

theorem findSocket_join_self {s : Manager} {c : String} {k : Socket}
    (hk : s.findSocket c = some k) (room : String) :
    (s.join c room).findSocket c = some { k with rooms := JSSet.add k.rooms room } := by
  have hid : k.id = c := (Manager.findSocket_some hk).2
  rw [Manager.findSocket_join, hk]
  simp [hid]

theorem join_join_sockets (s : Manager) (c room : String) :
    ((s.join c room).join c room).sockets = (s.join c room).sockets := by
  simp only [Manager.join, Manager.updateSocket, List.map_map]
  apply List.map_congr_left
  intro k _
  by_cases hk : k.id = c <;> simp [hk, JSSet.add_add]

theorem step_subscribe_streamer_rooms (jwtVerify : String → Int → Option Decoded) {s : Manager}
    {c : String} {k : Socket} (hk : s.findSocket c = some k) (hauth : k.authenticated = true)
    (streamerId : String) :
    (step jwtVerify s (Event.subscribe_streamer c streamerId)).rooms =
        registryAdd s.rooms ("streamer_" ++ streamerId) c ∧
      (step jwtVerify s (Event.subscribe_streamer c streamerId)).sockets =
        (s.join c ("streamer_" ++ streamerId)).sockets := by
  have hid : k.id = c := (Manager.findSocket_some hk).2
  simp only [step, withSocket, hk, onSubscribeStreamer, hauth, hid, Manager.emit,
    Bool.not_true, Bool.false_eq_true, if_false]
  constructor <;> (split <;> rfl)

theorem step_subscribe_game_rooms (jwtVerify : String → Int → Option Decoded) {s : Manager}
    {c : String} {k : Socket} (hk : s.findSocket c = some k) (hauth : k.authenticated = true)
    (gameId : String) :
    (step jwtVerify s (Event.subscribe_game c gameId)).rooms =
        registryAdd s.rooms ("game_" ++ gameId) c ∧
      (step jwtVerify s (Event.subscribe_game c gameId)).sockets =
        (s.join c ("game_" ++ gameId)).sockets := by
  have hid : k.id = c := (Manager.findSocket_some hk).2
  simp only [step, withSocket, hk, onSubscribeGame, hauth, hid, Manager.emit,
    Bool.not_true, Bool.false_eq_true, if_false]
  constructor <;> (split <;> rfl)

/-- The registry and the sockets after a subscribe by an authenticated connection, and
after the same subscribe repeated. -/
theorem subscribe_twice (s s1 s2 : Manager) (c room : String) (k : Socket)
    (hk : s.findSocket c = some k)
    (h1 : s1.rooms = registryAdd s.rooms room c ∧ s1.sockets = (s.join c room).sockets)
    (h2 : s2.rooms = registryAdd s1.rooms room c ∧ s2.sockets = (s1.join c room).sockets) :
    resolveSubscribers s1.rooms room = JSSet.add (resolveSubscribers s.rooms room) c ∧
    JSMap.has s1.rooms room = true ∧
    c ∈ resolveSubscribers s1.rooms room ∧
    s1.findSocket c = some { k with rooms := JSSet.add k.rooms room } ∧
    s2.rooms = s1.rooms ∧
    s2.sockets = s1.sockets ∧
    getRoomSubscriberCount s2 room = getRoomSubscriberCount s1 room ∧
    ((∀ e ∈ s.rooms, e.2.Nodup) → (resolveSubscribers s1.rooms room).count c = 1) := by
  have hres : resolveSubscribers s1.rooms room = JSSet.add (resolveSubscribers s.rooms room) c := by
    rw [h1.1, resolveSubscribers_registryAdd]; simp
  have hrooms : s2.rooms = s1.rooms := by
    rw [h2.1, h1.1, registryAdd_idem]
  have hsock : s2.sockets = s1.sockets := by
    rw [h2.2]
    have : (s1.join c room).sockets = ((s.join c room).join c room).sockets := by
      simp only [Manager.join, Manager.updateSocket, h1.2]
    rw [this, join_join_sockets, h1.2]
  refine ⟨hres, ?_, ?_, ?_, hrooms, hsock, ?_, ?_⟩
  · rw [h1.1]
    exact JSMap.has_iff.2 ⟨_, mem_registryAdd.2 (Or.inr rfl), rfl⟩
  · rw [hres]; exact JSSet.mem_add.2 (Or.inr rfl)
  · rw [Manager.findSocket_congr h1.2 c]; exact findSocket_join_self hk room
  · simp only [getRoomSubscriberCount, hrooms]
  · intro hnd
    rw [hres]
    exact List.count_eq_one_of_mem (JSSet.add_nodup c (resolveSubscribers_nodup room hnd))
      (JSSet.mem_add.2 (Or.inr rfl))

/-- C15. Whether or not the connection is authenticated, its `unsubscribe_streamer`
(resp. `unsubscribe_game`) handler emits one `unsubscribed` event to it; handling the same
event a second time leaves `this.rooms` as the first did; and in a registry without
repeated keys or empty sets (as it is after every sequence of events), if the connection
is not in the topic's subscriber set, `this.rooms` is unchanged by the handler. -/
theorem unsubscribe_is_idempotent (jwtVerify : String → Int → Option Decoded) (s : Manager)
    (c : String) (k : Socket) (hk : s.findSocket c = some k) (x : String) :
    ((step jwtVerify s (Event.unsubscribe_streamer c x)).sent =
        s.sent ++ [(c, Emit.mk "unsubscribed" [("streamerId", Json.str x)])] ∧
      (step jwtVerify (step jwtVerify s (Event.unsubscribe_streamer c x))
          (Event.unsubscribe_streamer c x)).rooms =
        (step jwtVerify s (Event.unsubscribe_streamer c x)).rooms ∧
      ((JSMap.keys s.rooms).Nodup → (∀ e ∈ s.rooms, e.2 ≠ []) →
        c ∉ resolveSubscribers s.rooms ("streamer_" ++ x) →
        (step jwtVerify s (Event.unsubscribe_streamer c x)).rooms = s.rooms)) ∧
    ((step jwtVerify s (Event.unsubscribe_game c x)).sent =
        s.sent ++ [(c, Emit.mk "unsubscribed" [("gameId", Json.str x)])] ∧
      (step jwtVerify (step jwtVerify s (Event.unsubscribe_game c x))
          (Event.unsubscribe_game c x)).rooms =
        (step jwtVerify s (Event.unsubscribe_game c x)).rooms ∧
      ((JSMap.keys s.rooms).Nodup → (∀ e ∈ s.rooms, e.2 ≠ []) →
        c ∉ resolveSubscribers s.rooms ("game_" ++ x) →
        (step jwtVerify s (Event.unsubscribe_game c x)).rooms = s.rooms)) := by
  constructor
  · have h1 := step_unsubscribe_streamer jwtVerify hk x
    have hk1 : (step jwtVerify s (Event.unsubscribe_streamer c x)).findSocket c =
        some { k with rooms := JSSet.delete k.rooms ("streamer_" ++ x) } := by
      rw [h1]; exact findSocket_leave_self hk _
    have h2 := step_unsubscribe_streamer jwtVerify hk1 x
    refine ⟨by rw [h1], ?_, ?_⟩
    · rw [h2]
      show registryRemove (step jwtVerify s (Event.unsubscribe_streamer c x)).rooms _ _ = _
      rw [h1]
      exact registryRemove_idem _ _ _
    · intro hnd hne hc
      rw [h1]
      exact registryRemove_of_not_member hnd hne hc
  · have h1 := step_unsubscribe_game jwtVerify hk x
    have hk1 : (step jwtVerify s (Event.unsubscribe_game c x)).findSocket c =
        some { k with rooms := JSSet.delete k.rooms ("game_" ++ x) } := by
      rw [h1]; exact findSocket_leave_self hk _
    have h2 := step_unsubscribe_game jwtVerify hk1 x
    refine ⟨by rw [h1], ?_, ?_⟩
    · rw [h2]
      show registryRemove (step jwtVerify s (Event.unsubscribe_game c x)).rooms _ _ = _
      rw [h1]
      exact registryRemove_idem _ _ _
    · intro hnd hne hc
      rw [h1]
      exact registryRemove_of_not_member hnd hne hc

/-- C15, on a run: `c1` and `c2` are subscribed to streamer 42, the anonymous `c3` is not;
`c1` unsubscribing twice leaves the registry as unsubscribing once, and the unsubscribe of
`c3` is acknowledged. -/
theorem unsubscribe_is_idempotent_run :
    (step sampleVerify (step sampleVerify (run sampleVerify Manager.init
        [Event.connection "c1", Event.authenticate "c1" "good",
         Event.connection "c2", Event.authenticate "c2" "good2",
         Event.subscribe_streamer "c1" "42", Event.subscribe_streamer "c2" "42",
         Event.connection "c3"])
        (Event.unsubscribe_streamer "c1" "42")) (Event.unsubscribe_streamer "c1" "42")).rooms =
      (step sampleVerify (run sampleVerify Manager.init
        [Event.connection "c1", Event.authenticate "c1" "good",
         Event.connection "c2", Event.authenticate "c2" "good2",
         Event.subscribe_streamer "c1" "42", Event.subscribe_streamer "c2" "42",
         Event.connection "c3"])
        (Event.unsubscribe_streamer "c1" "42")).rooms ∧
    (step sampleVerify (run sampleVerify Manager.init
        [Event.connection "c1", Event.authenticate "c1" "good",
         Event.connection "c2", Event.authenticate "c2" "good2",
         Event.subscribe_streamer "c1" "42", Event.subscribe_streamer "c2" "42",
         Event.connection "c3"])
        (Event.unsubscribe_streamer "c3" "42")).rooms = [("streamer_42", ["c1", "c2"])] :=
  ⟨(unsubscribe_is_idempotent sampleVerify (run sampleVerify Manager.init
        [Event.connection "c1", Event.authenticate "c1" "good",
         Event.connection "c2", Event.authenticate "c2" "good2",
         Event.subscribe_streamer "c1" "42", Event.subscribe_streamer "c2" "42",
         Event.connection "c3"]) "c1"
      { id := "c1", authenticated := true, userId := some "7",
        rooms := ["user_7", "streamer_42"] } (by decide) "42").1.2.1,
   by decide⟩

/-- C16. For an authenticated connection `c`, `subscribe_streamer` (resp. `subscribe_game`)
makes the room a key of `this.rooms` whose subscriber set is the former one (empty when the
room was not a key) with `c` added; handling the same event a second time leaves
`this.rooms`, every socket's joined rooms and `getRoomSubscriberCount` of the room as the
first did; and when the subscriber sets have no repeated element, `c` occurs once in the
room's set. -/
theorem subscribe_is_idempotent (jwtVerify : String → Int → Option Decoded) (s : Manager)
    (c : String) (k : Socket) (hk : s.findSocket c = some k) (hauth : k.authenticated = true)
    (x : String) :
    (resolveSubscribers (step jwtVerify s (Event.subscribe_streamer c x)).rooms
          ("streamer_" ++ x) =
        JSSet.add (resolveSubscribers s.rooms ("streamer_" ++ x)) c ∧
      JSMap.has (step jwtVerify s (Event.subscribe_streamer c x)).rooms ("streamer_" ++ x) =
        true ∧
      c ∈ resolveSubscribers (step jwtVerify s (Event.subscribe_streamer c x)).rooms
          ("streamer_" ++ x) ∧
      (step jwtVerify s (Event.subscribe_streamer c x)).findSocket c =
        some { k with rooms := JSSet.add k.rooms ("streamer_" ++ x) } ∧
      (step jwtVerify (step jwtVerify s (Event.subscribe_streamer c x))
          (Event.subscribe_streamer c x)).rooms =
        (step jwtVerify s (Event.subscribe_streamer c x)).rooms ∧
      (step jwtVerify (step jwtVerify s (Event.subscribe_streamer c x))
          (Event.subscribe_streamer c x)).sockets =
        (step jwtVerify s (Event.subscribe_streamer c x)).sockets ∧
      getRoomSubscriberCount (step jwtVerify (step jwtVerify s (Event.subscribe_streamer c x))
          (Event.subscribe_streamer c x)) ("streamer_" ++ x) =
        getRoomSubscriberCount (step jwtVerify s (Event.subscribe_streamer c x))
          ("streamer_" ++ x) ∧
      ((∀ e ∈ s.rooms, e.2.Nodup) →
        (resolveSubscribers (step jwtVerify s (Event.subscribe_streamer c x)).rooms
          ("streamer_" ++ x)).count c = 1)) ∧
    (resolveSubscribers (step jwtVerify s (Event.subscribe_game c x)).rooms ("game_" ++ x) =
        JSSet.add (resolveSubscribers s.rooms ("game_" ++ x)) c ∧
      JSMap.has (step jwtVerify s (Event.subscribe_game c x)).rooms ("game_" ++ x) = true ∧
      c ∈ resolveSubscribers (step jwtVerify s (Event.subscribe_game c x)).rooms
          ("game_" ++ x) ∧
      (step jwtVerify s (Event.subscribe_game c x)).findSocket c =
        some { k with rooms := JSSet.add k.rooms ("game_" ++ x) } ∧
      (step jwtVerify (step jwtVerify s (Event.subscribe_game c x))
          (Event.subscribe_game c x)).rooms =
        (step jwtVerify s (Event.subscribe_game c x)).rooms ∧
      (step jwtVerify (step jwtVerify s (Event.subscribe_game c x))
          (Event.subscribe_game c x)).sockets =
        (step jwtVerify s (Event.subscribe_game c x)).sockets ∧
      getRoomSubscriberCount (step jwtVerify (step jwtVerify s (Event.subscribe_game c x))
          (Event.subscribe_game c x)) ("game_" ++ x) =
        getRoomSubscriberCount (step jwtVerify s (Event.subscribe_game c x)) ("game_" ++ x) ∧
      ((∀ e ∈ s.rooms, e.2.Nodup) →
        (resolveSubscribers (step jwtVerify s (Event.subscribe_game c x)).rooms
          ("game_" ++ x)).count c = 1)) := by
  constructor
  · have h1 := step_subscribe_streamer_rooms jwtVerify hk hauth x
    have hk1 : (step jwtVerify s (Event.subscribe_streamer c x)).findSocket c =
        some { k with rooms := JSSet.add k.rooms ("streamer_" ++ x) } := by
      rw [Manager.findSocket_congr h1.2 c]; exact findSocket_join_self hk _
    have h2 := step_subscribe_streamer_rooms jwtVerify hk1 hauth x
    exact subscribe_twice s _ _ c _ k hk h1 h2
  · have h1 := step_subscribe_game_rooms jwtVerify hk hauth x
    have hk1 : (step jwtVerify s (Event.subscribe_game c x)).findSocket c =
        some { k with rooms := JSSet.add k.rooms ("game_" ++ x) } := by
      rw [Manager.findSocket_congr h1.2 c]; exact findSocket_join_self hk _
    have h2 := step_subscribe_game_rooms jwtVerify hk1 hauth x
    exact subscribe_twice s _ _ c _ k hk h1 h2

/-- C16, on a run: `c1` subscribes to game 1 twice; the registry lists it once. -/
theorem subscribe_is_idempotent_run :
    (step sampleVerify (run sampleVerify Manager.init
        [Event.connection "c1", Event.authenticate "c1" "good"])
        (Event.subscribe_game "c1" "1")).rooms = [("game_1", ["c1"])] ∧
    (step sampleVerify (step sampleVerify (run sampleVerify Manager.init
        [Event.connection "c1", Event.authenticate "c1" "good"])
        (Event.subscribe_game "c1" "1")) (Event.subscribe_game "c1" "1")).rooms =
      (step sampleVerify (run sampleVerify Manager.init
        [Event.connection "c1", Event.authenticate "c1" "good"])
        (Event.subscribe_game "c1" "1")).rooms :=
  ⟨by decide,
   (subscribe_is_idempotent sampleVerify (run sampleVerify Manager.init
        [Event.connection "c1", Event.authenticate "c1" "good"]) "c1"
      { id := "c1", authenticated := true, userId := some "7", rooms := ["user_7"] }
      (by decide) rfl "1").2.2.2.2.2.1⟩

/-! ## Publishing to a topic without subscribers -/

theorem emitToRoom_of_no_subscriber {s : Manager} {room : String}
    (h : ∀ k ∈ s.sockets, room ∉ k.rooms) (e : Emit) : s.emitToRoom room e = s := by
  have : s.sockets.filter (fun k => decide (room ∈ k.rooms)) = [] := by
    rw [List.filter_eq_nil_iff]
    intro k hk
    simpa using h k hk
  simp [Manager.emitToRoom, this]

/-- What a publish to a topic without subscribers stores, every Redis command succeeding.
Publishing to a streamer or a game that has no subscribers delivers
nothing and stores the payload under the topic's cache key: as long as the snapshot has
not expired (60 seconds for a streamer, 300 for a game) and the topic has not been
published again, a read of the snapshot yields the payload, and the subscribe handler of
an authenticated connection replays it when it is truthy.  `broadcastGlobalTrends` with no
subscriber of `global_trends` changes nothing at all: it stores no snapshot. -/
theorem publish_stores_snapshot (jwtVerify : String → Int → Option Decoded) (s : Manager)
    (x : String) (payload : Json) (events : List Event) (c : String) (k : Socket) :
    ((∀ k ∈ s.sockets, "streamer_" ++ x ∉ k.rooms) →
      (broadcastStreamerUpdate s x payload).sent = s.sent ∧
      CacheService.getStreamData (broadcastStreamerUpdate s x payload).cache s.now x =
        payload ∧
      ((∀ e ∈ events, ∀ data, e ≠ Event.broadcastStreamerUpdate x data) →
        (run jwtVerify (broadcastStreamerUpdate s x payload) events).now ≤ s.now + 60 * 1000 →
        CacheService.getStreamData
            (run jwtVerify (broadcastStreamerUpdate s x payload) events).cache
            (run jwtVerify (broadcastStreamerUpdate s x payload) events).now x = payload ∧
          (payload.truthy = true →
            (run jwtVerify (broadcastStreamerUpdate s x payload) events).findSocket c =
              some k →
            k.authenticated = true →
            (step jwtVerify (run jwtVerify (broadcastStreamerUpdate s x payload) events)
                (Event.subscribe_streamer c x)).sent =
              (run jwtVerify (broadcastStreamerUpdate s x payload) events).sent ++
                [(c, Emit.mk "streamer_update"
                    [("streamerId", Json.str x), ("data", payload)]),
                 (c, Emit.mk "subscribed"
                    [("streamerId", Json.str x),
                     ("room", Json.str ("streamer_" ++ x))])]))) ∧
    ((∀ k ∈ s.sockets, "game_" ++ x ∉ k.rooms) →
      (broadcastGameTrendUpdate s x payload).sent = s.sent ∧
      CacheService.getGameTrend (broadcastGameTrendUpdate s x payload).cache s.now x =
        payload ∧
      ((∀ e ∈ events, ∀ trendData, e ≠ Event.broadcastGameTrendUpdate x trendData) →
        (run jwtVerify (broadcastGameTrendUpdate s x payload) events).now ≤
          s.now + 300 * 1000 →
        CacheService.getGameTrend
            (run jwtVerify (broadcastGameTrendUpdate s x payload) events).cache
            (run jwtVerify (broadcastGameTrendUpdate s x payload) events).now x = payload ∧
          (payload.truthy = true →
            (run jwtVerify (broadcastGameTrendUpdate s x payload) events).findSocket c =
              some k →
            k.authenticated = true →
            (step jwtVerify (run jwtVerify (broadcastGameTrendUpdate s x payload) events)
                (Event.subscribe_game c x)).sent =
              (run jwtVerify (broadcastGameTrendUpdate s x payload) events).sent ++
                [(c, Emit.mk "game_trend_update"
                    [("gameId", Json.str x), ("data", payload)]),
                 (c, Emit.mk "subscribed"
                    [("gameId", Json.str x), ("room", Json.str ("game_" ++ x))])]))) ∧
    ((∀ k ∈ s.sockets, "global_trends" ∉ k.rooms) →
      broadcastGlobalTrends s payload = s) := by
  refine ⟨?_, ?_, ?_⟩
  · intro hnone
    have hentry0 : JSMap.get (broadcastStreamerUpdate s x payload).cache ("stream:" ++ x) =
        some { value := payload, expiresAt := s.now + 60 * 1000 } :=
      JSMap.get_set_same _ _ _
    refine ⟨?_, CacheService.get_of_entry hentry0 (by omega), ?_⟩
    · have hs : ∀ k ∈ ({ s with cache :=
          CacheService.cacheStreamData s.cache s.now x payload 60 } : Manager).sockets,
          "streamer_" ++ x ∉ k.rooms := hnone
      unfold broadcastStreamerUpdate
      simp only
      rw [emitToRoom_of_no_subscriber hs]
    · intro hnopub hnow
      have hentry : JSMap.get (run jwtVerify (broadcastStreamerUpdate s x payload) events).cache
          ("stream:" ++ x) = some { value := payload, expiresAt := s.now + 60 * 1000 } := by
        rw [run_cache_stream jwtVerify x events _ hnopub]
        exact hentry0
      have hget := CacheService.get_of_entry hentry hnow
      refine ⟨hget, ?_⟩
      intro hP hk hauth
      have hid : k.id = c := (Manager.findSocket_some hk).2
      have := onSubscribeStreamer_sent _ k x hauth payload hget hP
      rw [hid] at this
      simp only [step, withSocket, hk]
      exact this
  · intro hnone
    have hentry0 : JSMap.get (broadcastGameTrendUpdate s x payload).cache
        ("trend:game:" ++ x) = some { value := payload, expiresAt := s.now + 300 * 1000 } :=
      JSMap.get_set_same _ _ _
    refine ⟨?_, CacheService.get_of_entry hentry0 (by omega), ?_⟩
    · have hs : ∀ k ∈ ({ s with cache :=
          CacheService.cacheGameTrend s.cache s.now x payload 300 } : Manager).sockets,
          "game_" ++ x ∉ k.rooms := hnone
      unfold broadcastGameTrendUpdate
      simp only
      rw [emitToRoom_of_no_subscriber hs]
    · intro hnopub hnow
      have hentry : JSMap.get (run jwtVerify (broadcastGameTrendUpdate s x payload) events).cache
          ("trend:game:" ++ x) = some { value := payload, expiresAt := s.now + 300 * 1000 } := by
        rw [run_cache_game jwtVerify x events _ hnopub]
        exact hentry0
      have hget := CacheService.get_of_entry hentry hnow
      refine ⟨hget, ?_⟩
      intro hP hk hauth
      have hid : k.id = c := (Manager.findSocket_some hk).2
      have := onSubscribeGame_sent _ k x hauth payload hget hP
      rw [hid] at this
      simp only [step, withSocket, hk]
      exact this
  · intro hnone
    exact emitToRoom_of_no_subscriber hnone _

/-- The stored snapshot on a run: nobody is subscribed to streamer 7 when 10 viewers are
published;
`c1` then connects and authenticates, and 30 seconds later the read yields the payload. -/
theorem publish_stores_snapshot_run :
    CacheService.getStreamData
      (run sampleVerify (broadcastStreamerUpdate Manager.init "7" (Json.num 10))
        [Event.connection "c1", Event.authenticate "c1" "good", Event.tick 30000]).cache
      (run sampleVerify (broadcastStreamerUpdate Manager.init "7" (Json.num 10))
        [Event.connection "c1", Event.authenticate "c1" "good", Event.tick 30000]).now
      "7" = Json.num 10 :=
  (((publish_stores_snapshot sampleVerify Manager.init "7" (Json.num 10)
      [Event.connection "c1", Event.authenticate "c1" "good", Event.tick 30000] "c1"
      { id := "c1", authenticated := true, userId := some "7", rooms := ["user_7"] }).1
      (by decide)).2.2 (by simp) (by decide)).1

/-- C11, the failing run: `broadcastGlobalTrends(5)` is called while `global_trends` has no
subscriber. Unlike `broadcastStreamerUpdate` and `broadcastGameTrendUpdate`, the method
has no cache write: the payload is not stored anywhere (the cache stays empty), and the
`subscribe_global_trends` that follows is answered by the acknowledgement alone. A second
way in which a published payload is not yielded: the falsy payload 0 published to game 42
is stored but is not replayed to a fresh `subscribe_game`. -/
theorem publish_without_replay :
    (run sampleVerify Manager.init
      [Event.connection "c1", Event.authenticate "c1" "good",
       Event.broadcastGlobalTrends (Json.num 5)]).cache = [] ∧
    (step sampleVerify (run sampleVerify Manager.init
      [Event.connection "c1", Event.authenticate "c1" "good",
       Event.broadcastGlobalTrends (Json.num 5)]) (Event.subscribe_global_trends "c1")).sent =
      (run sampleVerify Manager.init
        [Event.connection "c1", Event.authenticate "c1" "good",
         Event.broadcastGlobalTrends (Json.num 5)]).sent ++
        [("c1", Emit.mk "subscribed" [("room", Json.str "global_trends")])] ∧
    CacheService.getGameTrend (run sampleVerify Manager.init
      [Event.connection "c1", Event.authenticate "c1" "good",
       Event.broadcastGameTrendUpdate "42" (Json.num 0)]).cache 0 "42" = Json.num 0 ∧
    (step sampleVerify (run sampleVerify Manager.init
      [Event.connection "c1", Event.authenticate "c1" "good",
       Event.broadcastGameTrendUpdate "42" (Json.num 0)]) (Event.subscribe_game "c1" "42")).sent =
      (run sampleVerify Manager.init
        [Event.connection "c1", Event.authenticate "c1" "good",
         Event.broadcastGameTrendUpdate "42" (Json.num 0)]).sent ++
        [("c1", Emit.mk "subscribed"
            [("gameId", Json.str "42"), ("room", Json.str "game_42")])] := by
  decide

/-! ## Notifications after a second authentication -/

/-- C13, the failing run: `c1` authenticates as user 7 and then, on the same connection,
as user 8. Its identity is now user 8 (`socket.userId` and its entry of `this.clients`),
but it is still in the room `user_7`, and a notification addressed to user 7 is delivered
to it. -/
theorem notification_reaches_former_identity :
    ((run sampleVerify Manager.init
      [Event.connection "c1", Event.authenticate "c1" "good",
       Event.authenticate "c1" "good2"]).findSocket "c1") =
      some { id := "c1", authenticated := true, userId := some "8",
             rooms := ["user_7", "user_8"] } ∧
    (JSMap.get (run sampleVerify Manager.init
      [Event.connection "c1", Event.authenticate "c1" "good",
       Event.authenticate "c1" "good2"]).clients "c1").map ClientInfo.userId = some "8" ∧
    (sendUserNotification (run sampleVerify Manager.init
      [Event.connection "c1", Event.authenticate "c1" "good",
       Event.authenticate "c1" "good2"]) "7" [("message", Json.str "for user 7")]).sent =
      (run sampleVerify Manager.init
        [Event.connection "c1", Event.authenticate "c1" "good",
         Event.authenticate "c1" "good2"]).sent ++
        [("c1", Emit.mk "notification"
            [("message", Json.str "for user 7"), ("timestamp", Json.num 0)])] := by
  decide

/-! ## A broadcast reaches the subscribers only -/

theorem Registered.not_joined_of_no_subscriber {s : Manager} (hr : Registered s)
    (hnd : (JSMap.keys s.rooms).Nodup) {room : String} (htopic : isTopicRoom room)
    (hnone : resolveSubscribers s.rooms room = []) : ∀ k ∈ s.sockets, room ∉ k.rooms := by
  intro k hk hroom
  obtain ⟨e, he, he1, he2⟩ := hr k hk room hroom htopic
  have := resolveSubscribers_of_mem hnd he
  rw [he1, hnone] at this
  rw [← this] at he2
  exact List.not_mem_nil _ he2

/-- In a list of sockets with distinct ids none of which is in `room`, once the socket
`k` has joined `room` it is the only one in it. -/
theorem filter_joined_singleton (room : String) (k : Socket) (l : List Socket)
    (hnd : (l.map Socket.id).Nodup) (hk : k ∈ l) (hno : ∀ k' ∈ l, room ∉ k'.rooms) :
    (l.map (fun k' => if k'.id = k.id then
        { k' with rooms := JSSet.add k'.rooms room } else k')).filter
      (fun k' => decide (room ∈ k'.rooms)) =
      [{ k with rooms := JSSet.add k.rooms room }] := by
  induction l with
  | nil => exact absurd hk (List.not_mem_nil _)
  | cons a rest ih =>
    simp only [List.map_cons, List.nodup_cons, List.mem_map, not_exists, not_and] at hnd
    have hrest : ∀ k' ∈ rest, room ∉ k'.rooms := fun k' h' => hno k' (List.mem_cons_of_mem _ h')
    rcases List.mem_cons.1 hk with rfl | hmem
    · have hnone : (rest.map (fun k' => if k'.id = k.id then
          { k' with rooms := JSSet.add k'.rooms room } else k')).filter
          (fun k' => decide (room ∈ k'.rooms)) = [] := by
        rw [List.filter_eq_nil_iff]
        intro m hm
        obtain ⟨k', hk', rfl⟩ := List.mem_map.1 hm
        have hne : ¬ k'.id = k.id := hnd.1 k' hk'
        simpa [hne] using hrest k' hk'
      have hin : room ∈ JSSet.add k.rooms room := JSSet.mem_add.2 (Or.inr rfl)
      simp only [List.map_cons, if_true, List.filter_cons, hin, decide_True, hnone]
    · have hne : ¬ a.id = k.id := fun h => hnd.1 k hmem h.symm
      have ha : room ∉ a.rooms := hno a (List.mem_cons_self _ _)
      simp only [List.map_cons, hne, if_false, List.filter_cons, ha, decide_False]
      exact ih hnd.2 hmem hrest

/-- C12. After any sequence of events that leaves nobody subscribed to streamer `x`, let
the authenticated connection `a` subscribe to it. The registry's subscriber set of
`streamer_<x>` is then exactly `a`, and `broadcastStreamerUpdate`,
`broadcastViewerCountUpdate` and `broadcastLiveStatusChange` for `x` each make one
delivery, to `a`: no other connection (authenticated or not) receives the event. -/
theorem broadcast_reaches_the_subscriber_only (jwtVerify : String → Int → Option Decoded)
    (events : List Event) (a x : String) (k : Socket)
    (hk : (run jwtVerify Manager.init events).findSocket a = some k)
    (hauth : k.authenticated = true)
    (hnone : resolveSubscribers (run jwtVerify Manager.init events).rooms
      ("streamer_" ++ x) = []) :
    resolveSubscribers (step jwtVerify (run jwtVerify Manager.init events)
        (Event.subscribe_streamer a x)).rooms ("streamer_" ++ x) = [a] ∧
    (∀ data, (broadcastStreamerUpdate (step jwtVerify (run jwtVerify Manager.init events)
          (Event.subscribe_streamer a x)) x data).sent =
        (step jwtVerify (run jwtVerify Manager.init events)
          (Event.subscribe_streamer a x)).sent ++
          [(a, Emit.mk "streamer_update"
            [("streamerId", Json.str x), ("data", data),
             ("timestamp", Json.num (run jwtVerify Manager.init events).now)])]) ∧
    (∀ count, (broadcastViewerCountUpdate (step jwtVerify (run jwtVerify Manager.init events)
          (Event.subscribe_streamer a x)) x count).sent =
        (step jwtVerify (run jwtVerify Manager.init events)
          (Event.subscribe_streamer a x)).sent ++
          [(a, Emit.mk "viewer_count_update"
            [("streamerId", Json.str x), ("count", count),
             ("timestamp", Json.num (run jwtVerify Manager.init events).now)])]) ∧
    (∀ isLive streamData,
      (broadcastLiveStatusChange (step jwtVerify (run jwtVerify Manager.init events)
          (Event.subscribe_streamer a x)) x isLive streamData).sent =
        (step jwtVerify (run jwtVerify Manager.init events)
          (Event.subscribe_streamer a x)).sent ++
          [(a, Emit.mk "live_status_change"
            [("streamerId", Json.str x), ("isLive", isLive), ("streamData", streamData),
             ("timestamp", Json.num (run jwtVerify Manager.init events).now)])]) := by
  have hi := Inv.reachable jwtVerify events
  have hr := Registered.reachable_reg jwtVerify events
  obtain ⟨hmem, hid⟩ := Manager.findSocket_some hk
  have hsub := step_subscribe_streamer_rooms jwtVerify hk hauth x
  have hnow : (step jwtVerify (run jwtVerify Manager.init events)
      (Event.subscribe_streamer a x)).now = (run jwtVerify Manager.init events).now := by
    simp only [step, withSocket, hk, onSubscribeStreamer, hauth, Manager.emit,
      Bool.not_true, Bool.false_eq_true, if_false]
    split <;> rfl
  have hnot := hr.not_joined_of_no_subscriber hi.roomKeys (Or.inl ⟨x, rfl⟩) hnone
  have hfilter : (step jwtVerify (run jwtVerify Manager.init events)
      (Event.subscribe_streamer a x)).sockets.filter
        (fun k' => decide ("streamer_" ++ x ∈ k'.rooms)) =
      [{ k with rooms := JSSet.add k.rooms ("streamer_" ++ x) }] := by
    rw [hsub.2]
    simp only [Manager.join, Manager.updateSocket]
    rw [← hid]
    exact filter_joined_singleton ("streamer_" ++ x) k _ hi.socketIds hmem hnot
  refine ⟨?_, ?_, ?_, ?_⟩
  · rw [hsub.1, resolveSubscribers_registryAdd, hnone]
    simp [JSSet.add]
  · intro data
    simp only [broadcastStreamerUpdate, Manager.emitToRoom, hfilter, hnow, List.map_cons,
      List.map_nil, hid]
  · intro count
    simp only [broadcastViewerCountUpdate, Manager.emitToRoom, hfilter, hnow, List.map_cons,
      List.map_nil, hid]
  · intro isLive streamData
    simp only [broadcastLiveStatusChange, Manager.emitToRoom, hfilter, hnow, List.map_cons,
      List.map_nil, hid]

/-- C12, on a run: `c1` and `c2` are authenticated and `c1` alone subscribes to streamer
7; the update is delivered to `c1` only. -/
theorem broadcast_reaches_the_subscriber_only_run :
    (broadcastStreamerUpdate (step sampleVerify (run sampleVerify Manager.init
        [Event.connection "c1", Event.authenticate "c1" "good",
         Event.connection "c2", Event.authenticate "c2" "good2"])
        (Event.subscribe_streamer "c1" "7")) "7" (Json.num 10)).sent =
      (step sampleVerify (run sampleVerify Manager.init
        [Event.connection "c1", Event.authenticate "c1" "good",
         Event.connection "c2", Event.authenticate "c2" "good2"])
        (Event.subscribe_streamer "c1" "7")).sent ++
        [("c1", Emit.mk "streamer_update"
          [("streamerId", Json.str "7"), ("data", Json.num 10),
           ("timestamp", Json.num (run sampleVerify Manager.init
              [Event.connection "c1", Event.authenticate "c1" "good",
               Event.connection "c2", Event.authenticate "c2" "good2"]).now)])] :=
  (broadcast_reaches_the_subscriber_only sampleVerify
    [Event.connection "c1", Event.authenticate "c1" "good",
     Event.connection "c2", Event.authenticate "c2" "good2"] "c1" "7"
    { id := "c1", authenticated := true, userId := some "7", rooms := ["user_7"] }
    (by decide) rfl (by decide)).2.1 (Json.num 10)

/-! ## A client event leaves the other connections alone -/

theorem SameFor.refl (d : String) (s : Manager) : SameFor d s s :=
  ⟨rfl, rfl, fun _ => Iff.rfl⟩

theorem SameFor.trans {d : String} {s t u : Manager} (h1 : SameFor d s t)
    (h2 : SameFor d t u) : SameFor d s u :=
  ⟨h2.1.trans h1.1, h2.2.1.trans h1.2.1, fun room => (h2.2.2 room).trans (h1.2.2 room)⟩

theorem SameFor.of_fields {d : String} {s t : Manager} (h1 : t.sockets = s.sockets)
    (h2 : t.clients = s.clients) (h3 : t.rooms = s.rooms) : SameFor d s t :=
  ⟨Manager.findSocket_congr h1 d, by rw [h2], fun room => by rw [h3]⟩

theorem Manager.findSocket_updateSocket_ne (s : Manager) {c d : String} (h : d ≠ c)
    (f : Socket → Socket) (hid : ∀ k, (f k).id = k.id) :
    (s.updateSocket c f).findSocket d = s.findSocket d := by
  rw [Manager.findSocket_updateSocket s c d f hid]
  cases hf : s.findSocket d with
  | none => rfl
  | some k =>
    have hkid : k.id = d := (Manager.findSocket_some hf).2
    have : ¬ k.id = c := by rw [hkid]; exact h
    simp [this]

theorem SameFor.join_same {c d : String} (h : d ≠ c) (s : Manager) (room : String) :
    SameFor d s (s.join c room) :=
  ⟨Manager.findSocket_updateSocket_ne s h
      (fun k => { k with rooms := JSSet.add k.rooms room }) (fun _ => rfl),
   rfl, fun _ => Iff.rfl⟩

theorem SameFor.leave_same {c d : String} (h : d ≠ c) (s : Manager) (room : String) :
    SameFor d s (s.leave c room) :=
  ⟨Manager.findSocket_updateSocket_ne s h
      (fun k => { k with rooms := JSSet.delete k.rooms room }) (fun _ => rfl),
   rfl, fun _ => Iff.rfl⟩

theorem SameFor.registryAdd_same {c d : String} (h : d ≠ c) (s : Manager) (room : String) :
    SameFor d s { s with rooms := registryAdd s.rooms room c } := by
  refine ⟨rfl, rfl, fun room' => ?_⟩
  show d ∈ resolveSubscribers (registryAdd s.rooms room c) room' ↔ _
  rw [resolveSubscribers_registryAdd]
  split
  next hr =>
    rw [hr, JSSet.mem_add]
    exact ⟨fun h' => h'.resolve_right h, Or.inl⟩
  · exact Iff.rfl

theorem SameFor.registryRemove_same {c d : String} (h : d ≠ c) (s : Manager) (room : String) :
    SameFor d s { s with rooms := registryRemove s.rooms room c } := by
  refine ⟨rfl, rfl, fun room' => ?_⟩
  show d ∈ resolveSubscribers (registryRemove s.rooms room c) room' ↔ _
  rw [resolveSubscribers_registryRemove]
  split
  next hr =>
    rw [hr, JSSet.mem_delete]
    exact ⟨fun h' => h'.1, fun h' => ⟨h', h⟩⟩
  · exact Iff.rfl

theorem SameFor.onAuthenticate_same {c d : String} (h : d ≠ c)
    (jwtVerify : String → Int → Option Decoded) (s : Manager) (token : String) :
    SameFor d s (onAuthenticate jwtVerify s c token) := by
  cases hv : jwtVerify token s.now with
  | none =>
    apply SameFor.of_fields <;> simp only [onAuthenticate, hv] <;> rfl
  | some decoded =>
    have hs : (onAuthenticate jwtVerify s c token).sockets =
        ((s.updateSocket c
          (fun k => { k with userId := some decoded.id, authenticated := true })).join
          c ("user_" ++ decoded.id)).sockets := by
      simp only [onAuthenticate, hv]
      rfl
    have hc : (onAuthenticate jwtVerify s c token).clients = JSMap.set s.clients c
        { userId := decoded.id, username := decoded.username, connectedAt := s.now } := by
      simp only [onAuthenticate, hv]
      rfl
    have hr : (onAuthenticate jwtVerify s c token).rooms = s.rooms := by
      simp only [onAuthenticate, hv]
      rfl
    refine ⟨?_, ?_, fun room => by rw [hr]⟩
    · rw [Manager.findSocket_congr hs d]
      exact ((SameFor.join_same h _ _).1).trans
        (Manager.findSocket_updateSocket_ne s h
          (fun k => { k with userId := some decoded.id, authenticated := true })
          (fun _ => rfl))
    · rw [hc]
      exact JSMap.get_set_other _ _ h

theorem SameFor.subscribe_same {c d : String} (h : d ≠ c) (s t : Manager) (room : String)
    (h1 : t.sockets = (s.join c room).sockets) (h2 : t.clients = s.clients)
    (h3 : t.rooms = registryAdd s.rooms room c) : SameFor d s t := by
  refine ⟨?_, by rw [h2], fun room' => ?_⟩
  · rw [Manager.findSocket_congr h1 d]
    exact (SameFor.join_same h s room).1
  · rw [h3]
    exact (SameFor.registryAdd_same h s room).2.2 room'

theorem SameFor.unsubscribe_same {c d : String} (h : d ≠ c) (s t : Manager) (room : String)
    (h1 : t.sockets = (s.leave c room).sockets) (h2 : t.clients = s.clients)
    (h3 : t.rooms = registryRemove s.rooms room c) : SameFor d s t := by
  refine ⟨?_, by rw [h2], fun room' => ?_⟩
  · rw [Manager.findSocket_congr h1 d]
    exact (SameFor.leave_same h s room).1
  · rw [h3]
    exact (SameFor.registryRemove_same h s room).2.2 room'

theorem SameFor.closeSocket_same {c d : String} (h : d ≠ c) {s : Manager}
    (hnd : (JSMap.keys s.rooms).Nodup) : SameFor d s (closeSocket s c) := by
  cases hf : s.findSocket c with
  | none => rw [closeSocket_of_not_connected hf]; exact SameFor.refl d s
  | some k =>
    rw [closeSocket_eq hnd hf]
    refine ⟨Manager.findSocket_filter_ne s h, JSMap.get_delete_other _ h, fun room => ?_⟩
    show d ∈ resolveSubscribers (registryWithout c s.rooms) room ↔ _
    rw [resolveSubscribers_registryWithout hnd, JSSet.mem_delete]
    exact ⟨fun h' => h'.1, fun h' => ⟨h', h⟩⟩

theorem SameFor.withSocket_same {d : String} (s : Manager) (id : String)
    (handler : Socket → Manager)
    (hh : ∀ k, s.findSocket id = some k → SameFor d s (handler k)) :
    SameFor d s (withSocket s id handler) := by
  unfold withSocket
  split
  next k hk => exact hh k hk
  · exact SameFor.refl d s

/-- C17. After every sequence of events, when a client event of the connection `c` is
handled (`authenticate`, the subscribes, the unsubscribes, the three queries, the end of
the connection), every other connection `d` is as before: the same socket with the same
authentication state, identity and joined rooms, the same entry of `this.clients`, and
membership of the same subscriber sets of `this.rooms`. -/
theorem other_connections_untouched (jwtVerify : String → Int → Option Decoded)
    (events : List Event) (e : Event) (c d : String) (he : e.socket = some c) (hd : d ≠ c) :
    (step jwtVerify (run jwtVerify Manager.init events) e).findSocket d =
      (run jwtVerify Manager.init events).findSocket d ∧
    JSMap.get (step jwtVerify (run jwtVerify Manager.init events) e).clients d =
      JSMap.get (run jwtVerify Manager.init events).clients d ∧
    ∀ room, d ∈ resolveSubscribers
        (step jwtVerify (run jwtVerify Manager.init events) e).rooms room ↔
      d ∈ resolveSubscribers (run jwtVerify Manager.init events).rooms room := by
  have hi := Inv.reachable jwtVerify events
  generalize run jwtVerify Manager.init events = s at hi
  show SameFor d s (step jwtVerify s e)
  cases e with
  | authenticate id token =>
    obtain rfl : id = c := Option.some.inj he
    exact SameFor.withSocket_same s id _ (fun _ _ => SameFor.onAuthenticate_same hd jwtVerify s token)
  | subscribe_streamer id streamerId =>
    obtain rfl : id = c := Option.some.inj he
    refine SameFor.withSocket_same s id _ (fun k hk => ?_)
    have hid : k.id = id := (Manager.findSocket_some hk).2
    unfold onSubscribeStreamer
    split
    · exact SameFor.of_fields rfl rfl rfl
    · rw [hid]
      apply SameFor.subscribe_same hd s _ ("streamer_" ++ streamerId) <;>
        (simp only [Manager.emit]; split <;> rfl)
  | unsubscribe_streamer id streamerId =>
    obtain rfl : id = c := Option.some.inj he
    refine SameFor.withSocket_same s id _ (fun k hk => ?_)
    have hid : k.id = id := (Manager.findSocket_some hk).2
    unfold onUnsubscribeStreamer
    rw [hid]
    exact SameFor.unsubscribe_same hd s _ ("streamer_" ++ streamerId) rfl rfl rfl
  | subscribe_game id gameId =>
    obtain rfl : id = c := Option.some.inj he
    refine SameFor.withSocket_same s id _ (fun k hk => ?_)
    have hid : k.id = id := (Manager.findSocket_some hk).2
    unfold onSubscribeGame
    split
    · exact SameFor.of_fields rfl rfl rfl
    · rw [hid]
      apply SameFor.subscribe_same hd s _ ("game_" ++ gameId) <;>
        (simp only [Manager.emit]; split <;> rfl)
  | unsubscribe_game id gameId =>
    obtain rfl : id = c := Option.some.inj he
    refine SameFor.withSocket_same s id _ (fun k hk => ?_)
    have hid : k.id = id := (Manager.findSocket_some hk).2
    unfold onUnsubscribeGame
    rw [hid]
    exact SameFor.unsubscribe_same hd s _ ("game_" ++ gameId) rfl rfl rfl
  | subscribe_global_trends id =>
    obtain rfl : id = c := Option.some.inj he
    refine SameFor.withSocket_same s id _ (fun k hk => ?_)
    have hid : k.id = id := (Manager.findSocket_some hk).2
    unfold onSubscribeGlobalTrends
    split
    · exact SameFor.of_fields rfl rfl rfl
    · rw [hid]
      exact (SameFor.join_same hd s "global_trends").trans (SameFor.of_fields rfl rfl rfl)
  | get_viewer_count id streamerId result =>
    refine SameFor.withSocket_same s id _ (fun k _ => ?_)
    unfold onGetViewerCount
    split <;> exact SameFor.of_fields rfl rfl rfl
  | check_live_status id streamerId result =>
    refine SameFor.withSocket_same s id _ (fun k _ => ?_)
    unfold onCheckLiveStatus
    split <;> exact SameFor.of_fields rfl rfl rfl
  | analyze_chat id streamerId result =>
    refine SameFor.withSocket_same s id _ (fun k _ => ?_)
    unfold onAnalyzeChat
    split
    · exact SameFor.of_fields rfl rfl rfl
    · split <;> exact SameFor.of_fields rfl rfl rfl
  | disconnect id =>
    obtain rfl : id = c := Option.some.inj he
    exact SameFor.closeSocket_same hd hi.roomKeys
  | connection id => cases he
  | broadcastStreamerUpdate streamerId data => cases he
  | broadcastGameTrendUpdate gameId trendData => cases he
  | broadcastGlobalTrends trendsData => cases he
  | broadcastAlert alertData => cases he
  | sendUserNotification userId notification => cases he
  | broadcastViewerCountUpdate streamerId count => cases he
  | broadcastLiveStatusChange streamerId isLive streamData => cases he
  | cleanupInactiveConnections => cases he
  | tick ms => cases he

/-- C17, on a run: `c1` and `c2` are both subscribed to streamer 42; when `c1` disconnects,
`c2` is still found with the same rooms and is still in the subscriber set. -/
theorem other_connections_untouched_run :
    (step sampleVerify (run sampleVerify Manager.init
        [Event.connection "c1", Event.authenticate "c1" "good",
         Event.connection "c2", Event.authenticate "c2" "good2",
         Event.subscribe_streamer "c1" "42", Event.subscribe_streamer "c2" "42"])
        (Event.disconnect "c1")).findSocket "c2" =
      (run sampleVerify Manager.init
        [Event.connection "c1", Event.authenticate "c1" "good",
         Event.connection "c2", Event.authenticate "c2" "good2",
         Event.subscribe_streamer "c1" "42", Event.subscribe_streamer "c2" "42"]).findSocket
        "c2" ∧
    (step sampleVerify (run sampleVerify Manager.init
        [Event.connection "c1", Event.authenticate "c1" "good",
         Event.connection "c2", Event.authenticate "c2" "good2",
         Event.subscribe_streamer "c1" "42", Event.subscribe_streamer "c2" "42"])
        (Event.disconnect "c1")).rooms = [("streamer_42", ["c2"])] :=
  ⟨(other_connections_untouched sampleVerify
      [Event.connection "c1", Event.authenticate "c1" "good",
       Event.connection "c2", Event.authenticate "c2" "good2",
       Event.subscribe_streamer "c1" "42", Event.subscribe_streamer "c2" "42"]
      (Event.disconnect "c1") "c1" "c2" rfl (by decide)).1,
   by decide⟩

/-! ## Two broadcasts in flight -/

/-- A call that resumes at once is the broadcast of the sequential model. -/
theorem asyncStep_call_resolve (s : Manager) (streamerId : String) (data : Json) :
    asyncStep (asyncStep { state := s, pending := [] } (AsyncEvent.call streamerId data))
        (AsyncEvent.resolve 0) =
      { state := broadcastStreamerUpdate s streamerId data, pending := [] } := by
  rfl

theorem asyncStep_sockets (m : AsyncManager) (e : AsyncEvent) :
    (asyncStep m e).state.sockets = m.state.sockets := by
  cases e with
  | call streamerId data => rfl
  | resolve i =>
    simp only [asyncStep]
    split <;> rfl
  | tick ms => rfl

theorem streamerUpdatesTo_append (l1 l2 : List (String × Emit)) (c x : String) :
    streamerUpdatesTo (l1 ++ l2) c x = streamerUpdatesTo l1 c x ++ streamerUpdatesTo l2 c x := by
  simp [streamerUpdatesTo, List.filterMap_append]

/-- What the connection `c` gets from one emit to the room of streamer `y`, when `c` has
joined the room of streamer `x`: the payload if `y` is `x`, nothing for `x` otherwise. -/
theorem streamerUpdatesTo_emit (l : List Socket) (hnd : (l.map Socket.id).Nodup) (k : Socket)
    (hk : k ∈ l) (x y : String) (hroom : "streamer_" ++ x ∈ k.rooms) (data ts : Json) :
    streamerUpdatesTo
      ((l.filter (fun k' => decide ("streamer_" ++ y ∈ k'.rooms))).map (fun k' =>
        (k'.id, Emit.mk "streamer_update"
          [("streamerId", Json.str y), ("data", data), ("timestamp", ts)]))) k.id x =
      if y = x then [data] else [] := by
  by_cases hyx : y = x
  · subst hyx
    simp only [if_true]
    induction l with
    | nil => exact absurd hk (List.not_mem_nil _)
    | cons a rest ih =>
      simp only [List.map_cons, List.nodup_cons, List.mem_map, not_exists, not_and] at hnd
      rcases List.mem_cons.1 hk with rfl | hmem
      · have hnone : streamerUpdatesTo
            ((rest.filter (fun k' => decide ("streamer_" ++ y ∈ k'.rooms))).map (fun k' =>
              (k'.id, Emit.mk "streamer_update"
                [("streamerId", Json.str y), ("data", data), ("timestamp", ts)]))) k.id y =
            [] := by
          unfold streamerUpdatesTo
          rw [List.filterMap_eq_nil_iff]
          intro m hm
          obtain ⟨k', hk', rfl⟩ := List.mem_map.1 hm
          have hne : ¬ k'.id = k.id := hnd.1 k' (List.mem_filter.1 hk').1
          simp [streamerUpdateData, hne]
        have hcons : (k :: rest).filter (fun k' => decide ("streamer_" ++ y ∈ k'.rooms)) =
            k :: rest.filter (fun k' => decide ("streamer_" ++ y ∈ k'.rooms)) := by
          simp [List.filter_cons, hroom]
        rw [hcons, List.map_cons]
        have happ := streamerUpdatesTo_append
          [(k.id, Emit.mk "streamer_update"
            [("streamerId", Json.str y), ("data", data), ("timestamp", ts)])]
          ((rest.filter (fun k' => decide ("streamer_" ++ y ∈ k'.rooms))).map (fun k' =>
            (k'.id, Emit.mk "streamer_update"
              [("streamerId", Json.str y), ("data", data), ("timestamp", ts)]))) k.id y
        simp only [List.singleton_append] at happ
        rw [happ, hnone]
        simp [streamerUpdatesTo, streamerUpdateData, JSMap.get]
      · have hne : ¬ a.id = k.id := fun h => hnd.1 k hmem h.symm
        by_cases ha : "streamer_" ++ y ∈ a.rooms
        · have hcons : (a :: rest).filter (fun k' => decide ("streamer_" ++ y ∈ k'.rooms)) =
              a :: rest.filter (fun k' => decide ("streamer_" ++ y ∈ k'.rooms)) := by
            simp [List.filter_cons, ha]
          rw [hcons, List.map_cons]
          have happ := streamerUpdatesTo_append
            [(a.id, Emit.mk "streamer_update"
              [("streamerId", Json.str y), ("data", data), ("timestamp", ts)])]
            ((rest.filter (fun k' => decide ("streamer_" ++ y ∈ k'.rooms))).map (fun k' =>
              (k'.id, Emit.mk "streamer_update"
                [("streamerId", Json.str y), ("data", data), ("timestamp", ts)]))) k.id y
          simp only [List.singleton_append] at happ
          rw [happ, ih hnd.2 hmem]
          simp [streamerUpdatesTo, streamerUpdateData, hne]
        · have hcons : (a :: rest).filter (fun k' => decide ("streamer_" ++ y ∈ k'.rooms)) =
              rest.filter (fun k' => decide ("streamer_" ++ y ∈ k'.rooms)) := by
            simp [List.filter_cons, ha]
          rw [hcons]
          exact ih hnd.2 hmem
  · simp only [hyx, if_false]
    unfold streamerUpdatesTo
    rw [List.filterMap_eq_nil_iff]
    intro m hm
    obtain ⟨k', _, rfl⟩ := List.mem_map.1 hm
    simp [streamerUpdateData, JSMap.get, hyx]

/-- One step keeps the balance when the write that resolves is the oldest one waiting: what
`c` has received for streamer `x`, followed by what is waiting for `x`, grows by exactly
the payload of a call for `x`. -/
theorem asyncStep_balance (m : AsyncManager) (e : AsyncEvent) (c x : String) (k : Socket)
    (hnd : (m.state.sockets.map Socket.id).Nodup) (hk : k ∈ m.state.sockets) (hid : k.id = c)
    (hroom : "streamer_" ++ x ∈ k.rooms) (h0 : ∀ i, e = AsyncEvent.resolve i → i = 0) :
    streamerUpdatesTo (asyncStep m e).state.sent c x ++ pendingFor (asyncStep m e).pending x =
      streamerUpdatesTo m.state.sent c x ++ pendingFor m.pending x ++ calledFor [e] x := by
  cases e with
  | call streamerId data =>
    simp only [asyncStep, pendingFor, calledFor, List.filterMap_append, List.filterMap_cons,
      List.filterMap_nil]
    split <;> simp
  | resolve i =>
    obtain rfl := h0 i rfl
    simp only [asyncStep, calledFor, List.filterMap_cons, List.filterMap_nil, List.append_nil]
    cases hp : m.pending with
    | nil => simp [hp]
    | cons p rest =>
      simp only [List.get?_cons_zero, List.eraseIdx_cons_zero, Manager.emitToRoom]
      rw [streamerUpdatesTo_append, ← hid,
        streamerUpdatesTo_emit m.state.sockets hnd k hk x p.streamerId hroom]
      simp only [pendingFor, List.filterMap_cons]
      by_cases hpx : p.streamerId = x <;> simp [hpx]
  | tick ms =>
    simp [asyncStep, calledFor]

theorem pendingFor_eraseIdx (x : String) (pending : List PendingBroadcast) :
    ∀ (i : Nat) (p : PendingBroadcast), pending.get? i = some p →
      (pendingFor pending x).Perm
        ((if p.streamerId = x then [p.data] else []) ++ pendingFor (pending.eraseIdx i) x) := by
  induction pending with
  | nil => intro i p h; simp at h
  | cons q rest ih =>
    intro i p h
    cases i with
    | zero =>
      simp only [List.get?_cons_zero, Option.some.injEq] at h
      subst h
      simp only [List.eraseIdx_cons_zero, pendingFor, List.filterMap_cons]
      by_cases hq : q.streamerId = x <;> simp [hq]
    | succ j =>
      simp only [List.get?_cons_succ] at h
      have := ih j p h
      simp only [List.eraseIdx_cons_succ, pendingFor, List.filterMap_cons] at this ⊢
      by_cases hq : q.streamerId = x
      · simp only [hq, if_true]
        refine (List.Perm.cons q.data this).trans ?_
        exact List.perm_middle.symm
      · simp only [hq, if_false]
        exact this

/-- One step, whichever write resolves: what `c` has received for streamer `x` together
with what is waiting for `x` grows by exactly the payload of a call for `x`, up to the
order. -/
theorem asyncStep_perm (m : AsyncManager) (e : AsyncEvent) (c x : String) (k : Socket)
    (hnd : (m.state.sockets.map Socket.id).Nodup) (hk : k ∈ m.state.sockets) (hid : k.id = c)
    (hroom : "streamer_" ++ x ∈ k.rooms) :
    (streamerUpdatesTo (asyncStep m e).state.sent c x ++
        pendingFor (asyncStep m e).pending x).Perm
      (streamerUpdatesTo m.state.sent c x ++ pendingFor m.pending x ++ calledFor [e] x) := by
  cases e with
  | resolve i =>
    simp only [asyncStep, calledFor, List.filterMap_cons, List.filterMap_nil, List.append_nil]
    cases hp : m.pending.get? i with
    | none => exact List.Perm.refl _
    | some p =>
      simp only [Manager.emitToRoom]
      rw [streamerUpdatesTo_append, ← hid,
        streamerUpdatesTo_emit m.state.sockets hnd k hk x p.streamerId hroom,
        List.append_assoc]
      exact List.Perm.append_left _ (pendingFor_eraseIdx x m.pending i p hp).symm
  | call streamerId data =>
    rw [asyncStep_balance m _ c x k hnd hk hid hroom (fun i h => by cases h)]
  | tick ms =>
    rw [asyncStep_balance m _ c x k hnd hk hid hroom (fun i h => by cases h)]

theorem calledFor_cons (e : AsyncEvent) (rest : List AsyncEvent) (x : String) :
    calledFor (e :: rest) x = calledFor [e] x ++ calledFor rest x := by
  show calledFor ([e] ++ rest) x = _
  simp only [calledFor, List.filterMap_append]

theorem asyncRun_balance (schedule : List AsyncEvent) (c x : String) (k : Socket) :
    ∀ m : AsyncManager, (m.state.sockets.map Socket.id).Nodup → k ∈ m.state.sockets →
      k.id = c → "streamer_" ++ x ∈ k.rooms → resolvesOldestFirst schedule = true →
      streamerUpdatesTo (asyncRun m schedule).state.sent c x ++
          pendingFor (asyncRun m schedule).pending x =
        streamerUpdatesTo m.state.sent c x ++ pendingFor m.pending x ++
          calledFor schedule x := by
  induction schedule with
  | nil => intro m _ _ _ _ _; simp [asyncRun, calledFor]
  | cons e rest ih =>
    intro m hnd hk hid hroom hfifo
    simp only [resolvesOldestFirst, List.all_cons, Bool.and_eq_true] at hfifo
    have he : ∀ i, e = AsyncEvent.resolve i → i = 0 := by
      intro i hi
      subst hi
      simpa using hfifo.1
    have hs := asyncStep_sockets m e
    have h1 := asyncStep_balance m e c x k hnd hk hid hroom he
    have h2 := ih (asyncStep m e) (hs ▸ hnd) (hs ▸ hk) hid hroom hfifo.2
    have hrun : asyncRun m (e :: rest) = asyncRun (asyncStep m e) rest := rfl
    rw [hrun, h2, h1, List.append_assoc, ← calledFor_cons]

theorem asyncRun_perm (schedule : List AsyncEvent) (c x : String) (k : Socket) :
    ∀ m : AsyncManager, (m.state.sockets.map Socket.id).Nodup → k ∈ m.state.sockets →
      k.id = c → "streamer_" ++ x ∈ k.rooms →
      (streamerUpdatesTo (asyncRun m schedule).state.sent c x ++
          pendingFor (asyncRun m schedule).pending x).Perm
        (streamerUpdatesTo m.state.sent c x ++ pendingFor m.pending x ++
          calledFor schedule x) := by
  induction schedule with
  | nil => intro m _ _ _ _; simp [asyncRun, calledFor]
  | cons e rest ih =>
    intro m hnd hk hid hroom
    have hs := asyncStep_sockets m e
    have h1 := asyncStep_perm m e c x k hnd hk hid hroom
    have h2 := ih (asyncStep m e) (hs ▸ hnd) (hs ▸ hk) hid hroom
    have hrun : asyncRun m (e :: rest) = asyncRun (asyncStep m e) rest := rfl
    rw [hrun, calledFor_cons, ← List.append_assoc]
    exact h2.trans (List.Perm.append_right _ h1)

/-- C20, as the code has it. Let `c` be subscribed to streamer `x` after some sequence of
events, and let calls of `broadcastStreamerUpdate`, resolutions of their cache writes and
ticks follow in any order. Whichever writes resolve first, the `streamer_update` payloads
for `x` that `c` has received during the schedule, together with the payloads still
waiting, are the payloads called for `x`, each once. When every write resolves while it is
the oldest one waiting, they are so in the order of the calls: for the calls with `p1` then
`p2`, `c` receives `p1` and then `p2`, whether the second call is made after the first has
resumed or while the first is still waiting. When the write of the second call resolves
before the write of the first, `c` receives `p2` and then `p1`. -/
theorem updates_arrive_in_call_order (jwtVerify : String → Int → Option Decoded)
    (events : List Event) (c x : String) (k : Socket)
    (hk : (run jwtVerify Manager.init events).findSocket c = some k)
    (hroom : "streamer_" ++ x ∈ k.rooms) :
    (∀ schedule,
      (streamerUpdatesTo
          (asyncRun { state := run jwtVerify Manager.init events, pending := [] }
            schedule).state.sent c x ++
        pendingFor
          (asyncRun { state := run jwtVerify Manager.init events, pending := [] }
            schedule).pending x).Perm
      (streamerUpdatesTo (run jwtVerify Manager.init events).sent c x ++
        calledFor schedule x)) ∧
    (∀ schedule, resolvesOldestFirst schedule = true →
      streamerUpdatesTo
          (asyncRun { state := run jwtVerify Manager.init events, pending := [] }
            schedule).state.sent c x ++
        pendingFor
          (asyncRun { state := run jwtVerify Manager.init events, pending := [] }
            schedule).pending x =
      streamerUpdatesTo (run jwtVerify Manager.init events).sent c x ++
        calledFor schedule x) ∧
    (∀ p1 p2,
      streamerUpdatesTo
          (asyncRun { state := run jwtVerify Manager.init events, pending := [] }
            [AsyncEvent.call x p1, AsyncEvent.resolve 0, AsyncEvent.call x p2,
             AsyncEvent.resolve 0]).state.sent c x =
        streamerUpdatesTo (run jwtVerify Manager.init events).sent c x ++ [p1, p2] ∧
      streamerUpdatesTo
          (asyncRun { state := run jwtVerify Manager.init events, pending := [] }
            [AsyncEvent.call x p1, AsyncEvent.call x p2, AsyncEvent.resolve 0,
             AsyncEvent.resolve 0]).state.sent c x =
        streamerUpdatesTo (run jwtVerify Manager.init events).sent c x ++ [p1, p2] ∧
      streamerUpdatesTo
          (asyncRun { state := run jwtVerify Manager.init events, pending := [] }
            [AsyncEvent.call x p1, AsyncEvent.call x p2, AsyncEvent.resolve 1,
             AsyncEvent.resolve 0]).state.sent c x =
        streamerUpdatesTo (run jwtVerify Manager.init events).sent c x ++ [p2, p1]) := by
  have hi := Inv.reachable jwtVerify events
  obtain ⟨hmem, hid⟩ := Manager.findSocket_some hk
  have key : ∀ schedule, resolvesOldestFirst schedule = true →
      streamerUpdatesTo
          (asyncRun { state := run jwtVerify Manager.init events, pending := [] }
            schedule).state.sent c x ++
        pendingFor
          (asyncRun { state := run jwtVerify Manager.init events, pending := [] }
            schedule).pending x =
      streamerUpdatesTo (run jwtVerify Manager.init events).sent c x ++
        calledFor schedule x := by
    intro schedule hfifo
    have := asyncRun_balance schedule c x k
      { state := run jwtVerify Manager.init events, pending := [] } hi.socketIds hmem hid hroom
      hfifo
    simpa [pendingFor] using this
  have hemit : ∀ (s : Manager) (data ts : Json),
      s.sockets = (run jwtVerify Manager.init events).sockets →
      streamerUpdatesTo (s.emitToRoom ("streamer_" ++ x)
        (Emit.mk "streamer_update"
          [("streamerId", Json.str x), ("data", data), ("timestamp", ts)])).sent c x =
        streamerUpdatesTo s.sent c x ++ [data] := by
    intro s data ts hs
    simp only [Manager.emitToRoom]
    rw [streamerUpdatesTo_append, ← hid, hs,
      streamerUpdatesTo_emit _ hi.socketIds k hmem x x hroom]
    simp
  refine ⟨?_, key, fun p1 p2 => ⟨?_, ?_, ?_⟩⟩
  · intro schedule
    have := asyncRun_perm schedule c x k
      { state := run jwtVerify Manager.init events, pending := [] } hi.socketIds hmem hid hroom
    simpa [pendingFor] using this
  · have := key [AsyncEvent.call x p1, AsyncEvent.resolve 0, AsyncEvent.call x p2,
      AsyncEvent.resolve 0] (by rfl)
    simpa [asyncRun, asyncStep, pendingFor, calledFor] using this
  · have := key [AsyncEvent.call x p1, AsyncEvent.call x p2, AsyncEvent.resolve 0,
      AsyncEvent.resolve 0] (by rfl)
    simpa [asyncRun, asyncStep, pendingFor, calledFor] using this
  · simp only [asyncRun, List.foldl, asyncStep, List.nil_append, List.singleton_append,
      List.get?_cons_succ, List.get?_cons_zero, List.eraseIdx_cons_succ,
      List.eraseIdx_cons_zero]
    rw [hemit, hemit]
    · simp
    · rfl
    · rfl

/-- C20 as amended, on a run: `c1` and `c2` are subscribed to streamer 7; 10 viewers and
then 20 viewers are published, the second call made while the first waits for its cache
write, and the writes resolve in the order of the calls. Each connection receives 10 and
then 20. -/
theorem updates_arrive_in_call_order_run :
    streamerUpdatesTo
        (asyncRun
          (AsyncManager.mk (run sampleVerify Manager.init
            [Event.connection "c1", Event.authenticate "c1" "good",
             Event.connection "c2", Event.authenticate "c2" "good2",
             Event.subscribe_streamer "c1" "7", Event.subscribe_streamer "c2" "7"]) [])
          [AsyncEvent.call "7" (Json.num 10), AsyncEvent.call "7" (Json.num 20),
           AsyncEvent.resolve 0, AsyncEvent.resolve 0]).state.sent "c2" "7" =
      streamerUpdatesTo (run sampleVerify Manager.init
            [Event.connection "c1", Event.authenticate "c1" "good",
             Event.connection "c2", Event.authenticate "c2" "good2",
             Event.subscribe_streamer "c1" "7", Event.subscribe_streamer "c2" "7"]).sent
          "c2" "7" ++ [Json.num 10, Json.num 20] :=
  ((updates_arrive_in_call_order sampleVerify
      [Event.connection "c1", Event.authenticate "c1" "good",
       Event.connection "c2", Event.authenticate "c2" "good2",
       Event.subscribe_streamer "c1" "7", Event.subscribe_streamer "c2" "7"] "c2" "7"
      { id := "c2", authenticated := true, userId := some "8",
        rooms := ["user_8", "streamer_7"] }
      (by decide) (by decide)).2.2 (Json.num 10) (Json.num 20)).2.1

/-- C20 as claimed fails: `c1` and `c2` are subscribed to streamer 7;
`broadcastStreamerUpdate("7", 10)` is called and then, while its cache write is awaited,
`broadcastStreamerUpdate("7", 20)`; the write of the second call resolves first. Nothing
in the method holds the second call back: each connection receives 20 and then 10. -/
theorem later_write_resolving_first_reverses_order :
    streamerUpdatesTo
        (asyncRun
          (AsyncManager.mk (run sampleVerify Manager.init
            [Event.connection "c1", Event.authenticate "c1" "good",
             Event.connection "c2", Event.authenticate "c2" "good2",
             Event.subscribe_streamer "c1" "7", Event.subscribe_streamer "c2" "7"]) [])
          [AsyncEvent.call "7" (Json.num 10), AsyncEvent.call "7" (Json.num 20),
           AsyncEvent.resolve 1, AsyncEvent.resolve 0]).state.sent "c1" "7" =
      [Json.num 20, Json.num 10] ∧
    streamerUpdatesTo
        (asyncRun
          (AsyncManager.mk (run sampleVerify Manager.init
            [Event.connection "c1", Event.authenticate "c1" "good",
             Event.connection "c2", Event.authenticate "c2" "good2",
             Event.subscribe_streamer "c1" "7", Event.subscribe_streamer "c2" "7"]) [])
          [AsyncEvent.call "7" (Json.num 10), AsyncEvent.call "7" (Json.num 20),
           AsyncEvent.resolve 1, AsyncEvent.resolve 0]).state.sent "c2" "7" =
      [Json.num 20, Json.num 10] := by
  decide

/-! ## The count of a room that is not in the registry -/

/-- C22. For a room that is not a key of `this.rooms`, `getRoomSubscriberCount` returns 0
(it is a query: it returns a number and has no access to change the registry), the
registry resolves the room to the empty set, and the room is not among the active
rooms. -/
theorem count_of_unknown_room (s : Manager) (room : String)
    (h : JSMap.has s.rooms room = false) :
    getRoomSubscriberCount s room = 0 ∧ resolveSubscribers s.rooms room = [] ∧
      room ∉ getActiveRooms s := by
  have hnone := JSMap.get_eq_none_iff.2 (JSMap.has_eq_false_iff.1 h)
  refine ⟨by simp [getRoomSubscriberCount, hnone], resolveSubscribers_of_not_has h, ?_⟩
  intro hmem
  obtain ⟨e, he, hkey⟩ := List.mem_map.1 hmem
  exact JSMap.has_eq_false_iff.1 h e he hkey

/-- C22, on a run: the only subscriber of streamer 42 has unsubscribed, and the count of
its room is 0. -/
theorem count_of_unknown_room_run :
    getRoomSubscriberCount (run sampleVerify Manager.init
      [Event.connection "c1", Event.authenticate "c1" "good",
       Event.subscribe_streamer "c1" "42", Event.unsubscribe_streamer "c1" "42"])
      "streamer_42" = 0 :=
  (count_of_unknown_room (run sampleVerify Manager.init
      [Event.connection "c1", Event.authenticate "c1" "good",
       Event.subscribe_streamer "c1" "42", Event.unsubscribe_streamer "c1" "42"])
      "streamer_42" (by decide)).1

/-! ## Unsubscribing undoes subscribing -/

theorem JSSet.delete_add {s : JSSet} {x : String} (h : x ∉ s) :
    JSSet.delete (JSSet.add s x) x = s := by
  have hne : ∀ y ∈ s, (y != x) = true := by
    intro y hy
    have : y ≠ x := fun e => h (e ▸ hy)
    simpa using this
  simp only [JSSet.add, h, if_false, JSSet.delete, List.filter_append]
  rw [List.filter_eq_self.2 hne]
  simp

theorem registryRemove_registryAdd {rooms : JSMap JSSet} (hnd : (JSMap.keys rooms).Nodup)
    (hne : ∀ e ∈ rooms, e.2 ≠ []) {room c : String}
    (hc : c ∉ resolveSubscribers rooms room) :
    registryRemove (registryAdd rooms room c) room c = rooms := by
  have hhas1 : JSMap.has (registryAdd rooms room c) room = true := by
    rw [registryAdd_eq]; exact JSMap.has_set _ _ _
  have hres1 : resolveSubscribers (registryAdd rooms room c) room =
      JSSet.add (resolveSubscribers rooms room) c := by
    rw [resolveSubscribers_registryAdd]; simp
  have hdel : JSSet.delete (resolveSubscribers (registryAdd rooms room c) room) c =
      resolveSubscribers rooms room := by
    rw [hres1, JSSet.delete_add hc]
  by_cases hhas : JSMap.has rooms room = true
  · obtain ⟨e, he, hkey⟩ := JSMap.has_iff.1 hhas
    have hget := JSMap.get_of_mem hnd (show (e.1, e.2) ∈ rooms from he)
    rw [hkey] at hget
    have hres : resolveSubscribers rooms room = e.2 := by simp [resolveSubscribers, hget]
    have hnn : JSSet.delete (resolveSubscribers (registryAdd rooms room c) room) c ≠ [] := by
      rw [hdel, hres]; exact hne e he
    rw [registryRemove_of_more hhas1 hnn, hdel, registryAdd_eq, JSMap.set_set, hres]
    exact JSMap.set_get_self hnd hget
  · have hf : JSMap.has rooms room = false := by simpa using hhas
    have hres : resolveSubscribers rooms room = [] := resolveSubscribers_of_not_has hf
    have hnil : JSSet.delete (resolveSubscribers (registryAdd rooms room c) room) c = [] := by
      rw [hdel, hres]
    rw [registryRemove_of_last hhas1 hnil, hnil, registryAdd_eq, JSMap.set_set,
      JSMap.set_of_not_has hf]
    have := JSMap.delete_at rooms [] room ([] : JSSet)
      (JSMap.has_eq_false_iff.1 hf) (fun _ h => absurd h (List.not_mem_nil _))
    simpa using this

theorem leave_join_sockets {s : Manager} (hnd : (s.sockets.map Socket.id).Nodup) {c : String}
    {k : Socket} (hk : s.findSocket c = some k) {room : String} (hroom : room ∉ k.rooms) :
    ((s.join c room).leave c room).sockets = s.sockets := by
  simp only [Manager.join, Manager.leave, Manager.updateSocket, List.map_map]
  conv => rhs; rw [← List.map_id s.sockets]
  apply List.map_congr_left
  intro k' hk'
  by_cases hid : k'.id = c
  · have hfind := Manager.findSocket_of_mem hnd hk'
    rw [hid, hk] at hfind
    have hkk : k = k' := Option.some.inj hfind
    subst hkk
    obtain ⟨i, a, u, r⟩ := k
    simp only at hid hroom
    simp [hid, JSSet.delete_add hroom]
  · simp [hid]

/-- A subscribe followed by the unsubscribe of the same topic, from a state where the
registry has distinct keys and no empty set, the socket ids are distinct, and the
connection is neither in the room nor in its subscriber set. -/
theorem unsubscribe_after_subscribe (s s1 s2 : Manager) (c room : String) (k : Socket)
    (hk : s.findSocket c = some k) (hi : Inv s) (hroom : room ∉ k.rooms)
    (hc : c ∉ resolveSubscribers s.rooms room)
    (h1 : s1.rooms = registryAdd s.rooms room c ∧ s1.sockets = (s.join c room).sockets)
    (h2 : s2.rooms = registryRemove s1.rooms room c ∧ s2.sockets = (s1.leave c room).sockets) :
    s2.rooms = s.rooms ∧ s2.sockets = s.sockets := by
  constructor
  · rw [h2.1, h1.1]
    exact registryRemove_registryAdd hi.roomKeys hi.nonempty hc
  · rw [h2.2]
    have : (s1.leave c room).sockets = ((s.join c room).leave c room).sockets := by
      simp only [Manager.leave, Manager.updateSocket, h1.2]
    rw [this]
    exact leave_join_sockets hi.socketIds hk hroom

/-- C25. After every sequence of events, for an authenticated connection `c` that is not
in the subscriber set of a streamer's (resp. game's) room: `subscribe_streamer` followed by
`unsubscribe_streamer` (resp. the two game events) leaves `this.rooms` exactly as it was,
with no entry left behind for a room that was not a key, and leaves every socket, so the
joined rooms of `c`, as it was. -/
theorem unsubscribe_undoes_subscribe (jwtVerify : String → Int → Option Decoded)
    (events : List Event) (c x : String) (k : Socket)
    (hk : (run jwtVerify Manager.init events).findSocket c = some k)
    (hauth : k.authenticated = true) :
    (c ∉ resolveSubscribers (run jwtVerify Manager.init events).rooms ("streamer_" ++ x) →
      (step jwtVerify (step jwtVerify (run jwtVerify Manager.init events)
          (Event.subscribe_streamer c x)) (Event.unsubscribe_streamer c x)).rooms =
        (run jwtVerify Manager.init events).rooms ∧
      (step jwtVerify (step jwtVerify (run jwtVerify Manager.init events)
          (Event.subscribe_streamer c x)) (Event.unsubscribe_streamer c x)).sockets =
        (run jwtVerify Manager.init events).sockets) ∧
    (c ∉ resolveSubscribers (run jwtVerify Manager.init events).rooms ("game_" ++ x) →
      (step jwtVerify (step jwtVerify (run jwtVerify Manager.init events)
          (Event.subscribe_game c x)) (Event.unsubscribe_game c x)).rooms =
        (run jwtVerify Manager.init events).rooms ∧
      (step jwtVerify (step jwtVerify (run jwtVerify Manager.init events)
          (Event.subscribe_game c x)) (Event.unsubscribe_game c x)).sockets =
        (run jwtVerify Manager.init events).sockets) := by
  have hi := Inv.reachable jwtVerify events
  constructor
  · intro hc
    have hroom : "streamer_" ++ x ∉ k.rooms := fun h =>
      hc ((joined_iff_registered jwtVerify events c _ k hk (Or.inl ⟨x, rfl⟩)).1 h)
    have h1 := step_subscribe_streamer_rooms jwtVerify hk hauth x
    have hk1 : (step jwtVerify (run jwtVerify Manager.init events)
        (Event.subscribe_streamer c x)).findSocket c =
        some { k with rooms := JSSet.add k.rooms ("streamer_" ++ x) } := by
      rw [Manager.findSocket_congr h1.2 c]; exact findSocket_join_self hk _
    have h2 := step_unsubscribe_streamer jwtVerify hk1 x
    refine unsubscribe_after_subscribe _ _ _ c _ k hk hi hroom hc h1 ⟨?_, ?_⟩
    · rw [h2]
    · rw [h2]
  · intro hc
    have hroom : "game_" ++ x ∉ k.rooms := fun h =>
      hc ((joined_iff_registered jwtVerify events c _ k hk (Or.inr ⟨x, rfl⟩)).1 h)
    have h1 := step_subscribe_game_rooms jwtVerify hk hauth x
    have hk1 : (step jwtVerify (run jwtVerify Manager.init events)
        (Event.subscribe_game c x)).findSocket c =
        some { k with rooms := JSSet.add k.rooms ("game_" ++ x) } := by
      rw [Manager.findSocket_congr h1.2 c]; exact findSocket_join_self hk _
    have h2 := step_unsubscribe_game jwtVerify hk1 x
    refine unsubscribe_after_subscribe _ _ _ c _ k hk hi hroom hc h1 ⟨?_, ?_⟩
    · rw [h2]
    · rw [h2]

/-- C25, on a run: `c1` is subscribed to game 1 and `c2` is not; `c2` subscribing and then
unsubscribing leaves the registry as it was. -/
theorem unsubscribe_undoes_subscribe_run :
    (step sampleVerify (step sampleVerify (run sampleVerify Manager.init
        [Event.connection "c1", Event.authenticate "c1" "good", Event.subscribe_game "c1" "1",
         Event.connection "c2", Event.authenticate "c2" "good2"])
        (Event.subscribe_game "c2" "1")) (Event.unsubscribe_game "c2" "1")).rooms =
      (run sampleVerify Manager.init
        [Event.connection "c1", Event.authenticate "c1" "good", Event.subscribe_game "c1" "1",
         Event.connection "c2", Event.authenticate "c2" "good2"]).rooms :=
  ((unsubscribe_undoes_subscribe sampleVerify
      [Event.connection "c1", Event.authenticate "c1" "good", Event.subscribe_game "c1" "1",
       Event.connection "c2", Event.authenticate "c2" "good2"] "c2" "1"
      { id := "c2", authenticated := true, userId := some "8", rooms := ["user_8"] }
      (by decide) rfl).2 (by decide)).1

/-! ## The fields of the replayed snapshot -/

/-- C21, the failing run: 10 viewers are published for streamer 7 and `c2` is subscribed, so
it receives the broadcast event, which has the fields `streamerId`, `data` and `timestamp`;
`c1` subscribes afterwards and the snapshot replayed to it has `streamerId` and `data` but
no `timestamp`. -/
theorem replayed_snapshot_has_no_timestamp :
    (run sampleVerify Manager.init
      [Event.connection "c1", Event.authenticate "c1" "good",
       Event.connection "c2", Event.authenticate "c2" "good2",
       Event.subscribe_streamer "c2" "7",
       Event.broadcastStreamerUpdate "7" (Json.num 10),
       Event.subscribe_streamer "c1" "7"]).sent.filter
        (fun m => m.2.name == "streamer_update") =
      [("c2", Emit.mk "streamer_update"
          [("streamerId", Json.str "7"), ("data", Json.num 10), ("timestamp", Json.num 0)]),
       ("c1", Emit.mk "streamer_update"
          [("streamerId", Json.str "7"), ("data", Json.num 10)])] ∧
    JSMap.has [("streamerId", Json.str "7"), ("data", Json.num 10)] "timestamp" = false ∧
    (run sampleVerify Manager.init
      [Event.connection "c1", Event.authenticate "c1" "good",
       Event.broadcastGameTrendUpdate "42" (Json.num 500),
       Event.subscribe_game "c1" "42"]).sent.filter
        (fun m => m.2.name == "game_trend_update") =
      [("c1", Emit.mk "game_trend_update"
          [("gameId", Json.str "42"), ("data", Json.num 500)])] := by
  decide

/-! ## What `getConnectedClientsCount` counts -/

theorem Recorded.of_eq_rec {s t : Manager} (h : Recorded s) (h1 : t.sockets = s.sockets)
    (h2 : t.clients = s.clients) : Recorded t := by
  intro k hk ha
  rw [h1] at hk
  rw [h2]
  exact h k hk ha

theorem Recorded.updateSocket_rec {s : Manager} (h : Recorded s) (id : String)
    (f : Socket → Socket) (hid : ∀ k, (f k).id = k.id)
    (hauth : ∀ k, (f k).authenticated = k.authenticated) : Recorded (s.updateSocket id f) := by
  intro k' hk' ha
  obtain ⟨k, hk, rfl⟩ := Manager.mem_updateSocket.1 hk'
  by_cases hc : k.id = id
  · simp only [hc, if_true] at ha ⊢
    rw [hid, hc]
    rw [hauth] at ha
    exact hc ▸ h k hk ha
  · simp only [hc, if_false] at ha ⊢
    exact h k hk ha

theorem JSMap.has_set_of_has {β : Type} {m : JSMap β} {k : String} (h : JSMap.has m k = true)
    (k' : String) (v : β) : JSMap.has (JSMap.set m k' v) k = true := by
  obtain ⟨e, he, hk⟩ := JSMap.has_iff.1 h
  by_cases hc : e.1 = k'
  · rw [← hk, hc]; exact JSMap.has_set m k' v
  · exact JSMap.has_iff.2 ⟨e, JSMap.mem_set.2 (Or.inl ⟨he, hc⟩), hk⟩

theorem Recorded.onAuthenticate_ok_rec {s : Manager} (h : Recorded s)
    (jwtVerify : String → Int → Option Decoded) (id token : String) :
    Recorded (onAuthenticate jwtVerify s id token) := by
  unfold onAuthenticate
  split
  next decoded _ =>
    intro k' hk' ha
    simp only [Manager.join, Manager.emit, Manager.updateSocket, List.map_map,
      List.mem_map, Function.comp] at hk' ⊢
    obtain ⟨k, hk, rfl⟩ := hk'
    by_cases hc : k.id = id
    · simp only [hc, if_true]
      exact JSMap.has_set _ _ _
    · simp only [hc, if_false] at ha ⊢
      exact JSMap.has_set_of_has (h k hk ha) _ _
  · exact h.of_eq_rec rfl rfl

theorem Recorded.closeSocket_ok_rec {s : Manager} (h : Recorded s)
    (hnd : (JSMap.keys s.rooms).Nodup) (id : String) : Recorded (closeSocket s id) := by
  cases hf : s.findSocket id with
  | none => rw [closeSocket_of_not_connected hf]; exact h
  | some k0 =>
    rw [closeSocket_eq hnd hf]
    intro k hk ha
    simp only [List.mem_filter, bne_iff_ne, ne_eq] at hk
    obtain ⟨e, he, hkey⟩ := JSMap.has_iff.1 (h k hk.1 ha)
    exact JSMap.has_iff.2 ⟨e, JSMap.mem_delete_key.2 ⟨he, hkey ▸ hk.2⟩, hkey⟩

theorem Recorded.cleanupFold_rec (now : Int) (entries : List (String × ClientInfo)) :
    ∀ {s : Manager}, Inv s → Recorded s → Recorded (entries.foldl (cleanupStep now) s) := by
  induction entries with
  | nil => intro s _ h; exact h
  | cons e rest ih =>
    intro s hi h
    refine ih (hi.cleanupStep_ok now e) ?_
    unfold cleanupStep
    simp only
    split
    · split
      · split
        · exact h.closeSocket_ok_rec hi.roomKeys _
        · exact h
      · exact h
    · exact h

theorem Recorded.withSocket_ok_rec {s : Manager} (h : Recorded s) (id : String)
    (handler : Socket → Manager) (hh : ∀ k, Recorded (handler k)) :
    Recorded (withSocket s id handler) := by
  unfold withSocket
  split
  · exact hh _
  · exact h

theorem Recorded.join_rec {s : Manager} (h : Recorded s) (id room : String) :
    Recorded (s.join id room) :=
  h.updateSocket_rec id _ (fun _ => rfl) (fun _ => rfl)

theorem Recorded.leave_rec {s : Manager} (h : Recorded s) (id room : String) :
    Recorded (s.leave id room) :=
  h.updateSocket_rec id _ (fun _ => rfl) (fun _ => rfl)

theorem Recorded.step_ok_rec {s : Manager} (hi : Inv s) (h : Recorded s)
    (jwtVerify : String → Int → Option Decoded) (e : Event) :
    Recorded (step jwtVerify s e) := by
  cases e with
  | connection id =>
    simp only [step]
    split
    · exact h
    · intro k hk ha
      simp only [List.mem_append, List.mem_singleton] at hk
      rcases hk with hk | rfl
      · exact h k hk ha
      · simp at ha
  | authenticate id token =>
    exact h.withSocket_ok_rec id _ (fun _ => h.onAuthenticate_ok_rec jwtVerify id token)
  | subscribe_streamer id streamerId =>
    refine h.withSocket_ok_rec id _ (fun k => ?_)
    unfold onSubscribeStreamer
    split
    · exact h.of_eq_rec rfl rfl
    · refine (h.join_rec k.id ("streamer_" ++ streamerId)).of_eq_rec ?_ ?_
      · simp only [Manager.emit]; split <;> rfl
      · simp only [Manager.emit]; split <;> rfl
  | unsubscribe_streamer id streamerId =>
    exact h.withSocket_ok_rec id _ (fun k =>
      (h.leave_rec k.id ("streamer_" ++ streamerId)).of_eq_rec rfl rfl)
  | subscribe_game id gameId =>
    refine h.withSocket_ok_rec id _ (fun k => ?_)
    unfold onSubscribeGame
    split
    · exact h.of_eq_rec rfl rfl
    · refine (h.join_rec k.id ("game_" ++ gameId)).of_eq_rec ?_ ?_
      · simp only [Manager.emit]; split <;> rfl
      · simp only [Manager.emit]; split <;> rfl
  | unsubscribe_game id gameId =>
    exact h.withSocket_ok_rec id _ (fun k =>
      (h.leave_rec k.id ("game_" ++ gameId)).of_eq_rec rfl rfl)
  | subscribe_global_trends id =>
    refine h.withSocket_ok_rec id _ (fun k => ?_)
    unfold onSubscribeGlobalTrends
    split
    · exact h.of_eq_rec rfl rfl
    · exact (h.join_rec k.id "global_trends").of_eq_rec rfl rfl
  | get_viewer_count id streamerId result =>
    refine h.withSocket_ok_rec id _ (fun k => ?_)
    unfold onGetViewerCount
    split <;> exact h.of_eq_rec rfl rfl
  | check_live_status id streamerId result =>
    refine h.withSocket_ok_rec id _ (fun k => ?_)
    unfold onCheckLiveStatus
    split <;> exact h.of_eq_rec rfl rfl
  | analyze_chat id streamerId result =>
    refine h.withSocket_ok_rec id _ (fun k => ?_)
    unfold onAnalyzeChat
    split
    · exact h.of_eq_rec rfl rfl
    · split <;> exact h.of_eq_rec rfl rfl
  | disconnect id => exact h.closeSocket_ok_rec hi.roomKeys id
  | broadcastStreamerUpdate streamerId data => exact h.of_eq_rec rfl rfl
  | broadcastGameTrendUpdate gameId trendData => exact h.of_eq_rec rfl rfl
  | broadcastGlobalTrends trendsData => exact h.of_eq_rec rfl rfl
  | broadcastAlert alertData => exact h.of_eq_rec rfl rfl
  | sendUserNotification userId notification => exact h.of_eq_rec rfl rfl
  | broadcastViewerCountUpdate streamerId count => exact h.of_eq_rec rfl rfl
  | broadcastLiveStatusChange streamerId isLive streamData => exact h.of_eq_rec rfl rfl
  | cleanupInactiveConnections => exact Recorded.cleanupFold_rec s.now s.clients hi h
  | tick ms => exact h.of_eq_rec rfl rfl

theorem Recorded.run_ok_rec (jwtVerify : String → Int → Option Decoded) (events : List Event) :
    ∀ {s : Manager}, Inv s → Recorded s → Recorded (run jwtVerify s events) := by
  induction events with
  | nil => intro s _ h; exact h
  | cons e rest ih => intro s hi h; exact ih (hi.step_ok jwtVerify e) (h.step_ok_rec hi jwtVerify e)

theorem Recorded.reachable_rec (jwtVerify : String → Int → Option Decoded)
    (events : List Event) : Recorded (run jwtVerify Manager.init events) :=
  Recorded.run_ok_rec jwtVerify events Inv.init (fun _ hk _ => absurd hk (List.not_mem_nil _))

/-- After every sequence of events `getConnectedClientsCount` is the number of connected
sockets that are authenticated, and so at most the number of connected sockets. -/
theorem getConnectedClientsCount_eq (jwtVerify : String → Int → Option Decoded)
    (events : List Event) :
    getConnectedClientsCount (run jwtVerify Manager.init events) =
      ((run jwtVerify Manager.init events).sockets.filter (fun k => k.authenticated)).length := by
  have hi := Inv.reachable jwtVerify events
  have hr := Recorded.reachable_rec jwtVerify events
  generalize run jwtVerify Manager.init events = s at hi hr
  have hnd2 : ((s.sockets.filter (fun k => k.authenticated)).map Socket.id).Nodup :=
    ((List.filter_sublist s.sockets).map Socket.id).nodup hi.socketIds
  have hperm : (JSMap.keys s.clients).Perm
      ((s.sockets.filter (fun k => k.authenticated)).map Socket.id) := by
    rw [List.perm_ext_iff_of_nodup hi.clientKeys hnd2]
    intro c
    constructor
    · intro hc
      obtain ⟨e, he, rfl⟩ := List.mem_map.1 hc
      obtain ⟨k, hk, hid, ha⟩ := hi.clientAuth e he
      exact List.mem_map.2 ⟨k, List.mem_filter.2 ⟨hk, ha⟩, hid⟩
    · intro hc
      obtain ⟨k, hk, rfl⟩ := List.mem_map.1 hc
      obtain ⟨hk1, ha⟩ := List.mem_filter.1 hk
      obtain ⟨e, he, hkey⟩ := JSMap.has_iff.1 (hr k hk1 ha)
      exact List.mem_map.2 ⟨e, he, hkey⟩
  have := hperm.length_eq
  simpa [getConnectedClientsCount, JSMap.keys] using this

/-- C28, the failing run: `c1` connects and does not authenticate; it is connected and has
not disconnected, and `getConnectedClientsCount` returns 0.  With a second connection that
authenticates twice, two connections are connected and the count is 1. -/
theorem anonymous_connection_is_not_counted :
    getConnectedClientsCount (run sampleVerify Manager.init [Event.connection "c1"]) = 0 ∧
    (run sampleVerify Manager.init [Event.connection "c1"]).connected "c1" = true ∧
    (run sampleVerify Manager.init [Event.connection "c1"]).sockets.length = 1 ∧
    getConnectedClientsCount (run sampleVerify Manager.init
      [Event.connection "c1", Event.connection "c2", Event.authenticate "c2" "good",
       Event.authenticate "c2" "good"]) = 1 ∧
    (run sampleVerify Manager.init
      [Event.connection "c1", Event.connection "c2", Event.authenticate "c2" "good",
       Event.authenticate "c2" "good"]).sockets.length = 2 := by
  decide

/-! ## When `CacheService.increment` sets the time to live -/

theorem RedisClient.lookup_set (store : JSMap Counter) (now : Int) (key : String) (e : Counter) :
    RedisClient.lookup (JSMap.set store key e) now key =
      match e.expiresAt with
      | some t => if now > t then none else some e
      | none => some e := by
  simp only [RedisClient.lookup, JSMap.get_set_same]

theorem RedisClient.lookup_live {store : JSMap Counter} {now : Int} {key : String}
    {e : Counter} (h : RedisClient.lookup store now key = some e) (v : Int) :
    RedisClient.lookup (JSMap.set store key { e with value := v }) now key =
      some { e with value := v } := by
  rw [RedisClient.lookup_set]
  unfold RedisClient.lookup at h
  cases hg : JSMap.get store key with
  | none => simp [hg] at h
  | some e0 =>
    simp only [hg] at h
    cases ht : e0.expiresAt with
    | none =>
      simp only [ht] at h
      cases h
      simp [ht]
    | some t =>
      simp only [ht] at h
      split at h
      · cases h
      · next hnot =>
        cases h
        simp [ht, hnot]

/-- A call for a key that does not exist creates it with the increment as its count and
a time to live of `ttl` seconds. -/
theorem CacheService.increment_of_new {store : JSMap Counter} {now : Int} {key : String}
    (h : RedisClient.lookup store now key = none) (n ttl : Int) :
    JSMap.get (CacheService.increment store now key n ttl).1 key =
        some { value := n, expiresAt := some (now + ttl * 1000) } ∧
      (CacheService.increment store now key n ttl).2 = n := by
  simp [CacheService.increment, RedisClient.incrBy, h, RedisClient.expire,
    RedisClient.lookup_set, JSMap.set_set, JSMap.get_set_same]

/-- A call for an existing key whose count is not 0 adds the increment and leaves the
expiry of the key as it is. -/
theorem CacheService.increment_of_existing {store : JSMap Counter} {now : Int} {key : String}
    {e : Counter} (h : RedisClient.lookup store now key = some e) (hv : e.value ≠ 0)
    (n ttl : Int) :
    CacheService.increment store now key n ttl =
      (JSMap.set store key { e with value := e.value + n }, e.value + n) := by
  have : ¬ e.value + n = n := by omega
  simp [CacheService.increment, RedisClient.incrBy, h, this]

/-- A call for an existing key whose count is 0 gives the key a new time to live. -/
theorem CacheService.increment_of_zero {store : JSMap Counter} {now : Int} {key : String}
    {e : Counter} (h : RedisClient.lookup store now key = some e) (hv : e.value = 0)
    (n ttl : Int) :
    JSMap.get (CacheService.increment store now key n ttl).1 key =
      some { value := n, expiresAt := some (now + ttl * 1000) } := by
  have hl := RedisClient.lookup_live h (e.value + n)
  simp only [CacheService.increment, RedisClient.incrBy, h, hv, zero_add, if_true,
    RedisClient.expire]
  rw [hv, zero_add] at hl
  rw [hl]
  simp [JSMap.set_set, JSMap.get_set_same]

/-- C29, the failing run: the key `rate_limit:u` is created at time 0 with a time to live
of 3600 s, decremented to 0, and incremented again 1000 s later.  The key exists before
the last call, with expiry 3600000, and the call moves its expiry to 4600000. -/
theorem increment_resets_ttl_of_zero_counter :
    RedisClient.lookup
        (CacheService.decrement (CacheService.increment [] 0 "rate_limit:u" 1 3600).1 0
          "rate_limit:u" 1).1 1000000 "rate_limit:u" =
      some { value := 0, expiresAt := some 3600000 } ∧
    CacheService.increment
        (CacheService.decrement (CacheService.increment [] 0 "rate_limit:u" 1 3600).1 0
          "rate_limit:u" 1).1 1000000 "rate_limit:u" 1 3600 =
      ([("rate_limit:u", { value := 1, expiresAt := some 4600000 })], 1) := by
  decide

/-! ## The previous hour of the trend-analysis job -/

/-- From hour 1 on, the job looks up the hour immediately before the current one. -/
theorem CronJobService.previousTrend_of_pos_hour (table : List GameTrendRow) (gameId : String)
    (d h : Int) (hh : h ≥ 1) :
    CronJobService.previousTrend table gameId d h =
      GameTrend.findOne table gameId (precedingHour d h).1 (precedingHour d h).2 := by
  simp [CronJobService.previousTrend, precedingHour, hh]

/-- At hour 0 the job asks for hour -1 of the current date: in a table whose hours are
within 0..23, which the `GameTrend` model enforces, it finds nothing and the growth rate is 0
whatever hour 23 of the day before holds. -/
theorem CronJobService.previousTrend_at_midnight (table : List GameTrendRow)
    (hvalid : ∀ r ∈ table, 0 ≤ r.hour ∧ r.hour ≤ 23) (gameId : String) (d v : Int) :
    CronJobService.previousTrend table gameId d 0 = none ∧
      CronJobService.analyze table gameId d 0 v = 0 := by
  have h : CronJobService.previousTrend table gameId d 0 = none := by
    simp only [CronJobService.previousTrend, GameTrend.findOne, List.find?_eq_none]
    intro r hr
    have := (hvalid r hr).1
    have hne : r.hour ≠ -1 := by omega
    simp [hne]
  exact ⟨h, by simp [CronJobService.analyze, h, CronJobService.previousViewers,
    CronJobService.growthRate]⟩

/-- C30, the failing run: game `g1` had 100 viewers at hour 23 of day 9 and has 150 now, at
hour 0 of day 10.  The hour before (10, 0) is (9, 23) and its record gives a growth of 50,
but the job looks up (10, -1), finds no record and stores a growth rate of 0. -/
theorem midnight_lookup_misses_previous_hour :
    precedingHour 10 0 = (9, 23) ∧
    GameTrend.findOne [{ game_id := "g1", date := 9, hour := 23, viewer_count := 100 }]
        "g1" 9 23 =
      some { game_id := "g1", date := 9, hour := 23, viewer_count := 100 } ∧
    CronJobService.growthRate 150 100 = 50 ∧
    CronJobService.previousTrend
        [{ game_id := "g1", date := 9, hour := 23, viewer_count := 100 }] "g1" 10 0 = none ∧
    CronJobService.analyze
        [{ game_id := "g1", date := 9, hour := 23, viewer_count := 100 }] "g1" 10 0 150 = 0 := by
  refine ⟨by decide, by decide, ?_, by decide, ?_⟩
  · norm_num [CronJobService.growthRate]
  · have h : CronJobService.previousTrend
        [{ game_id := "g1", date := 9, hour := 23, viewer_count := 100 }] "g1" 10 0 = none := by
      decide
    simp [CronJobService.analyze, h, CronJobService.previousViewers, CronJobService.growthRate]

/-! ## The reconnect counter and the warning of the client provider -/

theorem providerRun_append (token : String) (c : Provider) (events : List ProviderEvent)
    (e : ProviderEvent) :
    providerRun token c (events ++ [e]) = providerStep token (providerRun token c events) e := by
  simp [providerRun, List.foldl_append]

theorem providerStep_reconnectAttempts (token : String) (c : Provider) (e : ProviderEvent) :
    (providerStep token c e).reconnectAttempts =
      if e = ProviderEvent.connect then 0
      else if e = ProviderEvent.connect_error then c.reconnectAttempts + 1
      else c.reconnectAttempts := by
  cases e <;> simp [providerStep] <;> split <;> rfl

theorem failuresSinceConnect_append (events : List ProviderEvent) (e : ProviderEvent) :
    failuresSinceConnect (events ++ [e]) =
      if e = ProviderEvent.connect then 0
      else if e = ProviderEvent.connect_error then failuresSinceConnect events + 1
      else failuresSinceConnect events := by
  unfold failuresSinceConnect
  rw [List.reverse_append, List.reverse_singleton, List.singleton_append]
  by_cases h1 : e = ProviderEvent.connect
  · simp [h1, List.takeWhile]
  · have hb : (e != ProviderEvent.connect) = true := by simpa using h1
    have ht : List.takeWhile (fun e => e != ProviderEvent.connect) (e :: events.reverse) =
        e :: List.takeWhile (fun e => e != ProviderEvent.connect) events.reverse := by
      simp only [List.takeWhile, hb]
    rw [ht]
    by_cases h2 : e = ProviderEvent.connect_error
    · simp [h2]
    · simp [h1, h2]

theorem reconnectAttempts_eq (token : String) (events : List ProviderEvent) :
    (providerRun token Provider.mounted events).reconnectAttempts =
      failuresSinceConnect events := by
  induction events using List.reverseRecOn with
  | nil => rfl
  | append_singleton es e ih =>
    rw [providerRun_append, providerStep_reconnectAttempts, failuresSinceConnect_append, ih]

theorem providerStep_warnings (token : String) (c : Provider) (e : ProviderEvent) :
    (providerStep token c e).warnings =
      c.warnings +
        (if e = ProviderEvent.connect_error ∧ 5 ≤ c.reconnectAttempts + 1 then 1 else 0) := by
  cases e <;> simp [providerStep, Provider.warnings, maxReconnectAttempts] <;> split <;> simp

/-- C26. For every sequence of events of the provider: the counter `reconnectAttempts` is
the number of `connect_error` events since the most recent `connect`, so 0 right after a
`connect`; an event raises the warning toast exactly when it is a `connect_error` that
brings this number to 5 or more; and the `connect_error` handler leaves `connected`, the
subscriptions and the emitted events as they are, and calls neither `connect()` nor
`disconnect()` on the socket, so that the events that follow are handled as before. -/
theorem warning_after_five_failures (token : String) (events : List ProviderEvent) :
    (providerRun token Provider.mounted events).reconnectAttempts =
        failuresSinceConnect events ∧
    (providerRun token Provider.mounted (events ++ [ProviderEvent.connect])).reconnectAttempts
        = 0 ∧
    (∀ e : ProviderEvent,
      (providerRun token Provider.mounted (events ++ [e])).warnings =
        (providerRun token Provider.mounted events).warnings +
          (if e = ProviderEvent.connect_error ∧ 5 ≤ failuresSinceConnect (events ++ [e])
            then 1 else 0)) ∧
    (providerRun token Provider.mounted (events ++ [ProviderEvent.connect_error])).connected =
        (providerRun token Provider.mounted events).connected ∧
    (providerRun token Provider.mounted (events ++ [ProviderEvent.connect_error])).disconnected =
        (providerRun token Provider.mounted events).disconnected ∧
    (providerRun token Provider.mounted (events ++ [ProviderEvent.connect_error])).connectCalls =
        (providerRun token Provider.mounted events).connectCalls ∧
    (providerRun token Provider.mounted (events ++ [ProviderEvent.connect_error])).subscriptions =
        (providerRun token Provider.mounted events).subscriptions ∧
    (providerRun token Provider.mounted (events ++ [ProviderEvent.connect_error])).emitted =
        (providerRun token Provider.mounted events).emitted := by
  refine ⟨reconnectAttempts_eq token events, ?_, ?_, ?_, ?_, ?_, ?_, ?_⟩
  · rw [reconnectAttempts_eq, failuresSinceConnect_append]; simp
  · intro e
    rw [providerRun_append, providerStep_warnings, reconnectAttempts_eq,
      failuresSinceConnect_append]
    by_cases h : e = ProviderEvent.connect_error
    · simp [h]
    · simp [h]
  all_goals rw [providerRun_append]; rfl

/-! ## Reconnection of the client provider -/

theorem step_connection_authenticate_rooms (jwtVerify : String → Int → Option Decoded)
    (s : Manager) (id token : String) :
    (run jwtVerify s [Event.connection id, Event.authenticate id token]).rooms = s.rooms := by
  have h1 : ∀ t : Manager, (step jwtVerify t (Event.connection id)).rooms = t.rooms := by
    intro t
    simp only [step]
    split <;> rfl
  have h2 : ∀ t : Manager, (step jwtVerify t (Event.authenticate id token)).rooms = t.rooms := by
    intro t
    simp only [step, withSocket]
    split
    · unfold onAuthenticate
      split <;> rfl
    · rfl
  show (step jwtVerify (step jwtVerify s (Event.connection id))
    (Event.authenticate id token)).rooms = s.rooms
  rw [h2, h1]

/-- C27, the provider as it is. For every sequence of events of the provider followed by a
disconnect and a reconnect, the `connect` handler emits `authenticate` with the token and
nothing else, in particular no subscribe event, and the recorded subscriptions stay as
they were; and on the server, for every reachable state and every connection id that is
not connected, once the connection is made and its `authenticate` is handled the registry
holds no topic for it. -/
theorem reconnect_only_authenticates (token : String) (cevents : List ProviderEvent)
    (reason : String) (jwtVerify : String → Int → Option Decoded) (events : List Event)
    (id : String) (hfresh : (run jwtVerify Manager.init events).connected id = false) :
    (providerRun token Provider.mounted
        (cevents ++ [ProviderEvent.disconnect reason, ProviderEvent.connect])).emitted =
      (providerRun token Provider.mounted cevents).emitted ++ [("authenticate", some token)] ∧
    (providerRun token Provider.mounted
        (cevents ++ [ProviderEvent.disconnect reason, ProviderEvent.connect])).subscriptions =
      (providerRun token Provider.mounted cevents).subscriptions ∧
    registryTopicsOf
      (run jwtVerify (run jwtVerify Manager.init events)
        (Event.connection id :: List.filterMap (serverEvent id) [("authenticate", some token)]))
      id = [] := by
  refine ⟨?_, ?_, ?_⟩
  · simp [providerRun, List.foldl_append, providerStep]
  · simp [providerRun, List.foldl_append, providerStep]
  · have hi := Inv.reachable jwtVerify events
    have hev : List.filterMap (serverEvent id) [("authenticate", some token)] =
        [Event.authenticate id token] := by
      simp [serverEvent]
    rw [hev]
    unfold registryTopicsOf
    rw [step_connection_authenticate_rooms]
    have hnone : ∀ e ∈ (run jwtVerify Manager.init events).rooms, id ∉ e.2 := by
      intro e he hmem
      obtain ⟨k, hk, _⟩ := hi.member_connected he hmem
      simp [Manager.connected, hk] at hfresh
    rw [List.map_eq_nil_iff, List.filter_eq_nil_iff]
    intro e he
    simpa using hnone e he

/-- C27 as amended, on a run: the client subscribes to streamer 7 and global trends, loses
its connection `a` and reconnects as `b`. -/
theorem reconnect_only_authenticates_run :
    (providerRun "good" Provider.mounted
        ([ProviderEvent.connect, ProviderEvent.subscribeToStreamer "7",
          ProviderEvent.subscribeToGlobalTrends] ++
          [ProviderEvent.disconnect "transport close", ProviderEvent.connect])).subscriptions =
      (providerRun "good" Provider.mounted
        [ProviderEvent.connect, ProviderEvent.subscribeToStreamer "7",
          ProviderEvent.subscribeToGlobalTrends]).subscriptions ∧
    registryTopicsOf
      (run sampleVerify (run sampleVerify Manager.init
          [Event.connection "a", Event.authenticate "a" "good",
           Event.subscribe_streamer "a" "7", Event.disconnect "a"])
        (Event.connection "b" :: List.filterMap (serverEvent "b") [("authenticate", some "good")]))
      "b" = [] :=
  ⟨(reconnect_only_authenticates "good"
      [ProviderEvent.connect, ProviderEvent.subscribeToStreamer "7",
        ProviderEvent.subscribeToGlobalTrends] "transport close" sampleVerify
      [Event.connection "a", Event.authenticate "a" "good",
       Event.subscribe_streamer "a" "7", Event.disconnect "a"] "b" (by decide)).2.1,
   (reconnect_only_authenticates "good"
      [ProviderEvent.connect, ProviderEvent.subscribeToStreamer "7",
        ProviderEvent.subscribeToGlobalTrends] "transport close" sampleVerify
      [Event.connection "a", Event.authenticate "a" "good",
       Event.subscribe_streamer "a" "7", Event.disconnect "a"] "b" (by decide)).2.2⟩

/-- C27 as claimed fails: the client connects as `a`, subscribes to streamer 7, loses the
connection and reconnects as `b`.  Each event the client emits is handled by the server on
the connection it was emitted on.  After the reconnect the client records `streamer_7`,
the only event it emitted on `b` is `authenticate`, and the server registry holds no topic
for `b`: it has no entry at all, and `b` has joined its user room only. -/
theorem reconnect_leaves_subscriptions_unrestored :
    (providerRun "good" Provider.mounted
        [ProviderEvent.connect, ProviderEvent.subscribeToStreamer "7"]).emitted =
      [("authenticate", some "good"), ("subscribe_streamer", some "7")] ∧
    (providerRun "good" Provider.mounted
        [ProviderEvent.connect, ProviderEvent.subscribeToStreamer "7",
         ProviderEvent.disconnect "transport close", ProviderEvent.connect]).emitted =
      [("authenticate", some "good"), ("subscribe_streamer", some "7")] ++
        [("authenticate", some "good")] ∧
    (providerRun "good" Provider.mounted
        [ProviderEvent.connect, ProviderEvent.subscribeToStreamer "7",
         ProviderEvent.disconnect "transport close", ProviderEvent.connect]).subscriptions =
      ["streamer_7"] ∧
    registryTopicsOf
      (run sampleVerify Manager.init
        (Event.connection "a" ::
          List.filterMap (serverEvent "a")
            [("authenticate", some "good"), ("subscribe_streamer", some "7")] ++
         Event.disconnect "a" :: Event.connection "b" ::
          List.filterMap (serverEvent "b") [("authenticate", some "good")])) "b" = [] ∧
    (run sampleVerify Manager.init
        (Event.connection "a" ::
          List.filterMap (serverEvent "a")
            [("authenticate", some "good"), ("subscribe_streamer", some "7")] ++
         Event.disconnect "a" :: Event.connection "b" ::
          List.filterMap (serverEvent "b") [("authenticate", some "good")])).rooms = [] ∧
    ((run sampleVerify Manager.init
        (Event.connection "a" ::
          List.filterMap (serverEvent "a")
            [("authenticate", some "good"), ("subscribe_streamer", some "7")] ++
         Event.disconnect "a" :: Event.connection "b" ::
          List.filterMap (serverEvent "b") [("authenticate", some "good")])).findSocket "b").map
        Socket.rooms = some ["user_7"] := by
  decide

/-! ## The health check and the trending route -/

/-- The health check is registered under `/api/health` and answers there, whatever the
mounted routers are. -/
theorem api_health_is_routed (b : Backend) (h : GamesHandlers) (r : Routers) (p : Process)
    (url : String) (limit : Option Int) :
    dispatch (app b h r p)
        { method := "GET", originalUrl := url, path := ["api", "health"], limit := limit } =
      some (healthHandler p
        { method := "GET", originalUrl := url, path := ["api", "health"], limit := limit }) := by
  simp [app, dispatch, stripMount]

/-- C23, the failing request: with the routes of `server.js`, whatever the mounted routers
answer, `GET /health` is answered by the 404 handler, with the body
`{ error: 'Route not found', path: '/health' }`, and not with status 200 and a body whose
`status` is `OK`. -/
theorem health_path_is_not_found (b : Backend) (h : GamesHandlers) (r : Routers) (p : Process)
    (limit : Option Int) :
    dispatch (app b h r p)
        { method := "GET", originalUrl := "/health", path := ["health"], limit := limit } =
      some { status := 404,
             body := Body.object [("error", Field.str "Route not found"),
               ("path", Field.str "/health")] } := by
  simp [app, dispatch, stripMount, notFoundHandler]

/-- What the games router does with the path `/trending`: the route `/:gameId`, registered
before `/trending`, answers with `gameId` bound to `trending`. -/
theorem gamesRouter_trending (b : Backend) (h : GamesHandlers) (req : Request)
    (hm : req.method = "GET") :
    Router.handle (gamesRouter b h) req ["trending"] =
      some (GamesRouter.gameDetails b "trending") := by
  simp [gamesRouter, Router.handle, hm, matchRoute, JSMap.get]

/-- The details handler never answers with an array: its body is an object. -/
theorem gameDetails_body_object (b : Backend) (gameId : String) :
    ∃ fields, (GamesRouter.gameDetails b gameId).body = Body.object fields := by
  unfold GamesRouter.gameDetails
  simp only
  split
  · exact ⟨_, rfl⟩
  · split
    · exact ⟨_, rfl⟩
    · exact ⟨_, rfl⟩
    · split
      · split
        · exact ⟨_, rfl⟩
        · exact ⟨_, rfl⟩
      · exact ⟨_, rfl⟩

/-- The items the trending handler builds, when every lookup succeeds: one per game, the
item at position `i` having `name`, `rank` and `viewers`, with rank `index + i + 1`. -/
theorem trendingItems_rank (b : Backend) (games : List TwitchGame) :
    ∀ (index : Nat) (items : List JsonObject),
      GamesRouter.trendingItems b index games = .ok items →
      items.length = games.length ∧
      ∀ i (hi : i < items.length),
        JSMap.get (items.get ⟨i, hi⟩) "rank" = some (Field.int ((index + i : Nat) + 1)) ∧
        JSMap.has (items.get ⟨i, hi⟩) "name" = true ∧
        JSMap.has (items.get ⟨i, hi⟩) "viewers" = true := by
  induction games with
  | nil =>
    intro index items h
    simp only [GamesRouter.trendingItems, Except.ok.injEq] at h
    subst h
    exact ⟨rfl, fun i hi => absurd hi (Nat.not_lt_zero i)⟩
  | cons game rest ih =>
    intro index items h
    simp only [GamesRouter.trendingItems] at h
    split at h
    · cases h
    · next recentTrends _ =>
      split at h
      · cases h
      · next items1 hrest =>
        simp only [Except.ok.injEq] at h
        subst h
        obtain ⟨hlen, hitems⟩ := ih (index + 1) items1 hrest
        refine ⟨by simp [hlen], ?_⟩
        intro i hi
        cases i with
        | zero =>
          simp [GamesRouter.trendingItem, JSMap.get, JSMap.has]
        | succ j =>
          have hj : j < items1.length := by simpa using hi
          have := hitems j hj
          simp only [List.get_eq_getElem, List.getElem_cons_succ] at this ⊢
          refine ⟨?_, this.2⟩
          rw [this.1]
          congr 2
          omega

/-- C24, the failing request: with the routes of `server.js` and of the games router in
their registration order, whatever the other routers and handlers are, `GET
/api/games/trending` is answered by the details handler with `gameId` bound to `trending`,
for every backend; its body is an object and never an array; and with a backend that has
no game called `trending`, the answer is 404 with the body `{ error: 'Game not found' }`. -/
theorem trending_path_is_answered_by_game_details (h : GamesHandlers) (r : Routers)
    (p : Process) (limit : Option Int) :
    (∀ b : Backend,
      dispatch (app b h r p)
          { method := "GET", originalUrl := "/api/games/trending",
            path := ["api", "games", "trending"], limit := limit } =
        some (GamesRouter.gameDetails b "trending") ∧
      ∃ fields, (GamesRouter.gameDetails b "trending").body = Body.object fields) ∧
    dispatch (app Backend.empty h r p)
        { method := "GET", originalUrl := "/api/games/trending",
          path := ["api", "games", "trending"], limit := limit } =
      some { status := 404, body := Body.object [("error", Field.str "Game not found")] } := by
  have hd : ∀ b : Backend,
      dispatch (app b h r p)
          { method := "GET", originalUrl := "/api/games/trending",
            path := ["api", "games", "trending"], limit := limit } =
        some (GamesRouter.gameDetails b "trending") := by
    intro b
    simp [app, dispatch, stripMount, gamesRouter_trending]
  refine ⟨fun b => ⟨hd b, gameDetails_body_object b "trending"⟩, ?_⟩
  rw [hd]
  rfl

end TwitchTrend
